import Mathlib

/-!
# Notepad++ notification router: `Notepad_plus::notify`

A shallow embedding of `PowerEditor/src/NppNotification.cpp`.  The single
C++ function `Notepad_plus::notify` is a `switch` over the notification code;
here each `case` is one definition (`notify_SCN_MODIFIED`, ...) and `notify`
dispatches over them.

* `State` holds what the router itself reads and writes between two
  notifications: the flags of `Notepad_plus`, the function-local statics, the
  recorded steps and the flags of every buffer.
* `Env` holds what the toolkit and the other collaborators answer when the
  router queries them during one dispatch (window handles, settings, texts).
* `Cmd` is the ordered trace of the calls the router issues to them, with
  the writes of `_isFolding` between them, so that the value of the flag
  while a call runs can be read off the trace.
* `Fault` is a C++ exception leaving `notify`; only the checked access
  `std::string::at` raises one.

What the collaborators do when called (closing a file, activating a buffer,
a nested dispatch from a modal loop) is outside `notify`: such a call appears
in the trace, and a value the source reads back from a collaborator is an
answer of `Env`.  A buffer is looked up by its id with a total function, as
the source dereferences the pointers it gets without a test.
-/

namespace NppNotification

/-! ## Data model -/

abbrev HWND := Nat

/-- `BufferID` is a `Buffer *` in the source; `BUFFER_INVALID` is the null one. -/
abbrev BufferID := Nat

def BUFFER_INVALID : BufferID := 0

/-- The two editor surfaces, `MAIN_VIEW` and `SUB_VIEW`. -/
inductive View where
  | MAIN_VIEW
  | SUB_VIEW
  deriving DecidableEq, Repr

def View.other : View → View
  | .MAIN_VIEW => .SUB_VIEW
  | .SUB_VIEW => .MAIN_VIEW

/-- The values of `notification->nmhdr.code` that `notify` has a case for. -/
inductive Code where
  | SCN_MODIFIED
  | SCN_SAVEPOINTREACHED
  | SCN_SAVEPOINTLEFT
  | SCN_MODIFYATTEMPTRO
  | SCN_KEY
  | TCN_MOUSEHOVERING
  | TCN_MOUSEHOVERSWITCHING
  | TCN_MOUSELEAVING
  | TCN_TABDROPPEDOUTSIDE
  | TCN_TABDROPPED
  | TCN_TABDELETE
  | TCN_SELCHANGE
  | NM_CLICK
  | NM_DBLCLK
  | NM_RCLICK
  | SCN_MARGINCLICK
  | SCN_MARGINRIGHTCLICK
  | SCN_FOLDINGSTATECHANGED
  | SCN_CHARADDED
  | SCN_DOUBLECLICK
  | SCN_UPDATEUI
  | TTN_GETDISPINFO
  | SCN_ZOOM
  | SCN_MACRORECORD
  | SCN_PAINTED
  | SCN_NEEDSHOWN
  | SCN_CALLTIPCLICK
  | RBN_HEIGHTCHANGE
  | RBN_CHEVRONPUSHED
  | other (code : Nat)
  deriving DecidableEq, Repr

/-- The notification record: `SCNotification`, and the fields of the records
the source casts it to (`TBHDR`, `NMMOUSE`, `TOOLTIPTEXT`, `NMREBARCHEVRON`). -/
structure SCNotification where
  hwndFrom : HWND := 0
  idFrom : Nat := 0
  code : Code := .other 0
  position : Int := 0
  ch : Nat := 0
  modifiers : Nat := 0
  modificationType : Nat := 0
  length : Int := 0
  message : Nat := 0
  wParam : Nat := 0
  lParam : Int := 0
  line : Int := 0
  foldLevelNow : Int := 0
  foldLevelPrev : Int := 0
  margin : Nat := 0
  updated : Nat := 0
  tabOrigin : Int := 0
  dwItemSpec : Nat := 0
  wID : Nat := 0
  uBand : Nat := 0
  deriving DecidableEq, Repr

/-- The part of a `Buffer` that `notify` reads or writes. -/
structure Buffer where
  isDirty : Bool := false
  isLoadedDirty : Bool := false
  isUnsync : Bool := false
  fullPathName : List Char := []
  userReadOnly : Bool := false
  fileReadOnly : Bool := false
  isMonitoringOn : Bool := false
  isUntitled : Bool := false
  deriving DecidableEq, Repr

/-- One `recordedMacroStep`. -/
structure recordedMacroStep where
  message : Nat
  wParam : Nat
  lParam : Int
  codepage : Int
  deriving DecidableEq, Repr

/-- What `notify` reads and writes across notifications. -/
structure State where
  /-- the function-local `static bool prevWasEdit` of the `SCN_MODIFIED` case -/
  prevWasEdit : Bool := false
  linkTriggered : Bool := false
  isFolding : Bool := false
  recordingMacro : Bool := false
  playingBackMacro : Bool := false
  activeView : View := .MAIN_VIEW
  /-- the member `_macro` -/
  macroSeq : List recordedMacroStep := []
  /-- the buffers of the file manager, by id -/
  buffers : BufferID → Buffer := fun _ => {}
  /-- the setting `NppGUI::_disableSmartHiliteTmp`, written by `SCN_UPDATEUI` -/
  disableSmartHiliteTmp : Bool := false
  mainWrapRestoreNeeded : Bool := false
  subWrapRestoreNeeded : Bool := false
  docMapTemporarilyShowing : Bool := false
  tabPopupDropMenuCreated : Bool := false
  tabPopupMenuCreated : Bool := false
  fileSwitcherMultiFilePopupMenuCreated : Bool := false
  /-- the function-local `static TCHAR docTip[1024]` of the tooltip case -/
  docTip : List Char := []

inductive FileTransferMode where
  | TransferClone
  | TransferMove
  deriving DecidableEq, Repr

/-- Menu commands named by the `NM_RCLICK` case. -/
inductive MenuID where
  | IDM_FILE_SAVE
  | IDM_EDIT_SETREADONLY
  | IDM_EDIT_CLEARREADONLY
  | IDM_FILE_DELETE
  | IDM_FILE_OPEN_FOLDER
  | IDM_FILE_OPEN_CMD
  | IDM_FILE_OPEN_DEFAULT_VIEWER
  | IDM_VIEW_GOTO_NEW_INSTANCE
  | IDM_VIEW_LOAD_IN_NEW_INSTANCE
  deriving DecidableEq, Repr

/-- Pop-up menus `notify` opens with `TrackPopupMenu` or `display`. -/
inductive Popup where
  | language
  | eolFormat
  | bookmark
  | tabPopupDropMenu
  | tabPopupMenu
  | fileSwitcherMultiFilePopupMenu
  deriving DecidableEq, Repr

/-- The calls `notify` issues to its collaborators, in the order issued,
and between them the writes of `_isFolding`, the member that the code
running inside a later call reads. -/
inductive Cmd where
  | setIsFolding (isFolding : Bool)
  | updateBeginEndSelectPosition (isInsert : Bool) (position length : Int)
  | invalidateRect (v : View) (erase : Bool)
  | foldChanged (v : View) (line levelNow levelPrev : Int)
  | peekerDoDialog (buf : BufferID) (tab : View)
  | peekerDisplay (toShow : Bool)
  | peekerSaveCurrentSnapshot (v : View)
  | docMapShowInMapTemporarily (buf : BufferID) (v : Option View)
  | docMapReloadMap
  | docMapSetSyntaxHiliting
  | docMapFold (line : Int) (folded : Bool)
  | docMapWrapMap
  | docMapScrollMap
  | menuCreate (m : Popup)
  | menuDisplay (m : Popup)
  | menuEnableItem (item : MenuID) (enable : Bool)
  | menuCheckItem (item : MenuID) (check : Bool)
  | docGotoAnotherEditView (mode : FileTransferMode)
  | messageBoxCannotMoveDoc
  | sendSwitchViewFromHwnd (hWinParent hWin : HWND)
  | sendCopyData (hWinParent : HWND) (quotFileName : List Char)
  | fileClose (buf : BufferID) (v : View)
  | sendClose
  | sendSize
  | docOpenInNewInstance (mode : FileTransferMode)
  | resetDraggingPoint
  | activateBuffer (buf : BufferID) (v : View)
  | checkDocState
  | switchEditViewTo (v : View)
  | backupCurrentBuffer
  | setOvertype (overtype : Bool)
  | statusBarSetTypingMode
  | goToLineDlg
  | command_IDM_VIEW_SUMMARY
  | marginClick (position : Int) (modifiers : Nat)
  | bookmarkToggle (line : Int)
  | smartHighlightView (v other : View)
  | smartHighlightViewWithWord (v : View)
  | addHotSpot (v : Option View)
  | maintainIndentation (ch : Nat)
  | autoCInsertMatchedChars (v : View) (ch : Nat)
  | autoCUpdate (v : View) (ch : Nat)
  | autoCCallTipClick (v : View) (position : Int)
  | setCurrentPos (v : View) (pos : Int)
  | setAnchor (v : View) (pos : Int)
  | postLButtonUp (v : View)
  | setSel (v : View) (a b : Int)
  | shellExecuteOpen (startPos endPos : Int)
  | braceMatch
  | tagMatch (attrs : Bool)
  | updateStatusBar
  | funcListMarkEntry
  | tooltipHinstNull
  | tooltipSzText (text : List Char)
  | tooltipLpszTextDocTip
  | restoreCurrentPosPostStep (v : View)
  | restoreCurrentPosPreStep (v : View)
  | updateLineNumberWidth (v : View)
  | doSynScorll (hwnd : HWND)
  | toolBarDoPopop
  | forwardToBandChild (hwndChild : HWND)
  deriving Repr

/-- A C++ exception that leaves `notify`. -/
inductive Fault where
  /-- `std::out_of_range`, thrown by `std::string::at` -/
  | out_of_range
  deriving DecidableEq, Repr

/-- What one call of `notify` yields: the `BOOL` returned, the state after
and the calls issued. -/
structure Result where
  ret : Bool
  st : State
  cmds : List Cmd

/-- The answers of the toolkit and of the collaborators during one dispatch. -/
structure Env where
  /- window handles (`getHSelf()`) -/
  hMainEditView : HWND := 1
  hSubEditView : HWND := 2
  hMainDocTab : HWND := 3
  hSubDocTab : HWND := 4
  hInvisibleEditView : HWND := 5
  hFileEditView : HWND := 6
  hStatusBar : HWND := 7
  hRebarTop : HWND := 8
  hRebarBottom : HWND := 9
  hPublicInterface : HWND := 10
  /-- `_pDocumentListPanel`, a pointer that may be null -/
  hDocumentListPanel : Option HWND := none
  /- settings: `NppParameters` and `NppGUI` -/
  isSnapshotMode : Bool := false
  isDocPeekOnTab : Bool := false
  isDocPeekOnMap : Bool := false
  maitainIndent : Bool := false
  hasAnyPairsPair : Bool := false
  delimiterSelectionOnEntireDocument : Bool := false
  leftmostDelimiter : Char := '('
  rightmostDelimiter : Char := ')'
  smartHiliteOnAnotherView : Bool := false
  enableTagsMatchHilite : Bool := false
  enableTagAttrsHilite : Bool := false
  enableSmartHilite : Bool := false
  isFindReplacing : Bool := false
  /- file manager and views -/
  getCurrentBufferID : View → BufferID := fun _ => 1
  getBufferByIndex : View → Int → BufferID := fun _ _ => 1
  getCurrentTabIndex : View → Int := fun _ => 0
  /-- `getBufferFromDocument` of the document shown in `_invisibleEditView` -/
  invisibleViewBuffer : BufferID := BUFFER_INVALID
  /-- `getBufferFromDocument` of the document shown in `_fileEditView` -/
  fileViewBuffer : BufferID := BUFFER_INVALID
  fileCloseResult : BufferID → View → Bool := fun _ _ => true
  noOpenedDoc : Bool := false
  /- editor control queries -/
  canUndo : View → Bool := fun _ => false
  getCurrentPos : View → Int := fun _ => 0
  getOvertype : View → Bool := fun _ => false
  lineFromPosition : View → Int → Int := fun _ _ => 0
  isFolded : View → Int → Bool := fun _ _ => false
  markerMarginClick : View → Int → Bool := fun _ _ => false
  getSelections : View → Nat := fun _ => 1
  getCodepage : View → Int := fun _ => 0
  getText : View → List Char := fun _ => []
  getCurLine : View → List Char := fun _ => []
  positionFromCurrentLine : View → Int := fun _ => 0
  indicatorAllOnFor : View → Int → Nat := fun _ _ => 0
  indicatorStart : View → Int → Int := fun _ _ => 0
  indicatorEnd : View → Int → Int := fun _ _ => 0
  /- windowing toolkit queries -/
  isInCtrlStat : Bool := false
  windowFromDraggingPoint : HWND := 0
  isInNppZone : Bool := false
  getParent : HWND → HWND := fun _ => 0
  classNameMatches : HWND → Bool := fun _ => false
  childWindowFromCursor : HWND := 0
  getNameStrFromCmd : Int → List Char := fun _ => []
  hasEditMenu : Bool := true
  hasEolFormatMenu : Bool := true
  hasSearchMenu : Bool := true
  hasBookmarkMenu : Bool := true
  isSaveMenuEnabled : Bool := true
  pathFileExists : List Char → Bool := fun _ => false
  isAssoCommandExisting : List Char → Bool := fun _ => false
  nbSelectedFiles : Nat := 0
  /- optional panels: `none` is a null pointer, else (isClosed, isVisible) -/
  docMap : Option (Bool × Bool) := none
  funcList : Option (Bool × Bool) := none
  doSync : Bool := false
  bandChild : HWND → Nat → HWND := fun _ _ => 0

/-! ## Constants of the editor control and of the toolkit -/

def SC_MOD_INSERTTEXT : Nat := 0x1
def SC_MOD_DELETETEXT : Nat := 0x2
def SC_MOD_CHANGEFOLD : Nat := 0x8
def SC_PERFORMED_UNDO : Nat := 0x20
def SC_PERFORMED_REDO : Nat := 0x40
def SC_MOD_CHANGEINDICATOR : Nat := 0x4000
def SC_UPDATE_CONTENT : Nat := 0x1
def SC_UPDATE_SELECTION : Nat := 0x2
def SC_UPDATE_V_SCROLL : Nat := 0x4
def SCMOD_CTRL : Nat := 2
def URL_INDIC : Nat := 8
def SC_MARGE_FOLDER : Nat := 2
def SC_MARGE_SYBOLE : Nat := 1
def STATUSBAR_DOC_TYPE : Nat := 0
def STATUSBAR_DOC_SIZE : Nat := 1
def STATUSBAR_CUR_POS : Nat := 2
def STATUSBAR_EOF_FORMAT : Nat := 3
def STATUSBAR_TYPING_MODE : Nat := 5
def REBAR_BAR_TOOLBAR : Nat := 0
def LINKTRIGGERED : Nat := 1024 + 555

/-- The C test `x & mask` used as a condition. -/
def hasBits (x mask : Nat) : Bool := (x &&& mask) != 0

/-! ## Source resolution -/

def isFromPrimary (e : Env) (n : SCNotification) : Bool :=
  e.hMainEditView == n.hwndFrom || e.hMainDocTab == n.hwndFrom

def isFromSecondary (e : Env) (n : SCNotification) : Bool :=
  !isFromPrimary e n && (e.hSubEditView == n.hwndFrom || e.hSubDocTab == n.hwndFrom)

/-- The pointer `notifyView`; `none` is `nullptr`. -/
def notifyView (e : Env) (n : SCNotification) : Option View :=
  if isFromPrimary e n then some .MAIN_VIEW
  else if isFromSecondary e n then some .SUB_VIEW
  else none

/-- The pointer `notifyDocTab`: the tab strip of the resolved side. -/
def notifyDocTab (e : Env) (n : SCNotification) : View :=
  if isFromPrimary e n then .MAIN_VIEW else .SUB_VIEW

def hEditView (e : Env) : View → HWND
  | .MAIN_VIEW => e.hMainEditView
  | .SUB_VIEW => e.hSubEditView

def hDocTab (e : Env) : View → HWND
  | .MAIN_VIEW => e.hMainDocTab
  | .SUB_VIEW => e.hSubDocTab

/-! ## Writes to a buffer -/

/-- `buf->setDirty(isDirty)` on the buffer `id`: the write of the dirty flag,
the one `buf->isDirty()` reads. -/
def setDirty (s : State) (id : BufferID) (isDirty : Bool) : State :=
  { s with buffers := fun i => if i = id then { s.buffers id with isDirty := isDirty } else s.buffers i }

/-- Modelled from the spec: `Buffer::setModifiedStatus`, a method of the class
`Buffer`, which is declared in another file of the repository.  The spec
says of the call `getCurrentBuffer()->setModifiedStatus(true)` that it marks
the buffer dirty, so with `true` it sets the dirty flag of the buffer `id`;
`notify` never calls it with `false`, which leaves the buffer as it is.  The
source's comment at the call is `// for the backup system`. -/
def setModifiedStatus (s : State) (id : BufferID) (isModified : Bool) : State :=
  if isModified then setDirty s id true else s

/-- Modelled from the spec: `Notepad_plus::switchEditViewTo`, whose body is not
in this file of the source; the spec says it switches the active view. -/
def switchEditViewTo (s : State) (v : View) : State :=
  { s with activeView := v }

/-! ## The cases of `notify` -/

/-- `case SCN_MODIFIED`. -/
def notify_SCN_MODIFIED (e : Env) (s : State) (n : SCNotification) : Result :=
  match notifyView e n with
  | none => ⟨false, s, []⟩
  | some v =>
    let mt := n.modificationType
    let isEdit := hasBits mt (SC_MOD_DELETETEXT ||| SC_MOD_INSERTTEXT)
    let s1 := if isEdit then { s with prevWasEdit := true, linkTriggered := true } else s
    let c1 := if isEdit then
        [Cmd.updateBeginEndSelectPosition (hasBits mt SC_MOD_INSERTTEXT) n.position n.length,
         Cmd.invalidateRect v true]
      else []
    let s2 :=
      if hasBits mt (SC_MOD_DELETETEXT ||| SC_MOD_INSERTTEXT ||| SC_PERFORMED_UNDO ||| SC_PERFORMED_REDO) then
        setModifiedStatus s1 (e.getCurrentBufferID s1.activeView) true
      else s1
    let s3 :=
      if hasBits mt SC_MOD_CHANGEFOLD then
        if s2.prevWasEdit then { s2 with prevWasEdit := false } else s2
      else if !isEdit then { s2 with prevWasEdit := false }
      else s2
    let c3 :=
      if hasBits mt SC_MOD_CHANGEFOLD && s2.prevWasEdit then
        [Cmd.foldChanged v n.line n.foldLevelNow n.foldLevelPrev]
      else []
    let c4 := if hasBits mt SC_MOD_CHANGEINDICATOR then [Cmd.invalidateRect v false] else []
    ⟨false, s3, c1 ++ c3 ++ c4⟩

/-- The buffer a save-point notification is about; `none` where the source
leaves the case with `break` before it has one. -/
def savePointBuffer (e : Env) (n : SCNotification) : Option BufferID :=
  if isFromPrimary e n then some (e.getCurrentBufferID .MAIN_VIEW)
  else if isFromSecondary e n then some (e.getCurrentBufferID .SUB_VIEW)
  else
    if n.hwndFrom == e.hInvisibleEditView then
      let id := e.invisibleViewBuffer
      if id != BUFFER_INVALID then some id else none
    else if n.hwndFrom == e.hFileEditView then
      let id := e.fileViewBuffer
      if id != BUFFER_INVALID then some id else none
    else none

/-- The value passed to `buf->setDirty` by the save-point case. -/
def savePointDirty (e : Env) (s : State) (n : SCNotification) (buf : Buffer) : Bool :=
  let isDirty := n.code == Code.SCN_SAVEPOINTLEFT
  let isSnapshotMode := e.isSnapshotMode
  let isDirty :=
    if isSnapshotMode && !isDirty then
      let canUndo := e.canUndo s.activeView
      if !canUndo && buf.isLoadedDirty && buf.isDirty then true else isDirty
    else isDirty
  if buf.isUnsync then true else isDirty

/-- `case SCN_SAVEPOINTREACHED: case SCN_SAVEPOINTLEFT`. -/
def notify_SCN_SAVEPOINT (e : Env) (s : State) (n : SCNotification) : Result :=
  match savePointBuffer e n with
  | none => ⟨false, s, []⟩
  | some id => ⟨false, setDirty s id (savePointDirty e s n (s.buffers id)), []⟩

/-- `_pDocMap && (!_pDocMap->isClosed()) && _pDocMap->isVisible()`, and the
same test on `_pFuncList`. -/
def panelShown : Option (Bool × Bool) → Bool
  | none => false
  | some (isClosed, isVisible) => !isClosed && isVisible

/-- `isFromPrimary ? &_mainDocTab : (isFromSecondary ? &_subDocTab : nullptr)`. -/
def pTabDocView (e : Env) (n : SCNotification) : Option View :=
  if isFromPrimary e n then some .MAIN_VIEW
  else if isFromSecondary e n then some .SUB_VIEW
  else none

/-- `pBuf != currentBufMain && pBuf != currentBufSub`. -/
def hoverOnOtherTab (e : Env) (pBuf : BufferID) : Bool :=
  pBuf != e.getCurrentBufferID .MAIN_VIEW && pBuf != e.getCurrentBufferID .SUB_VIEW

/-- `case TCN_MOUSEHOVERING: case TCN_MOUSEHOVERSWITCHING`. -/
def notify_TCN_MOUSEHOVERING (e : Env) (s : State) (n : SCNotification) : Result :=
  let c1 :=
    if e.isDocPeekOnTab then
      match pTabDocView e n with
      | some tab =>
        let pBuf := e.getBufferByIndex tab n.tabOrigin
        if hoverOnOtherTab e pBuf then [Cmd.peekerDoDialog pBuf tab] else [Cmd.peekerDisplay false]
      | none => []
    else []
  let onMap := e.isDocPeekOnMap && panelShown e.docMap
  let c2 :=
    if onMap then
      match pTabDocView e n with
      | some tab =>
        let pBuf := e.getBufferByIndex tab n.tabOrigin
        if hoverOnOtherTab e pBuf then
          [Cmd.docMapShowInMapTemporarily pBuf (notifyView e n), Cmd.docMapSetSyntaxHiliting]
        else [Cmd.docMapReloadMap, Cmd.docMapSetSyntaxHiliting]
      | none => []
    else []
  let s1 := if onMap && (pTabDocView e n).isSome then { s with docMapTemporarilyShowing := true } else s
  ⟨false, s1, c1 ++ c2⟩

/-- `case TCN_MOUSELEAVING`. -/
def notify_TCN_MOUSELEAVING (e : Env) (s : State) : Result :=
  let c1 := if e.isDocPeekOnTab then [Cmd.peekerDisplay false] else []
  let onMap := e.isDocPeekOnMap && panelShown e.docMap
  let c2 := if onMap then [Cmd.docMapReloadMap, Cmd.docMapSetSyntaxHiliting] else []
  let s1 := if onMap then { s with docMapTemporarilyShowing := false } else s
  ⟨false, s1, c1 ++ c2⟩

/-- `isInCtrlStat ? TransferClone : TransferMove`. -/
def transferMode (e : Env) : FileTransferMode :=
  if e.isInCtrlStat then .TransferClone else .TransferMove

/-- The branch of the tab-drop case taken when the window under the drop
point belongs to another instance (`// another Notepad++`). -/
def dropOnOtherInstance (e : Env) (s : State) (n : SCNotification) (hWin hWinParent : HWND)
    (quotFileName : List Char) : List Cmd :=
  let index := e.getCurrentTabIndex s.activeView
  let bufferToClose := e.getBufferByIndex (notifyDocTab e n) index
  let buf := s.buffers bufferToClose
  let iView := if isFromPrimary e n then View.MAIN_VIEW else View.SUB_VIEW
  if buf.isDirty then
    [Cmd.messageBoxCannotMoveDoc]
  else
    [Cmd.sendSwitchViewFromHwnd hWinParent hWin, Cmd.sendCopyData hWinParent quotFileName] ++
      (if !e.isInCtrlStat then
        [Cmd.fileClose bufferToClose iView] ++ (if e.noOpenedDoc then [Cmd.sendClose] else [])
      else [])

/-- `case TCN_TABDROPPEDOUTSIDE: case TCN_TABDROPPED`. -/
def notify_TCN_TABDROPPED (e : Env) (s : State) (n : SCNotification) : Result :=
  if n.code == Code.TCN_TABDROPPEDOUTSIDE then
    let hWin := e.windowFromDraggingPoint
    if hWin == hEditView e s.activeView then
      let c := if !s.tabPopupDropMenuCreated then [Cmd.menuCreate .tabPopupDropMenu] else []
      ⟨true, { s with tabPopupDropMenuCreated := true },
        c ++ [Cmd.menuDisplay .tabPopupDropMenu, Cmd.resetDraggingPoint]⟩
    else if hWin == hDocTab e s.activeView.other || hWin == hEditView e s.activeView.other then
      ⟨true, s, [Cmd.docGotoAnotherEditView (transferMode e), Cmd.resetDraggingPoint]⟩
    else if e.isInNppZone then
      ⟨true, s, []⟩
    else
      let quotFileName := ['"'] ++ (s.buffers (e.getCurrentBufferID s.activeView)).fullPathName ++ ['"']
      let hWinParent := e.getParent hWin
      if e.classNameMatches hWinParent && hWinParent != e.hPublicInterface then
        ⟨true, s, dropOnOtherInstance e s n hWin hWinParent quotFileName ++ [Cmd.resetDraggingPoint]⟩
      else
        ⟨true, s, [Cmd.docOpenInNewInstance (transferMode e), Cmd.resetDraggingPoint]⟩
  else
    ⟨true, s, [Cmd.resetDraggingPoint]⟩

/-- `case TCN_TABDELETE`. -/
def notify_TCN_TABDELETE (e : Env) (s : State) (n : SCNotification) : Result :=
  let index := n.tabOrigin
  let bufferToClose := e.getBufferByIndex (notifyDocTab e n) index
  let buf := s.buffers bufferToClose
  let iView := if isFromPrimary e n then View.MAIN_VIEW else View.SUB_VIEW
  let c1 := if buf.isDirty then [Cmd.activateBuffer bufferToClose iView] else []
  let c2 := if e.fileCloseResult bufferToClose iView then [Cmd.checkDocState] else []
  ⟨false, s, c1 ++ [Cmd.fileClose bufferToClose iView] ++ c2⟩

/-- The statement `_isFolding = isFolding`: the state after it, and its
entry in the trace. -/
def writeIsFolding (s : State) (isFolding : Bool) : State × List Cmd :=
  ({ s with isFolding := isFolding }, [Cmd.setIsFolding isFolding])

/-- `case TCN_SELCHANGE`. -/
def notify_TCN_SELCHANGE (e : Env) (s : State) (n : SCNotification) : Result :=
  let iView : Option View :=
    if n.hwndFrom == e.hMainDocTab then some .MAIN_VIEW
    else if n.hwndFrom == e.hSubDocTab then some .SUB_VIEW
    else none
  match iView with
  | none => ⟨false, s, []⟩
  | some iView =>
    let s1 := switchEditViewTo s iView
    let bufid := e.getBufferByIndex s1.activeView (e.getCurrentTabIndex s1.activeView)
    let c0 := [Cmd.peekerSaveCurrentSnapshot s.activeView, Cmd.switchEditViewTo iView]
    if bufid != BUFFER_INVALID then
      let raised := writeIsFolding s1 true
      let lowered := writeIsFolding raised.1 false
      ⟨false, lowered.1,
        c0 ++ raised.2 ++ [Cmd.activateBuffer bufid iView] ++ lowered.2 ++ [Cmd.peekerDisplay false]⟩
    else
      ⟨false, s1, c0 ++ [Cmd.peekerDisplay false]⟩

/-- `case NM_CLICK`. -/
def notify_NM_CLICK (e : Env) (s : State) (n : SCNotification) : Result :=
  if n.hwndFrom == e.hStatusBar then
    if n.dwItemSpec == STATUSBAR_TYPING_MODE then
      ⟨false, s, [Cmd.setOvertype (!e.getOvertype s.activeView), Cmd.statusBarSetTypingMode]⟩
    else ⟨false, s, []⟩
  else if n.hwndFrom == e.hMainDocTab && s.activeView == View.SUB_VIEW then
    ⟨false, switchEditViewTo s .MAIN_VIEW,
      (if e.isSnapshotMode then [Cmd.backupCurrentBuffer] else []) ++ [Cmd.switchEditViewTo .MAIN_VIEW]⟩
  else if n.hwndFrom == e.hSubDocTab && s.activeView == View.MAIN_VIEW then
    ⟨false, switchEditViewTo s .SUB_VIEW,
      (if e.isSnapshotMode then [Cmd.backupCurrentBuffer] else []) ++ [Cmd.switchEditViewTo .SUB_VIEW]⟩
  else ⟨false, s, []⟩

/-- The end-of-line-format menu of the status bar, in `NM_DBLCLK` and
`NM_RCLICK`: `return TRUE` where a submenu is missing. -/
def eolFormatMenu (e : Env) : Option (List Cmd) :=
  if !e.hasEditMenu then none
  else if !e.hasEolFormatMenu then none
  else some [Cmd.menuDisplay .eolFormat]

/-- `case NM_DBLCLK`. -/
def notify_NM_DBLCLK (e : Env) (s : State) (n : SCNotification) : Result :=
  if n.hwndFrom == e.hStatusBar then
    if n.dwItemSpec == STATUSBAR_CUR_POS then ⟨false, s, [Cmd.goToLineDlg]⟩
    else if n.dwItemSpec == STATUSBAR_DOC_SIZE then ⟨false, s, [Cmd.command_IDM_VIEW_SUMMARY]⟩
    else if n.dwItemSpec == STATUSBAR_DOC_TYPE then ⟨false, s, [Cmd.menuDisplay .language]⟩
    else if n.dwItemSpec == STATUSBAR_EOF_FORMAT then
      match eolFormatMenu e with
      | none => ⟨true, s, []⟩
      | some c => ⟨false, s, c⟩
    else ⟨false, s, []⟩
  else ⟨false, s, []⟩

/-- The tail of `NM_RCLICK`: the tab context menu, created once, its items
enabled and checked from the current buffer before each display. -/
def tabContextMenu (e : Env) (s : State) (pre : List Cmd) : Result :=
  let c0 := if !s.tabPopupMenuCreated then [Cmd.menuCreate .tabPopupMenu] else []
  let buf := s.buffers (e.getCurrentBufferID s.activeView)
  let isFileExisting := e.pathFileExists buf.fullPathName
  let c1 :=
    [Cmd.menuEnableItem .IDM_FILE_SAVE e.isSaveMenuEnabled,
     Cmd.menuCheckItem .IDM_EDIT_SETREADONLY buf.userReadOnly,
     Cmd.menuEnableItem .IDM_EDIT_SETREADONLY (!buf.fileReadOnly && !buf.isMonitoringOn),
     Cmd.menuEnableItem .IDM_EDIT_CLEARREADONLY buf.fileReadOnly,
     Cmd.menuEnableItem .IDM_FILE_DELETE isFileExisting,
     Cmd.menuEnableItem .IDM_FILE_OPEN_FOLDER isFileExisting,
     Cmd.menuEnableItem .IDM_FILE_OPEN_CMD isFileExisting,
     Cmd.menuEnableItem .IDM_FILE_OPEN_DEFAULT_VIEWER (e.isAssoCommandExisting buf.fullPathName),
     Cmd.menuEnableItem .IDM_VIEW_GOTO_NEW_INSTANCE (!(buf.isDirty || buf.isUntitled)),
     Cmd.menuEnableItem .IDM_VIEW_LOAD_IN_NEW_INSTANCE (!(buf.isDirty || buf.isUntitled)),
     Cmd.menuDisplay .tabPopupMenu]
  ⟨true, { s with tabPopupMenuCreated := true }, pre ++ c0 ++ c1⟩

/-- `case NM_RCLICK`. -/
def notify_NM_RCLICK (e : Env) (s : State) (n : SCNotification) : Result :=
  if n.hwndFrom == e.hMainDocTab then
    tabContextMenu e (switchEditViewTo s .MAIN_VIEW) [Cmd.switchEditViewTo .MAIN_VIEW]
  else if n.hwndFrom == e.hSubDocTab then
    tabContextMenu e (switchEditViewTo s .SUB_VIEW) [Cmd.switchEditViewTo .SUB_VIEW]
  else if n.hwndFrom == e.hStatusBar then
    if n.dwItemSpec == STATUSBAR_DOC_TYPE then ⟨true, s, [Cmd.menuDisplay .language]⟩
    else if n.dwItemSpec == STATUSBAR_EOF_FORMAT then
      match eolFormatMenu e with
      | none => ⟨true, s, []⟩
      | some c => ⟨true, s, c⟩
    else ⟨true, s, []⟩
  else if e.hDocumentListPanel == some n.hwndFrom then
    if e.nbSelectedFiles > 1 then
      let c := if !s.fileSwitcherMultiFilePopupMenuCreated then
          [Cmd.menuCreate .fileSwitcherMultiFilePopupMenu] else []
      ⟨true, { s with fileSwitcherMultiFilePopupMenuCreated := true },
        c ++ [Cmd.menuDisplay .fileSwitcherMultiFilePopupMenu]⟩
    else tabContextMenu e s []
  else ⟨true, s, []⟩

/-- The start of both margin cases: switch to the edit view the click is from. -/
def marginSwitch (e : Env) (s : State) (n : SCNotification) : State × List Cmd :=
  if n.hwndFrom == e.hMainEditView then
    (switchEditViewTo s .MAIN_VIEW, [Cmd.switchEditViewTo .MAIN_VIEW])
  else if n.hwndFrom == e.hSubEditView then
    (switchEditViewTo s .SUB_VIEW, [Cmd.switchEditViewTo .SUB_VIEW])
  else (s, [])

/-- `isFromPrimary ? &_subEditView : &_mainEditView`. -/
def unfocusView (e : Env) (n : SCNotification) : View :=
  if isFromPrimary e n then .SUB_VIEW else .MAIN_VIEW

/-- `isFromPrimary ? &_autoCompleteMain : &_autoCompleteSub`. -/
def autoC (e : Env) (n : SCNotification) : View :=
  if isFromPrimary e n then .MAIN_VIEW else .SUB_VIEW

/-- `case SCN_MARGINCLICK`. -/
def notify_SCN_MARGINCLICK (e : Env) (s : State) (n : SCNotification) : Result :=
  let (s1, c0) := marginSwitch e s n
  let lineClick := e.lineFromPosition s1.activeView n.position
  if n.margin == SC_MARGE_FOLDER then
    ⟨false, s1, c0 ++ [Cmd.marginClick n.position n.modifiers] ++
      (if e.docMap.isSome then [Cmd.docMapFold lineClick (e.isFolded s1.activeView lineClick)] else []) ++
      [Cmd.smartHighlightView s1.activeView (unfocusView e n)]⟩
  else if n.margin == SC_MARGE_SYBOLE && n.modifiers == 0 then
    ⟨false, s1, c0 ++
      (if !e.markerMarginClick s1.activeView lineClick then [Cmd.bookmarkToggle lineClick] else [])⟩
  else ⟨false, s1, c0⟩

/-- `case SCN_MARGINRIGHTCLICK`. -/
def notify_SCN_MARGINRIGHTCLICK (e : Env) (s : State) (n : SCNotification) : Result :=
  let (s1, c0) := marginSwitch e s n
  if n.margin == SC_MARGE_SYBOLE && n.modifiers == 0 then
    ⟨false, s1, c0 ++ (if e.hasSearchMenu && e.hasBookmarkMenu then [Cmd.menuDisplay .bookmark] else [])⟩
  else ⟨false, s1, c0⟩

/-- `case SCN_FOLDINGSTATECHANGED`. -/
def notify_SCN_FOLDINGSTATECHANGED (e : Env) (s : State) (n : SCNotification) : Result :=
  if n.hwndFrom == e.hMainEditView || n.hwndFrom == e.hSubEditView then
    let lineClicked := n.line
    ⟨true, s,
      (if !s.isFolding then [Cmd.addHotSpot none] else []) ++
      (if e.docMap.isSome then [Cmd.docMapFold lineClicked (e.isFolded s.activeView lineClicked)] else [])⟩
  else ⟨true, s, []⟩

/-- `case SCN_CHARADDED`. -/
def notify_SCN_CHARADDED (e : Env) (s : State) (n : SCNotification) : Result :=
  if !s.recordingMacro && !s.playingBackMacro then
    let indentMaintain := e.maitainIndent
    let isColumnMode := decide (e.getSelections s.activeView > 1)
    ⟨false, s,
      (if indentMaintain then [Cmd.maintainIndentation n.ch] else []) ++
      (if e.hasAnyPairsPair && !isColumnMode then [Cmd.autoCInsertMatchedChars (autoC e n) n.ch] else []) ++
      [Cmd.autoCUpdate (autoC e n) n.ch]⟩
  else ⟨false, s, []⟩

/-! ## Delimiter selection (Ctrl + double click)

Machine integers, as in the 64-bit build: `size_t` is 64 bits wide,
`int32_t`, `int` and `unsigned int` are 32 bits wide; conversions wrap.
The text `bufstring` is a list of characters, indexed from 0. -/

/-- Conversion to `size_t`. -/
def toSizeT (z : Int) : Nat := (z % 2 ^ 64).toNat

/-- Conversion of an unsigned value to `int32_t` / `int`. -/
def toInt32 (n : Nat) : Int :=
  if n % 2 ^ 32 < 2 ^ 31 then ((n % 2 ^ 32 : Nat) : Int) else ((n % 2 ^ 32 : Nat) : Int) - 2 ^ 32

/-- Conversion of an `int` to `unsigned int`. -/
def toUInt32 (z : Int) : Nat := (z % 2 ^ 32).toNat

/-- The checked access `bufstring.at(i)`. -/
def strAt (bufstring : List Char) (i : Nat) : Except Fault Char :=
  match bufstring[i]? with
  | some c => .ok c
  | none => .error .out_of_range

/-- The test `i > 0 && bufstring.at(i - 1) == '\\'`. -/
def escapedAt (bufstring : List Char) (i : Nat) : Except Fault Bool :=
  if i > 0 then
    match strAt bufstring (i - 1) with
    | .ok c => .ok (c == '\\')
    | .error f => .error f
  else .ok false

/-- The body of either loop of the identical-delimiter scan at index `i`:
`true` when the loop records `i` and breaks. -/
def delimiterAt (bufstring : List Char) (delim : Char) (i : Nat) : Except Fault Bool :=
  match strAt bufstring i with
  | .error f => .error f
  | .ok c =>
    if c == delim then
      if delim == '"' then
        match escapedAt bufstring i with
        | .ok esc => .ok (!esc)
        | .error f => .error f
      else .ok true
    else .ok false

/-- The loop `for (int32_t i = ...; i >= 0; --i)` from index `i` down; the
value is `leftmost_position` after it. -/
def leftScan (bufstring : List Char) (delim : Char) : Nat → Except Fault Int
  | 0 =>
    match delimiterAt bufstring delim 0 with
    | .error f => .error f
    | .ok true => .ok 0
    | .ok false => .ok (-1)
  | i + 1 =>
    match delimiterAt bufstring delim (i + 1) with
    | .error f => .error f
    | .ok true => .ok ((i + 1 : Nat) : Int)
    | .ok false => leftScan bufstring delim i

/-- The loop `for (size_t i = position_of_click; i < bufstring.length(); ++i)`
from index `i` on; `fuel` counts the indices left, and the value is
`rightmost_position` after the loop. -/
def rightScan (bufstring : List Char) (delim : Char) : Nat → Nat → Except Fault Int
  | 0, _ => .ok (-1)
  | fuel + 1, i =>
    if i < bufstring.length then
      match delimiterAt bufstring delim i with
      | .error f => .error f
      | .ok true => .ok (toInt32 i)
      | .ok false => rightScan bufstring delim fuel (i + 1)
    else .ok (-1)

/-- The branch `_rightmostDelimiter == _leftmostDelimiter`: the pair
`(leftmost_position, rightmost_position)` it leaves. -/
def selectIdentical (bufstring : List Char) (delim : Char) (position_of_click : Nat) :
    Except Fault (Int × Int) :=
  let start := toInt32 position_of_click
  match (if start ≥ 0 then leftScan bufstring delim start.toNat else .ok (-1)) with
  | .error f => .error f
  | .ok leftmost_position =>
    if leftmost_position == -1 then .ok (-1, -1)
    else
      match rightScan bufstring delim (bufstring.length - position_of_click) position_of_click with
      | .error f => .error f
      | .ok rightmost_position => .ok (leftmost_position, rightmost_position)

/-- The locals of the distinct-delimiter scan: the stack
`leftmost_delimiter_positions` (top first) and the pair chosen so far. -/
structure ScanState where
  stack : List Nat := []
  leftmost_position : Int := -1
  rightmost_position : Int := -1
  deriving DecidableEq, Repr

/-- One pass of the body of the distinct-delimiter loop, at index `i`
holding the character `c`. -/
def distinctStep (leftD rightD : Char) (position_of_click : Nat) (st : ScanState) (i : Nat)
    (c : Char) : ScanState :=
  if c == leftD then
    { st with stack := i :: st.stack }
  else if c == rightD && !st.stack.isEmpty then
    match st.stack with
    | [] => st
    | matching_leftmost :: rest =>
      if matching_leftmost ≤ position_of_click && i ≥ position_of_click &&
          (st.leftmost_position == -1 || matching_leftmost > toUInt32 st.leftmost_position) then
        { stack := rest, leftmost_position := toInt32 matching_leftmost, rightmost_position := toInt32 i }
      else { st with stack := rest }
  else st

/-- The loop `for (unsigned int i = 0; i < bufstring.length(); ++i)`, from
index `i` on; `rest` is `bufstring` from `i` on, so its head is
`bufstring.at(i)`, an access that is always in range.  The counter is taken
not to wrap: the text is shorter than 2^32. -/
def distinctLoop (leftD rightD : Char) (position_of_click : Nat) :
    Nat → List Char → ScanState → ScanState
  | _, [], st => st
  | i, c :: rest, st =>
    distinctLoop leftD rightD position_of_click (i + 1) rest
      (distinctStep leftD rightD position_of_click st i c)

/-- The branch of distinct delimiters: the pair it leaves. -/
def selectDistinct (bufstring : List Char) (leftD rightD : Char) (position_of_click : Nat) :
    Int × Int :=
  let st := distinctLoop leftD rightD position_of_click 0 bufstring {}
  (st.leftmost_position, st.rightmost_position)

/-- The scan of the Ctrl + double click: `(leftmost_position, rightmost_position)`. -/
def delimiterSelection (bufstring : List Char) (leftD rightD : Char) (position_of_click : Nat) :
    Except Fault (Int × Int) :=
  if rightD == leftD then selectIdentical bufstring leftD position_of_click
  else .ok (selectDistinct bufstring leftD rightD position_of_click)

/-- `position_of_click` as the scan uses it. -/
def positionOfClick (e : Env) (s : State) (n : SCNotification) (v : View) : Nat :=
  let position_of_click :=
    if n.position != -1 then toSizeT n.position else toSizeT (e.getCurrentPos s.activeView)
  if e.delimiterSelectionOnEntireDocument then position_of_click
  else toSizeT ((position_of_click : Int) - e.positionFromCurrentLine v)

/-- `case SCN_DOUBLECLICK`. -/
def notify_SCN_DOUBLECLICK (e : Env) (s : State) (n : SCNotification) : Except Fault Result :=
  match notifyView e n with
  | none => .ok ⟨false, s, []⟩
  | some v =>
    if n.modifiers == SCMOD_CTRL then
      let bufstring := if e.delimiterSelectionOnEntireDocument then e.getText v else e.getCurLine v
      match delimiterSelection bufstring e.leftmostDelimiter e.rightmostDelimiter
          (positionOfClick e s n v) with
      | .error f => .error f
      | .ok (leftmost_position, rightmost_position) =>
        if rightmost_position != -1 && leftmost_position != -1 then
          let line_position :=
            if e.delimiterSelectionOnEntireDocument then 0 else e.positionFromCurrentLine v
          .ok ⟨false, s, [Cmd.setCurrentPos v (line_position + rightmost_position),
                          Cmd.setAnchor v (line_position + leftmost_position + 1)]⟩
        else .ok ⟨false, s, []⟩
    else
      let indicMsk := e.indicatorAllOnFor v n.position
      if !hasBits indicMsk (1 <<< URL_INDIC) then .ok ⟨false, s, []⟩
      else
        let startPos := e.indicatorStart v n.position
        let endPos := e.indicatorEnd v n.position
        if n.position < startPos || n.position > endPos then .ok ⟨false, s, []⟩
        else .ok ⟨false, s, [Cmd.postLButtonUp v, Cmd.setSel v n.position n.position,
                            Cmd.shellExecuteOpen startPos endPos]⟩

/-- `case SCN_UPDATEUI`. -/
def notify_SCN_UPDATEUI (e : Env) (s : State) (n : SCNotification) : Result :=
  match notifyView e n with
  | none => ⟨false, s, []⟩
  | some v =>
    let c0 := if hasBits n.updated SC_UPDATE_V_SCROLL then [Cmd.addHotSpot (some v)] else []
    if e.isFindReplacing then ⟨false, s, c0⟩
    else if n.hwndFrom != hEditView e s.activeView then
      ⟨false, s, c0 ++ (if e.smartHiliteOnAnotherView then [Cmd.smartHighlightViewWithWord v] else [])⟩
    else
      let c1 := if e.enableTagsMatchHilite then [Cmd.tagMatch e.enableTagAttrsHilite] else []
      let s1 :=
        if e.enableSmartHilite && s.disableSmartHiliteTmp then { s with disableSmartHiliteTmp := false }
        else s
      let c2 :=
        if e.enableSmartHilite && !s.disableSmartHiliteTmp then
          [Cmd.smartHighlightView v (unfocusView e n)]
        else []
      let selectionIsChanged := hasBits n.updated SC_UPDATE_SELECTION
      let contentIsChanged := hasBits n.updated SC_UPDATE_CONTENT
      let c3 := if selectionIsChanged || contentIsChanged then [Cmd.updateStatusBar] else []
      let c4 := if panelShown e.funcList then [Cmd.funcListMarkEntry] else []
      ⟨false, s1, c0 ++ [Cmd.braceMatch] ++ c1 ++ c2 ++ c3 ++ c4 ++ [Cmd.autoCUpdate (autoC e n) 0]⟩

/-- The capacity of `docTip`. -/
def tipMaxLen : Nat := 1024

/-- The tab-strip branches of the tooltip case, for the tab strip `tab`. -/
def docTabTooltip (e : Env) (s : State) (tab : View) (id : Int) : Result :=
  let idd := e.getBufferByIndex tab id
  let tipTmp := (s.buffers idd).fullPathName
  if tipTmp.length ≥ tipMaxLen then ⟨false, s, [Cmd.tooltipHinstNull]⟩
  else ⟨true, { s with docTip := tipTmp }, [Cmd.tooltipHinstNull, Cmd.tooltipLpszTextDocTip]⟩

/-- `case TTN_GETDISPINFO`. -/
def notify_TTN_GETDISPINFO (e : Env) (s : State) (n : SCNotification) : Result :=
  let hWin := e.childWindowFromCursor
  let s0 := { s with docTip := [] }
  let id := toInt32 n.idFrom
  if hWin == e.hRebarTop then
    let tipTmp := e.getNameStrFromCmd id
    if tipTmp.length ≥ 80 then ⟨false, s0, [Cmd.tooltipHinstNull]⟩
    else ⟨true, s0, [Cmd.tooltipHinstNull, Cmd.tooltipSzText tipTmp]⟩
  else if hWin == e.hMainDocTab then docTabTooltip e s0 .MAIN_VIEW id
  else if hWin == e.hSubDocTab then docTabTooltip e s0 .SUB_VIEW id
  else ⟨false, s0, [Cmd.tooltipHinstNull]⟩

/-- `case SCN_ZOOM`. -/
def notify_SCN_ZOOM (e : Env) (s : State) (n : SCNotification) : Result :=
  match notifyView e n with
  | none => ⟨false, s, []⟩
  | some v => ⟨false, s, [Cmd.smartHighlightView v (unfocusView e n)]⟩

/-- `case SCN_MACRORECORD`. -/
def notify_SCN_MACRORECORD (e : Env) (s : State) (n : SCNotification) : Result :=
  ⟨false, { s with macroSeq := s.macroSeq ++
      [⟨n.message, n.wParam, n.lParam, e.getCodepage s.activeView⟩] }, []⟩

/-- `case SCN_PAINTED`. -/
def notify_SCN_PAINTED (e : Env) (s : State) (n : SCNotification) : Result :=
  match notifyView e n with
  | none => ⟨false, s, []⟩
  | some v =>
    let c0 := [Cmd.restoreCurrentPosPostStep .MAIN_VIEW, Cmd.restoreCurrentPosPostStep .SUB_VIEW]
    let c1 := if s.mainWrapRestoreNeeded then [Cmd.restoreCurrentPosPreStep .MAIN_VIEW] else []
    let c2 := if s.subWrapRestoreNeeded then [Cmd.restoreCurrentPosPreStep .SUB_VIEW] else []
    let s1 := { s with mainWrapRestoreNeeded := false, subWrapRestoreNeeded := false }
    let c3 := [Cmd.updateLineNumberWidth v] ++ (if e.doSync then [Cmd.doSynScorll n.hwndFrom] else [])
    let hot := (s1.linkTriggered && !e.isFindReplacing) || n.wParam == LINKTRIGGERED
    let c4 := if hot then [Cmd.addHotSpot none] else []
    let s2 := if hot then { s1 with linkTriggered := false } else s1
    let c5 :=
      if panelShown e.docMap && !s2.docMapTemporarilyShowing then
        [Cmd.docMapWrapMap, Cmd.docMapScrollMap]
      else []
    ⟨false, s2, c0 ++ c1 ++ c2 ++ c3 ++ c4 ++ c5⟩

/-- `case SCN_CALLTIPCLICK`. -/
def notify_SCN_CALLTIPCLICK (e : Env) (s : State) (n : SCNotification) : Result :=
  ⟨false, s, [Cmd.autoCCallTipClick (autoC e n) n.position]⟩

/-- `case RBN_CHEVRONPUSHED`. -/
def notify_RBN_CHEVRONPUSHED (e : Env) (s : State) (n : SCNotification) : Result :=
  let notifRebar := if e.hRebarBottom == n.hwndFrom then e.hRebarBottom else e.hRebarTop
  if n.wID == REBAR_BAR_TOOLBAR then ⟨true, s, [Cmd.toolBarDoPopop]⟩
  else ⟨false, s, [Cmd.forwardToBandChild (e.bandChild notifRebar n.uBand)]⟩

/-! ## The router -/

/-- `Notepad_plus::notify`: `.ok r` when it returns, `.error f` when the
exception `f` leaves it. -/
def notify (e : Env) (s : State) (n : SCNotification) : Except Fault Result :=
  match n.code with
  | .SCN_MODIFIED => .ok (notify_SCN_MODIFIED e s n)
  | .SCN_SAVEPOINTREACHED => .ok (notify_SCN_SAVEPOINT e s n)
  | .SCN_SAVEPOINTLEFT => .ok (notify_SCN_SAVEPOINT e s n)
  | .SCN_MODIFYATTEMPTRO => .ok ⟨false, s, []⟩
  | .SCN_KEY => .ok ⟨false, s, []⟩
  | .TCN_MOUSEHOVERING => .ok (notify_TCN_MOUSEHOVERING e s n)
  | .TCN_MOUSEHOVERSWITCHING => .ok (notify_TCN_MOUSEHOVERING e s n)
  | .TCN_MOUSELEAVING => .ok (notify_TCN_MOUSELEAVING e s)
  | .TCN_TABDROPPEDOUTSIDE => .ok (notify_TCN_TABDROPPED e s n)
  | .TCN_TABDROPPED => .ok (notify_TCN_TABDROPPED e s n)
  | .TCN_TABDELETE => .ok (notify_TCN_TABDELETE e s n)
  | .TCN_SELCHANGE => .ok (notify_TCN_SELCHANGE e s n)
  | .NM_CLICK => .ok (notify_NM_CLICK e s n)
  | .NM_DBLCLK => .ok (notify_NM_DBLCLK e s n)
  | .NM_RCLICK => .ok (notify_NM_RCLICK e s n)
  | .SCN_MARGINCLICK => .ok (notify_SCN_MARGINCLICK e s n)
  | .SCN_MARGINRIGHTCLICK => .ok (notify_SCN_MARGINRIGHTCLICK e s n)
  | .SCN_FOLDINGSTATECHANGED => .ok (notify_SCN_FOLDINGSTATECHANGED e s n)
  | .SCN_CHARADDED => .ok (notify_SCN_CHARADDED e s n)
  | .SCN_DOUBLECLICK => notify_SCN_DOUBLECLICK e s n
  | .SCN_UPDATEUI => .ok (notify_SCN_UPDATEUI e s n)
  | .TTN_GETDISPINFO => .ok (notify_TTN_GETDISPINFO e s n)
  | .SCN_ZOOM => .ok (notify_SCN_ZOOM e s n)
  | .SCN_MACRORECORD => .ok (notify_SCN_MACRORECORD e s n)
  | .SCN_PAINTED => .ok (notify_SCN_PAINTED e s n)
  | .SCN_NEEDSHOWN => .ok ⟨false, s, []⟩
  | .SCN_CALLTIPCLICK => .ok (notify_SCN_CALLTIPCLICK e s n)
  | .RBN_HEIGHTCHANGE => .ok ⟨false, s, [Cmd.sendSize]⟩
  | .RBN_CHEVRONPUSHED => .ok (notify_RBN_CHEVRONPUSHED e s n)
  | .other _ => .ok ⟨false, s, []⟩

/-! ## Runs of notifications -/

/-- Dispatch the notifications of `ns` one after the other from the state
`s`; the results in order, or the exception that left `notify`. -/
def notifySeq (e : Env) : State → List SCNotification → Except Fault (List Result)
  | _, [] => .ok []
  | s, n :: ns =>
    match notify e s n with
    | .error f => .error f
    | .ok r =>
      match notifySeq e r.st ns with
      | .error f => .error f
      | .ok rs => .ok (r :: rs)

/-- The notification has an insert or a delete bit. -/
def isEdit (n : SCNotification) : Bool :=
  hasBits n.modificationType (SC_MOD_DELETETEXT ||| SC_MOD_INSERTTEXT)

/-- The notification has the fold-change bit. -/
def isFoldChange (n : SCNotification) : Bool :=
  hasBits n.modificationType SC_MOD_CHANGEFOLD

/-- The call is `foldChanged`, the fold handler. -/
def Cmd.isFoldChanged : Cmd → Bool
  | .foldChanged _ _ _ _ => true
  | _ => false

/-- The call is `checkDocState`, the document-state signal. -/
def Cmd.isCheckDocState : Cmd → Bool
  | .checkDocState => true
  | _ => false

/-- The dispatch called the fold handler. -/
def forwardsFold (r : Result) : Bool := r.cmds.any Cmd.isFoldChanged

/-- The origin handle matches none of the handles `notify` knows. -/
def unknownSource (e : Env) (n : SCNotification) : Bool :=
  n.hwndFrom != e.hMainEditView && n.hwndFrom != e.hSubEditView &&
  n.hwndFrom != e.hMainDocTab && n.hwndFrom != e.hSubDocTab &&
  n.hwndFrom != e.hInvisibleEditView && n.hwndFrom != e.hFileEditView &&
  n.hwndFrom != e.hStatusBar && n.hwndFrom != e.hRebarTop && n.hwndFrom != e.hRebarBottom &&
  n.hwndFrom != e.hPublicInterface && e.hDocumentListPanel != some n.hwndFrom

/-- The kinds whose case leaves without an effect when the source is none of
the known handles. -/
def guardsUnknownSource : Code → Bool
  | .SCN_MODIFIED => true
  | .SCN_SAVEPOINTREACHED => true
  | .SCN_SAVEPOINTLEFT => true
  | .SCN_MODIFYATTEMPTRO => true
  | .SCN_KEY => true
  | .TCN_MOUSEHOVERING => true
  | .TCN_MOUSEHOVERSWITCHING => true
  | .TCN_SELCHANGE => true
  | .NM_CLICK => true
  | .NM_DBLCLK => true
  | .SCN_DOUBLECLICK => true
  | .SCN_UPDATEUI => true
  | .SCN_ZOOM => true
  | .SCN_PAINTED => true
  | .SCN_NEEDSHOWN => true
  | .other _ => true
  | _ => false

/-- The top rebar and the two tab strips are three different windows. -/
def tooltipHandlesDistinct (e : Env) : Bool :=
  e.hRebarTop != e.hMainDocTab && e.hRebarTop != e.hSubDocTab && e.hMainDocTab != e.hSubDocTab

/-- The line `say "hello \"there\"" now`. -/
def quotedLine : List Char := "say \"hello \\\"there\\\"\" now".toList

/-- The text `(size_t i = f(); i < n; i++)`. -/
def forHeader : List Char := "(size_t i = f(); i < n; i++)".toList

/-- Index `i` of `bufstring` holds a double quote preceded by a backslash. -/
def isEscapedQuote (bufstring : List Char) (i : Nat) : Bool :=
  bufstring[i]? == some '"' && decide (0 < i) && bufstring[i - 1]? == some '\\'

/-- Settings of a Ctrl + double click with the double quote as both
delimiters, scanning the entire document. -/
def envQuotes : Env :=
  { leftmostDelimiter := '"', rightmostDelimiter := '"', delimiterSelectionOnEntireDocument := true }

/-- A tab dropped on a window (handle 50) of another instance (handle 60,
of the application's class) at a point inside this instance's rectangle. -/
def envDropInZone : Env :=
  { windowFromDraggingPoint := 50, getParent := fun _ => 60, classNameMatches := fun _ => true,
    isInNppZone := true }

/-- The same drop at a point outside this instance's rectangle. -/
def envDropOutside : Env :=
  { windowFromDraggingPoint := 50, getParent := fun _ => 60, classNameMatches := fun _ => true,
    isInNppZone := false }

/-- A content-modified notification from the primary view with the
modification bits `mt`. -/
def modifiedFromPrimary (mt : Nat) : SCNotification :=
  { code := Code.SCN_MODIFIED, hwndFrom := 1, modificationType := mt }

/-- The spec's stack-based bracket matching, to compare the scan of the
source with: the pairs (left index, right index) matched in `rest`, the text
from index `i` on, with `stack` the unmatched left delimiters so far. A left
delimiter is pushed; a right delimiter is paired with the latest unmatched
left delimiter, if there is one. -/
def matchedPairs (leftD rightD : Char) : Nat → List Char → List Nat → List (Nat × Nat)
  | _, [], _ => []
  | i, c :: rest, stack =>
    if c == leftD then matchedPairs leftD rightD (i + 1) rest (i :: stack)
    else if c == rightD then
      match stack with
      | [] => matchedPairs leftD rightD (i + 1) rest []
      | l :: stack' => (l, i) :: matchedPairs leftD rightD (i + 1) rest stack'
    else matchedPairs leftD rightD (i + 1) rest stack

/-- The pair `p` encloses the click: left index at or before it, right index
at or after it. -/
def encloses (click : Nat) (p : Nat × Nat) : Prop := p.1 ≤ click ∧ click ≤ p.2

/-- The pair chosen so far by the distinct-delimiter scan is the innermost
of the pairs `seen` that enclose the click: none chosen when none encloses,
else an enclosing pair of `seen` whose left index is greatest. -/
def ScanGood (click : Nat) (st : ScanState) (seen : List (Nat × Nat)) : Prop :=
  (st.leftmost_position = -1 ∧ st.rightmost_position = -1 ∧ ∀ p ∈ seen, ¬ encloses click p) ∨
  (∃ l r : Nat, st.leftmost_position = (l : Int) ∧ st.rightmost_position = (r : Int) ∧
    l < 2 ^ 31 ∧ (l, r) ∈ seen ∧ encloses click (l, r) ∧ ∀ p ∈ seen, encloses click p → p.1 ≤ l)

/-- The test `rightmost_position != -1 && leftmost_position != -1` under
which `notify` sets the selection. -/
def hasSelection (p : Int × Int) : Bool := p.2 != -1 && p.1 != -1

/-- The call is `addHotSpot`, the recomputation of the hot spots. -/
def Cmd.isAddHotSpot : Cmd → Bool
  | .addHotSpot _ => true
  | _ => false

/-- The call is one of the smart highlighter. -/
def Cmd.isSmartHighlight : Cmd → Bool
  | .smartHighlightView _ _ => true
  | .smartHighlightViewWithWord _ => true
  | _ => false

/-- The test of the paint-completed case under which it calls `addHotSpot`
and clears `_linkTriggered`. -/
def paintRecomputes (e : Env) (s : State) (n : SCNotification) : Bool :=
  (s.linkTriggered && !e.isFindReplacing) || n.wParam == LINKTRIGGERED

/-- The last notification before index `k` of the run `ns` that `notify`
processed, that is, that came from a resolved view. -/
def lastProcessed (e : Env) (ns : List SCNotification) (k : Nat) : Option SCNotification :=
  (ns.take k).reverse.find? (fun m => (notifyView e m).isSome)

/-- The condition of the `assert` in the distinct-delimiter loop. -/
def scanAssert (st : ScanState) : Bool :=
  (st.leftmost_position == -1 && st.rightmost_position == -1) ||
    (decide (st.leftmost_position ≥ 0) && decide (st.rightmost_position ≥ 0))

/-- The iteration of the distinct-delimiter loop on the character `c` takes
the branch that pops a matched left delimiter, the one with the `assert`. -/
def popsAt (leftD rightD : Char) (st : ScanState) (c : Char) : Bool :=
  !(c == leftD) && (c == rightD && !st.stack.isEmpty)

/-- The distinct-delimiter loop run for its `assert`: whether the condition
of the `assert` holds at every iteration that reaches it. -/
def distinctLoopAsserts (leftD rightD : Char) (position_of_click : Nat) :
    Nat → List Char → ScanState → Bool
  | _, [], _ => true
  | i, c :: rest, st =>
    (if popsAt leftD rightD st c then scanAssert st else true) &&
      distinctLoopAsserts leftD rightD position_of_click (i + 1) rest
        (distinctStep leftD rightD position_of_click st i c)

/-- The matched pair popped at index `i` when it encloses the click, with
whether the loop then executes the update of the chosen pair, that is, with
the value of `leftmost_position == -1 || matching_leftmost > leftmost_position`. -/
def enclosingAt (leftD rightD : Char) (position_of_click : Nat) (st : ScanState) (i : Nat)
    (c : Char) : Option ((Nat × Nat) × Bool) :=
  if popsAt leftD rightD st c then
    match st.stack with
    | [] => none
    | matching_leftmost :: _ =>
      if matching_leftmost ≤ position_of_click && i ≥ position_of_click then
        some ((matching_leftmost, i),
          st.leftmost_position == -1 || matching_leftmost > toUInt32 st.leftmost_position)
      else none
  else none

/-- The distinct-delimiter loop run for its choices: the matched pairs that
enclose the click, in the order the scan finds them, each with whether the
update of the chosen pair is executed for it. -/
def distinctLoopTrace (leftD rightD : Char) (position_of_click : Nat) :
    Nat → List Char → ScanState → List ((Nat × Nat) × Bool)
  | _, [], _ => []
  | i, c :: rest, st =>
    (enclosingAt leftD rightD position_of_click st i c).toList ++
      distinctLoopTrace leftD rightD position_of_click (i + 1) rest
        (distinctStep leftD rightD position_of_click st i c)

/-- The invariant of the distinct-delimiter loop before index `i`: the stack
holds indices of left delimiters below `i`, latest on top; and either no
pair is chosen, or the chosen pair is a left and a right delimiter around
the click, found before `i`, and every index on the stack is left of the
chosen left delimiter or right of the click. -/
def ScanInv (bufstring : List Char) (leftD rightD : Char) (click i : Nat) (st : ScanState) : Prop :=
  st.stack.Pairwise (fun a b => b < a) ∧
  (∀ x ∈ st.stack, x < i ∧ bufstring[x]? = some leftD) ∧
  ((st.leftmost_position = -1 ∧ st.rightmost_position = -1) ∨
    ∃ l r : Nat, st.leftmost_position = (l : Int) ∧ st.rightmost_position = (r : Int) ∧
      l < r ∧ r < i ∧ l ≤ click ∧ click ≤ r ∧
      bufstring[l]? = some leftD ∧ bufstring[r]? = some rightD ∧
      ∀ m ∈ st.stack, m < l ∨ click < m)

/-- The text `((x))`. -/
def nestedText : List Char := "((x))".toList

/-- Index `i` of `bufstring` holds the delimiter `d`; when `d` is the double
quote, an occurrence immediately preceded by a backslash does not count. -/
def holdsDelimiter (bufstring : List Char) (d : Char) (i : Nat) : Prop :=
  bufstring[i]? = some d ∧ (d = '"' → ¬ (0 < i ∧ bufstring[i - 1]? = some '\\'))

/-- The offset `line_position` that `notify` adds to the positions found
before it sets the selection. -/
def linePosition (e : Env) (v : View) : Int :=
  if e.delimiterSelectionOnEntireDocument then 0 else e.positionFromCurrentLine v

/-- The text `a"b`. -/
def quoteText : List Char := ['a', '"', 'b']

/-- The entry of the trace is a write of `_isFolding`. -/
def Cmd.isSetIsFolding : Cmd → Bool
  | .setIsFolding _ => true
  | _ => false

/-- The call is `activateBuffer`. -/
def Cmd.isActivateBuffer : Cmd → Bool
  | .activateBuffer _ _ => true
  | _ => false

/-- The calls of a trace, each with the value `_isFolding` has while the call
runs: `isFolding` is the value before the first entry, and a write of the
flag gives the value for the calls after it. -/
def flagAtCalls (isFolding : Bool) : List Cmd → List (Cmd × Bool)
  | [] => []
  | c :: cs =>
    match c with
    | .setIsFolding b => flagAtCalls b cs
    | _ => (c, isFolding) :: flagAtCalls isFolding cs

/-- Dispatch the events of a run one after the other from the state `s`,
each with the answers the toolkit and the collaborators give during it; the
results in order, or the exception that left `notify`. -/
def notifyRun : State → List (Env × SCNotification) → Except Fault (List Result)
  | _, [] => .ok []
  | s, (e, n) :: ns =>
    match notify e s n with
    | .error f => .error f
    | .ok r =>
      match notifyRun r.st ns with
      | .error f => .error f
      | .ok rs => .ok (r :: rs)

/-- The spec's save-point-reached notification with no overriding unsynced
or snapshot-mode condition, for the buffer `b` in the state `s`: the kind is
save-point-reached, the notification is about `b`, `b` is not flagged
unsynced with disk, and the snapshot special case (snapshot mode, no undo
available, loaded dirty, already dirty) does not apply. -/
def clearsDirty (e : Env) (s : State) (n : SCNotification) (b : BufferID) : Bool :=
  n.code == Code.SCN_SAVEPOINTREACHED && savePointBuffer e n == some b &&
    !(s.buffers b).isUnsync &&
    !(e.isSnapshotMode && !e.canUndo s.activeView && (s.buffers b).isLoadedDirty &&
      (s.buffers b).isDirty)

/-- No event of the run, in the state it is dispatched in, is a save point
that `clearsDirty` for the buffer `b`. -/
def noClearing (b : BufferID) : State → List (Env × SCNotification) → Bool
  | _, [] => true
  | s, (e, n) :: ns =>
    !clearsDirty e s n b &&
      match notify e s n with
      | .ok r => noClearing b r.st ns
      | .error _ => true

/-! ## Theorems -/

/-- C1: a save-point-reached or save-point-left notification whose buffer is
resolved returns and writes to that buffer the dirty flag
(kind is save-point-left) OR (snapshot mode AND no undo AND loaded dirty AND
already dirty) OR (unsynced with disk), for every value of these booleans; so
the isolated snapshot scenario gives dirty, and with snapshot mode off the
flag is (save-point-left) OR (unsynced). -/
theorem savepoint_dirty_flag (e : Env) (s : State) (n : SCNotification) (id : BufferID)
    (hcode : n.code = Code.SCN_SAVEPOINTREACHED ∨ n.code = Code.SCN_SAVEPOINTLEFT)
    (hbuf : savePointBuffer e n = some id) :
    ∃ r, notify e s n = .ok r ∧
      (r.st.buffers id).isDirty =
        (decide (n.code = Code.SCN_SAVEPOINTLEFT) ||
          (e.isSnapshotMode && !e.canUndo s.activeView && (s.buffers id).isLoadedDirty &&
            (s.buffers id).isDirty) ||
          (s.buffers id).isUnsync) ∧
      (n.code = Code.SCN_SAVEPOINTREACHED → e.isSnapshotMode = true →
        e.canUndo s.activeView = false → (s.buffers id).isLoadedDirty = true →
        (s.buffers id).isDirty = true → (r.st.buffers id).isDirty = true) ∧
      (e.isSnapshotMode = false →
        (r.st.buffers id).isDirty =
          (decide (n.code = Code.SCN_SAVEPOINTLEFT) || (s.buffers id).isUnsync)) := by
  refine ⟨notify_SCN_SAVEPOINT e s n, ?_, ?_, ?_, ?_⟩
  · rcases hcode with h | h <;> simp [notify, h]
  · rcases hcode with h | h
    · simp [notify_SCN_SAVEPOINT, hbuf, setDirty, savePointDirty, h]
      cases e.isSnapshotMode <;> cases e.canUndo s.activeView <;>
        cases (s.buffers id).isLoadedDirty <;> cases (s.buffers id).isDirty <;>
        cases (s.buffers id).isUnsync <;> rfl
    · simp [notify_SCN_SAVEPOINT, hbuf, setDirty, savePointDirty, h]
  · intro h h1 h2 h3 h4
    simp [notify_SCN_SAVEPOINT, hbuf, setDirty, savePointDirty, h, h1, h2, h3, h4]
  · intro h1
    rcases hcode with h | h <;>
      simp [notify_SCN_SAVEPOINT, hbuf, setDirty, savePointDirty, h, h1]

/-- Witness of C1: the isolated snapshot scenario, from the primary view. -/
theorem savepoint_dirty_flag_witness :
    ∃ r, notify { isSnapshotMode := true } { buffers := fun _ => { isLoadedDirty := true, isDirty := true } }
        { code := Code.SCN_SAVEPOINTREACHED, hwndFrom := 1 } = .ok r ∧
      (r.st.buffers 1).isDirty = true := by
  obtain ⟨r, h, _, h3, _⟩ :=
    savepoint_dirty_flag { isSnapshotMode := true }
      { buffers := fun _ => { isLoadedDirty := true, isDirty := true } }
      { code := Code.SCN_SAVEPOINTREACHED, hwndFrom := 1 } 1 (Or.inl rfl) rfl
  exact ⟨r, h, h3 rfl rfl rfl rfl rfl⟩

/-! ### Escaped quotes (C3) -/

/-- C3, as stated, fails: on `say "hello \"there\"" now` with `"` as both
delimiters, a click inside `there` (index 15) leaves the pair (4, 20), so the
selection runs from index 5 to index 20 and contains the escaped quote at
index 12 (and the one at index 19). -/
theorem quoted_span_contains_escaped_quote :
    selectIdentical quotedLine '"' 15 = .ok (4, 20) ∧
      (4 + 1 ≤ 12 ∧ 12 < 20 ∧ isEscapedQuote quotedLine 12 = true) ∧
      (4 + 1 ≤ 19 ∧ 19 < 20 ∧ isEscapedQuote quotedLine 19 = true) :=
  ⟨rfl, ⟨by decide, by decide, by decide⟩, ⟨by decide, by decide, by decide⟩⟩

/-- C3, amended: at every click position inside `there` (indices 13 to 17)
the scan skips the escaped quotes as delimiters and leaves the nearest
unescaped quotes, at 4 and 20; the text selected between them is
`hello \"there\"`, escaped quotes included, and `notify` sets the caret to 20
and the anchor to 5. -/
theorem quoted_span_skips_escaped_quotes :
    selectIdentical quotedLine '"' 13 = .ok (4, 20) ∧
    selectIdentical quotedLine '"' 14 = .ok (4, 20) ∧
    selectIdentical quotedLine '"' 15 = .ok (4, 20) ∧
    selectIdentical quotedLine '"' 16 = .ok (4, 20) ∧
    selectIdentical quotedLine '"' 17 = .ok (4, 20) ∧
    (quotedLine.drop (4 + 1)).take (20 - (4 + 1)) = "hello \\\"there\\\"".toList ∧
    (∃ r, notify { envQuotes with getText := fun _ => quotedLine } {}
        { code := Code.SCN_DOUBLECLICK, hwndFrom := 1, modifiers := SCMOD_CTRL, position := 15 } = .ok r ∧
      r.cmds = [Cmd.setCurrentPos .MAIN_VIEW 20, Cmd.setAnchor .MAIN_VIEW 5]) :=
  ⟨rfl, rfl, rfl, rfl, rfl, by decide, ⟨_, rfl, rfl⟩⟩

/-! ### The modification bits -/

theorem hasBits_edit_imp (x : Nat)
    (h : hasBits x (SC_MOD_DELETETEXT ||| SC_MOD_INSERTTEXT) = true) :
    hasBits x (SC_MOD_DELETETEXT ||| SC_MOD_INSERTTEXT ||| SC_PERFORMED_UNDO ||| SC_PERFORMED_REDO) = true := by
  have e3 : (SC_MOD_DELETETEXT ||| SC_MOD_INSERTTEXT) = 3 := by decide
  have e99 : (SC_MOD_DELETETEXT ||| SC_MOD_INSERTTEXT ||| SC_PERFORMED_UNDO ||| SC_PERFORMED_REDO) = 99 := by
    decide
  rw [e3] at h
  rw [e99]
  simp only [hasBits, bne_iff_ne, ne_eq] at h ⊢
  intro h2
  apply h
  have h3 : x &&& 3 = (x &&& 99) &&& 3 := by
    rw [Nat.and_assoc]
    have : (99 : Nat) &&& 3 = 3 := by decide
    rw [this]
  rw [h3, h2]
  simp

/-! ### The checked access of the identical-delimiter scan (C6) -/

/-- C6: the code at its failing inputs.  With `"` as both delimiters, a
Ctrl + double click in an empty document (`position` -1, caret at 0), and one
at the end of the line `ab` (click position 2), make `bufstring.at` raise
`std::out_of_range`, which leaves `notify`. -/
theorem ctrl_double_click_out_of_range :
    notify envQuotes {}
        { code := Code.SCN_DOUBLECLICK, hwndFrom := 1, modifiers := SCMOD_CTRL, position := -1 } =
      .error .out_of_range ∧
    notify { envQuotes with delimiterSelectionOnEntireDocument := false,
                            getCurLine := fun _ => ['a', 'b'] } {}
        { code := Code.SCN_DOUBLECLICK, hwndFrom := 1, modifiers := SCMOD_CTRL, position := 2 } =
      .error .out_of_range :=
  ⟨rfl, rfl⟩

/-! ### Notifications from an unknown source (C7) -/

theorem unknownSource_spec (e : Env) (n : SCNotification) (h : unknownSource e n = true) :
    isFromPrimary e n = false ∧ isFromSecondary e n = false ∧ notifyView e n = none ∧
      (n.hwndFrom == e.hInvisibleEditView) = false ∧ (n.hwndFrom == e.hFileEditView) = false ∧
      (n.hwndFrom == e.hStatusBar) = false ∧ (n.hwndFrom == e.hMainDocTab) = false ∧
      (n.hwndFrom == e.hSubDocTab) = false := by
  simp only [unknownSource, Bool.and_eq_true, bne_iff_ne, ne_eq] at h
  obtain ⟨⟨⟨⟨⟨⟨⟨⟨⟨⟨h1, h2⟩, h3⟩, h4⟩, h5⟩, h6⟩, h7⟩, _⟩, _⟩, _⟩, _⟩ := h
  have p : isFromPrimary e n = false := by
    simp [isFromPrimary, Ne.symm h1, Ne.symm h3]
  have q : isFromSecondary e n = false := by
    simp [isFromSecondary, Ne.symm h2, Ne.symm h4]
  refine ⟨p, q, by simp [notifyView, p, q], ?_, ?_, ?_, ?_, ?_⟩ <;> simp [*]

/-- C7, as stated, fails: a macro-record tick from a handle that matches no
known one (99) appends a step, and a folding-state-changed event from it
returns TRUE. -/
theorem unknown_source_changes_state :
    unknownSource {} { code := Code.SCN_MACRORECORD, hwndFrom := 99, message := 2170 } = true ∧
    (∃ r, notify {} {} { code := Code.SCN_MACRORECORD, hwndFrom := 99, message := 2170 } = .ok r ∧
      r.st.macroSeq = [⟨2170, 0, 0, 0⟩] ∧ r.st.macroSeq ≠ ({} : State).macroSeq) ∧
    (∃ r, notify {} {} { code := Code.SCN_FOLDINGSTATECHANGED, hwndFrom := 99 } = .ok r ∧
      r.ret = true) :=
  ⟨by decide, ⟨_, rfl, rfl, by decide⟩, ⟨_, rfl, rfl⟩⟩

/-- C7, amended: when the origin handle matches none of the known handles,
dispatch returns FALSE, issues no call and leaves the whole state as it was
for the kinds content-modified, save-point reached/left, modify-attempt,
key, tab hover begin/switching, tab selection changed, single click, double
click, double click in text, UI-state updated, zoom changed, paint completed,
need-shown and every code without a case. -/
theorem unknown_source_ignored (e : Env) (s : State) (n : SCNotification)
    (h : unknownSource e n = true) (hk : guardsUnknownSource n.code = true) :
    notify e s n = .ok ⟨false, s, []⟩ := by
  obtain ⟨p, q, hv, h5, h6, h7, h3, h4⟩ := unknownSource_spec e n h
  cases hc : n.code <;> simp [guardsUnknownSource, hc] at hk <;>
    simp [notify, hc, notify_SCN_MODIFIED, notify_SCN_SAVEPOINT, savePointBuffer,
      notify_TCN_MOUSEHOVERING, pTabDocView, notify_TCN_SELCHANGE, notify_NM_CLICK,
      notify_NM_DBLCLK, notify_SCN_DOUBLECLICK, notify_SCN_UPDATEUI, notify_SCN_ZOOM,
      notify_SCN_PAINTED, p, q, hv, h3, h4, h5, h6, h7]

/-- Witness of C7, amended: a paint-completed event from the handle 99. -/
theorem unknown_source_ignored_witness :
    notify {} {} { code := Code.SCN_PAINTED, hwndFrom := 99 } = .ok ⟨false, {}, []⟩ :=
  unknown_source_ignored {} {} { code := Code.SCN_PAINTED, hwndFrom := 99 } (by decide) (by decide)

/-! ### Tooltip text (C8) -/

/-- C8: a tooltip request returns, and never truncates.  Over a tab strip it
returns TRUE with `docTip` holding exactly the full path of the hovered
buffer when the path is shorter than 1024, and FALSE with no text otherwise;
over the top rebar it returns TRUE with exactly the command description when
that is shorter than 80, and FALSE with no text otherwise; over any other
child it returns FALSE with no text. -/
theorem tooltip_never_truncates (e : Env) (s : State) (n : SCNotification)
    (hcode : n.code = Code.TTN_GETDISPINFO) (hd : tooltipHandlesDistinct e = true) :
    ∃ r, notify e s n = .ok r ∧
      (∀ tab, e.childWindowFromCursor = hDocTab e tab →
        (((s.buffers (e.getBufferByIndex tab (toInt32 n.idFrom))).fullPathName.length < 1024 →
            r.ret = true ∧
            r.st.docTip = (s.buffers (e.getBufferByIndex tab (toInt32 n.idFrom))).fullPathName ∧
            r.cmds = [Cmd.tooltipHinstNull, Cmd.tooltipLpszTextDocTip]) ∧
         (¬ (s.buffers (e.getBufferByIndex tab (toInt32 n.idFrom))).fullPathName.length < 1024 →
            r.ret = false ∧ r.st.docTip = [] ∧ r.cmds = [Cmd.tooltipHinstNull]))) ∧
      (e.childWindowFromCursor = e.hRebarTop →
        (((e.getNameStrFromCmd (toInt32 n.idFrom)).length < 80 →
            r.ret = true ∧
            r.cmds = [Cmd.tooltipHinstNull, Cmd.tooltipSzText (e.getNameStrFromCmd (toInt32 n.idFrom))]) ∧
         (¬ (e.getNameStrFromCmd (toInt32 n.idFrom)).length < 80 →
            r.ret = false ∧ r.cmds = [Cmd.tooltipHinstNull]))) ∧
      (e.childWindowFromCursor ≠ e.hRebarTop → e.childWindowFromCursor ≠ e.hMainDocTab →
        e.childWindowFromCursor ≠ e.hSubDocTab → r.ret = false ∧ r.cmds = [Cmd.tooltipHinstNull]) := by
  simp only [tooltipHandlesDistinct, Bool.and_eq_true, bne_iff_ne, ne_eq] at hd
  obtain ⟨⟨h1, h2⟩, h3⟩ := hd
  refine ⟨notify_TTN_GETDISPINFO e s n, by simp [notify, hcode], ?_, ?_, ?_⟩
  · intro tab htab
    cases tab
    · have hw : e.childWindowFromCursor = e.hMainDocTab := htab
      have hne : ¬ e.hMainDocTab = e.hRebarTop := fun h => h1 h.symm
      constructor
      · intro hlt
        have : ¬ tipMaxLen ≤ (s.buffers (e.getBufferByIndex .MAIN_VIEW (toInt32 n.idFrom))).fullPathName.length := by
          simp [tipMaxLen]; omega
        simp [notify_TTN_GETDISPINFO, docTabTooltip, hw, hne, this]
      · intro hge
        have : tipMaxLen ≤ (s.buffers (e.getBufferByIndex .MAIN_VIEW (toInt32 n.idFrom))).fullPathName.length := by
          simp [tipMaxLen]; omega
        simp [notify_TTN_GETDISPINFO, docTabTooltip, hw, hne, this]
    · have hw : e.childWindowFromCursor = e.hSubDocTab := htab
      have hne : ¬ e.hSubDocTab = e.hRebarTop := fun h => h2 h.symm
      have hne2 : ¬ e.hSubDocTab = e.hMainDocTab := fun h => h3 h.symm
      constructor
      · intro hlt
        have : ¬ tipMaxLen ≤ (s.buffers (e.getBufferByIndex .SUB_VIEW (toInt32 n.idFrom))).fullPathName.length := by
          simp [tipMaxLen]; omega
        simp [notify_TTN_GETDISPINFO, docTabTooltip, hw, hne, hne2, this]
      · intro hge
        have : tipMaxLen ≤ (s.buffers (e.getBufferByIndex .SUB_VIEW (toInt32 n.idFrom))).fullPathName.length := by
          simp [tipMaxLen]; omega
        simp [notify_TTN_GETDISPINFO, docTabTooltip, hw, hne, hne2, this]
  · intro hw
    constructor
    · intro hlt
      have : ¬ 80 ≤ (e.getNameStrFromCmd (toInt32 n.idFrom)).length := by omega
      simp [notify_TTN_GETDISPINFO, hw, this]
    · intro hge
      have : 80 ≤ (e.getNameStrFromCmd (toInt32 n.idFrom)).length := by omega
      simp [notify_TTN_GETDISPINFO, hw, this]
  · intro ha hb hc
    simp [notify_TTN_GETDISPINFO, ha, hb, hc]

/-- Witness of C8: the cursor over the main tab strip, the path `a.txt`. -/
theorem tooltip_never_truncates_witness :
    ∃ r, notify { childWindowFromCursor := 3 } { buffers := fun _ => { fullPathName := "a.txt".toList } }
        { code := Code.TTN_GETDISPINFO } = .ok r ∧ r.ret = true ∧ r.st.docTip = "a.txt".toList := by
  obtain ⟨r, h, h1, _, _⟩ :=
    tooltip_never_truncates { childWindowFromCursor := 3 }
      { buffers := fun _ => { fullPathName := "a.txt".toList } }
      { code := Code.TTN_GETDISPINFO } rfl (by decide)
  obtain ⟨h2, h3, _⟩ := (h1 .MAIN_VIEW rfl).1 (by decide)
  exact ⟨r, h, h2, h3⟩

/-! ### Tab dropped on another instance (C9) -/

/-- C9, as stated, fails: the drop point lies on a window of another
instance (its parent has the application's class and is not this instance's
window) and the dragged buffer is clean, but the point is inside this
instance's rectangle: `notify` returns TRUE at once and sends no message. -/
theorem drop_in_zone_sends_nothing :
    (envDropInZone.windowFromDraggingPoint ∉
        [envDropInZone.hMainEditView, envDropInZone.hSubEditView, envDropInZone.hMainDocTab,
         envDropInZone.hSubDocTab, envDropInZone.hPublicInterface] ∧
      envDropInZone.classNameMatches (envDropInZone.getParent envDropInZone.windowFromDraggingPoint) = true ∧
      envDropInZone.getParent envDropInZone.windowFromDraggingPoint ≠ envDropInZone.hPublicInterface ∧
      (({} : State).buffers (envDropInZone.getBufferByIndex .MAIN_VIEW 0)).isDirty = false) ∧
    ∃ r, notify envDropInZone {} { code := Code.TCN_TABDROPPEDOUTSIDE, hwndFrom := 3 } = .ok r ∧
      r.ret = true ∧ r.cmds = [] :=
  ⟨⟨by decide, rfl, by decide, rfl⟩, _, rfl, rfl, rfl⟩

/-- C9, amended: for a tab-dropped-outside event whose drop point lies
outside this instance's rectangle, on a window that is none of this
instance's views or tab strips and whose parent has the application's class
and is not this instance's window: `notify` returns TRUE; if the dragged
buffer is dirty the only calls are the modal notice and the reset of the
dragging point; if it is clean the switch-view message and the transfer
message are sent, and the document is closed if and only if Ctrl is not held. -/
theorem drop_on_other_instance (e : Env) (s : State) (n : SCNotification)
    (hcode : n.code = Code.TCN_TABDROPPEDOUTSIDE)
    (h1 : e.windowFromDraggingPoint ≠ hEditView e s.activeView)
    (h2 : e.windowFromDraggingPoint ≠ hDocTab e s.activeView.other)
    (h3 : e.windowFromDraggingPoint ≠ hEditView e s.activeView.other)
    (hzone : e.isInNppZone = false)
    (hclass : e.classNameMatches (e.getParent e.windowFromDraggingPoint) = true)
    (hother : e.getParent e.windowFromDraggingPoint ≠ e.hPublicInterface) :
    ∃ r, notify e s n = .ok r ∧ r.ret = true ∧
      ((s.buffers (e.getBufferByIndex (notifyDocTab e n) (e.getCurrentTabIndex s.activeView))).isDirty = true →
        r.cmds = [Cmd.messageBoxCannotMoveDoc, Cmd.resetDraggingPoint]) ∧
      ((s.buffers (e.getBufferByIndex (notifyDocTab e n) (e.getCurrentTabIndex s.activeView))).isDirty = false →
        r.cmds =
          [Cmd.sendSwitchViewFromHwnd (e.getParent e.windowFromDraggingPoint) e.windowFromDraggingPoint,
           Cmd.sendCopyData (e.getParent e.windowFromDraggingPoint)
             (['"'] ++ (s.buffers (e.getCurrentBufferID s.activeView)).fullPathName ++ ['"'])] ++
          (if e.isInCtrlStat then []
           else [Cmd.fileClose
                   (e.getBufferByIndex (notifyDocTab e n) (e.getCurrentTabIndex s.activeView))
                   (notifyDocTab e n)] ++ (if e.noOpenedDoc then [Cmd.sendClose] else [])) ++
          [Cmd.resetDraggingPoint]) := by
  refine ⟨notify_TCN_TABDROPPED e s n, by simp [notify, hcode], ?_, ?_, ?_⟩
  · simp [notify_TCN_TABDROPPED, hcode, h1, h2, h3, hzone, hclass, hother]
  · intro hdirty
    simp [notify_TCN_TABDROPPED, hcode, h1, h2, h3, hzone, hclass, hother, dropOnOtherInstance, hdirty]
  · intro hclean
    simp only [notifyDocTab] at hclean ⊢
    cases hctrl : e.isInCtrlStat <;> cases hno : e.noOpenedDoc <;>
      simp [notify_TCN_TABDROPPED, hcode, h1, h2, h3, hzone, hclass, hother, dropOnOtherInstance,
        notifyDocTab, hclean, hctrl, hno]

/-- Witness of C9, amended: a clean buffer dropped on another instance,
Ctrl not held. -/
theorem drop_on_other_instance_witness :
    ∃ r, notify envDropOutside {} { code := Code.TCN_TABDROPPEDOUTSIDE, hwndFrom := 3 } = .ok r ∧
      r.ret = true ∧
      r.cmds = [Cmd.sendSwitchViewFromHwnd 60 50, Cmd.sendCopyData 60 ['"', '"'],
                Cmd.fileClose 1 .MAIN_VIEW, Cmd.resetDraggingPoint] := by
  obtain ⟨r, h, hr, _, hc⟩ :=
    drop_on_other_instance envDropOutside {} { code := Code.TCN_TABDROPPEDOUTSIDE, hwndFrom := 3 }
      rfl (by decide) (by decide) (by decide) rfl rfl (by decide)
  exact ⟨r, h, hr, hc rfl⟩

/-! ### Tab close (C10) -/

/-- C10: every tab-close event returns FALSE with the state as it was; it
issues an activation of the buffer at the closed tab, before the close, if
and only if that buffer is dirty, then the close, and then `checkDocState`
(the document-state signal) exactly once if the close succeeds and not at all
if it does not. -/
theorem tab_close_calls (e : Env) (s : State) (n : SCNotification)
    (hcode : n.code = Code.TCN_TABDELETE) :
    ∃ r, notify e s n = .ok r ∧ r.ret = false ∧
      r.cmds =
        (if (s.buffers (e.getBufferByIndex (notifyDocTab e n) n.tabOrigin)).isDirty then
          [Cmd.activateBuffer (e.getBufferByIndex (notifyDocTab e n) n.tabOrigin) (notifyDocTab e n)]
         else []) ++
        [Cmd.fileClose (e.getBufferByIndex (notifyDocTab e n) n.tabOrigin) (notifyDocTab e n)] ++
        (if e.fileCloseResult (e.getBufferByIndex (notifyDocTab e n) n.tabOrigin) (notifyDocTab e n) then
          [Cmd.checkDocState]
         else []) ∧
      r.cmds.countP Cmd.isCheckDocState =
        (if e.fileCloseResult (e.getBufferByIndex (notifyDocTab e n) n.tabOrigin) (notifyDocTab e n) then 1
         else 0) ∧
      (((s.buffers (e.getBufferByIndex (notifyDocTab e n) n.tabOrigin)).isDirty = false) →
        ∀ b v, Cmd.activateBuffer b v ∉ r.cmds) := by
  refine ⟨notify_TCN_TABDELETE e s n, by simp [notify, hcode], rfl, ?_, ?_, ?_⟩
  · simp only [notify_TCN_TABDELETE, notifyDocTab]
  · simp only [notify_TCN_TABDELETE, notifyDocTab]
    split_ifs <;> simp [List.countP_cons, Cmd.isCheckDocState]
  · intro hclean b v
    simp only [notify_TCN_TABDELETE, notifyDocTab] at hclean ⊢
    rw [hclean]
    simp only [Bool.false_eq_true, if_false, List.nil_append]
    split_ifs <;> simp

/-- Witness of C10: closing the tab of a dirty buffer, the close succeeds. -/
theorem tab_close_calls_witness :
    ∃ r, notify {} { buffers := fun _ => { isDirty := true } }
        { code := Code.TCN_TABDELETE, hwndFrom := 3 } = .ok r ∧
      r.cmds = [Cmd.activateBuffer 1 .MAIN_VIEW, Cmd.fileClose 1 .MAIN_VIEW, Cmd.checkDocState] := by
  obtain ⟨r, h, _, hc, _⟩ :=
    tab_close_calls {} { buffers := fun _ => { isDirty := true } }
      { code := Code.TCN_TABDELETE, hwndFrom := 3 } rfl
  exact ⟨r, h, hc⟩

/-! ### Fold-level changes after an edit (C4) -/

/-- One content-modified notification from a resolved view: the flag
`prevWasEdit` after it, and whether the fold handler was called. -/
theorem modified_step (e : Env) (s : State) (n : SCNotification)
    (hcode : n.code = Code.SCN_MODIFIED) (hview : (notifyView e n).isSome = true) :
    ∃ r, notify e s n = .ok r ∧
      r.st.prevWasEdit = (isEdit n && !isFoldChange n) ∧
      forwardsFold r = (isFoldChange n && (isEdit n || s.prevWasEdit)) := by
  obtain ⟨v, hv⟩ := Option.isSome_iff_exists.mp hview
  refine ⟨notify_SCN_MODIFIED e s n, by simp [notify, hcode], ?_, ?_⟩
  · simp only [notify_SCN_MODIFIED, hv, isEdit, isFoldChange]
    cases h1 : hasBits n.modificationType (SC_MOD_DELETETEXT ||| SC_MOD_INSERTTEXT) <;>
      cases h2 : hasBits n.modificationType SC_MOD_CHANGEFOLD <;>
      cases h3 : hasBits n.modificationType
        (SC_MOD_DELETETEXT ||| SC_MOD_INSERTTEXT ||| SC_PERFORMED_UNDO ||| SC_PERFORMED_REDO) <;>
      cases h5 : s.prevWasEdit <;>
      simp [setModifiedStatus, setDirty, h5]
  · simp only [notify_SCN_MODIFIED, hv, isEdit, isFoldChange, forwardsFold]
    cases h1 : hasBits n.modificationType (SC_MOD_DELETETEXT ||| SC_MOD_INSERTTEXT) <;>
      cases h2 : hasBits n.modificationType SC_MOD_CHANGEFOLD <;>
      cases h3 : hasBits n.modificationType
        (SC_MOD_DELETETEXT ||| SC_MOD_INSERTTEXT ||| SC_PERFORMED_UNDO ||| SC_PERFORMED_REDO) <;>
      cases h4 : hasBits n.modificationType SC_MOD_CHANGEINDICATOR <;>
      cases h5 : s.prevWasEdit <;>
      simp [setModifiedStatus, setDirty, h5, Cmd.isFoldChanged]

/-- A run of content-modified notifications from resolved views, from any
state: which of them call the fold handler. -/
theorem fold_forwarded_from (e : Env) (ns : List SCNotification) :
    ∀ s : State,
      (∀ n ∈ ns, n.code = Code.SCN_MODIFIED ∧ (notifyView e n).isSome = true) →
      ∃ rs, notifySeq e s ns = .ok rs ∧ rs.length = ns.length ∧
        ∀ k n r, ns[k]? = some n → rs[k]? = some r →
          (forwardsFold r = true ↔
            isFoldChange n = true ∧
              (isEdit n = true ∨ (k = 0 ∧ s.prevWasEdit = true) ∨
                ∃ j m, k = j + 1 ∧ ns[j]? = some m ∧ isEdit m = true ∧ isFoldChange m = false)) := by
  induction ns with
  | nil => intro s _; exact ⟨[], rfl, rfl, by simp⟩
  | cons n0 ns ih =>
    intro s h
    obtain ⟨hc, hv⟩ := h n0 (List.mem_cons_self _ _)
    obtain ⟨r0, hr0, hprev, hfw⟩ := modified_step e s n0 hc hv
    obtain ⟨rs, hrs, hlen, hall⟩ := ih r0.st (fun m hm => h m (List.mem_cons_of_mem _ hm))
    refine ⟨r0 :: rs, by simp [notifySeq, hr0, hrs], by simp [hlen], ?_⟩
    intro k n r hn hr
    cases k with
    | zero =>
      simp only [List.getElem?_cons_zero, Option.some.injEq] at hn hr
      subst hn; subst hr
      rw [hfw]
      cases isFoldChange n0 <;> cases isEdit n0 <;> cases s.prevWasEdit <;> simp
    | succ k =>
      simp only [List.getElem?_cons_succ] at hn hr
      rw [hall k n r hn hr, hprev]
      constructor
      · rintro ⟨hf, h1 | ⟨rfl, h2⟩ | ⟨j, m, rfl, hm, hme, hmf⟩⟩
        · exact ⟨hf, Or.inl h1⟩
        · simp only [Bool.and_eq_true, Bool.not_eq_true'] at h2
          exact ⟨hf, Or.inr (Or.inr ⟨0, n0, rfl, by simp, h2.1, h2.2⟩)⟩
        · exact ⟨hf, Or.inr (Or.inr ⟨j + 1, m, rfl, by simpa using hm, hme, hmf⟩)⟩
      · rintro ⟨hf, h1 | ⟨h0, _⟩ | ⟨j, m, hj, hm, hme, hmf⟩⟩
        · exact ⟨hf, Or.inl h1⟩
        · omega
        · have hj' : k = j := by omega
          subst hj'
          cases k with
          | zero =>
            simp only [List.getElem?_cons_zero, Option.some.injEq] at hm
            subst hm
            exact ⟨hf, Or.inr (Or.inl ⟨rfl, by simp [hme, hmf]⟩)⟩
          | succ k =>
            simp only [List.getElem?_cons_succ] at hm
            exact ⟨hf, Or.inr (Or.inr ⟨k, m, rfl, hm, hme, hmf⟩)⟩

/-- C4, as stated, fails in both directions on notifications that carry an
insert bit and the fold-change bit together (modification bits 9): the first
notification of a run is such a fold-level change and is forwarded with no
notification before it; and a fold-level change (bits 8) right after that
edit notification is not forwarded. -/
theorem fold_forwarding_not_by_predecessor :
    (∃ r, notifySeq {} {} [modifiedFromPrimary 9] = .ok [r] ∧
      isFoldChange (modifiedFromPrimary 9) = true ∧ forwardsFold r = true) ∧
    (∃ r1 r2, notifySeq {} {} [modifiedFromPrimary 9, modifiedFromPrimary 8] = .ok [r1, r2] ∧
      isEdit (modifiedFromPrimary 9) = true ∧ isFoldChange (modifiedFromPrimary 8) = true ∧
      forwardsFold r2 = false) :=
  ⟨⟨_, rfl, by decide, by decide⟩, ⟨_, _, rfl, by decide, by decide, by decide⟩⟩

/-- C4, amended: in every run of content-modified notifications from a
resolved view that starts with `prevWasEdit` false, every dispatch returns,
and a notification is forwarded to the fold handler if and only if it has
the fold-change bit and either has an insert/delete bit itself or comes
right after a notification that had an insert/delete bit and no fold-change
bit. -/
theorem fold_forwarded_iff (e : Env) (s : State) (ns : List SCNotification)
    (hs : s.prevWasEdit = false)
    (h : ∀ n ∈ ns, n.code = Code.SCN_MODIFIED ∧ (notifyView e n).isSome = true) :
    ∃ rs, notifySeq e s ns = .ok rs ∧ rs.length = ns.length ∧
      ∀ k n r, ns[k]? = some n → rs[k]? = some r →
        (forwardsFold r = true ↔
          isFoldChange n = true ∧
            (isEdit n = true ∨
              ∃ j m, k = j + 1 ∧ ns[j]? = some m ∧ isEdit m = true ∧ isFoldChange m = false)) := by
  obtain ⟨rs, hrs, hlen, hall⟩ := fold_forwarded_from e ns s h
  refine ⟨rs, hrs, hlen, ?_⟩
  intro k n r hn hr
  rw [hall k n r hn hr]
  simp [hs]

/-- Witness of C4, amended: an insert followed by a fold-level change. -/
theorem fold_forwarded_iff_witness :
    ∃ rs, notifySeq {} {} [modifiedFromPrimary 1, modifiedFromPrimary 8] = .ok rs ∧ rs.length = 2 ∧
      ∀ k n r, [modifiedFromPrimary 1, modifiedFromPrimary 8][k]? = some n → rs[k]? = some r →
        (forwardsFold r = true ↔
          isFoldChange n = true ∧
            (isEdit n = true ∨
              ∃ j m, k = j + 1 ∧ [modifiedFromPrimary 1, modifiedFromPrimary 8][j]? = some m ∧
                isEdit m = true ∧ isFoldChange m = false)) :=
  fold_forwarded_iff {} {} [modifiedFromPrimary 1, modifiedFromPrimary 8] rfl (by decide)

/-! ### The distinct-delimiter scan selects the innermost enclosing pair (C2) -/

theorem toInt32_of_lt (n : Nat) (h : n < 2 ^ 31) : toInt32 n = (n : Int) := by
  have h2 : n % 2 ^ 32 = n := Nat.mod_eq_of_lt (by omega)
  unfold toInt32
  rw [h2, if_pos h]

theorem toUInt32_natCast (n : Nat) (h : n < 2 ^ 31) : toUInt32 (n : Int) = n := by
  have h2 : ((n : Int) % 2 ^ 32) = (n : Int) := Int.emod_eq_of_lt (by omega) (by omega)
  unfold toUInt32
  rw [h2, Int.toNat_ofNat]

theorem scanGood_stack (click : Nat) (st : ScanState) (seen : List (Nat × Nat)) (stack : List Nat)
    (h : ScanGood click st seen) : ScanGood click { st with stack := stack } seen := h

/-- A matched pair that is not taken keeps the chosen pair the innermost. -/
theorem scanGood_skip (click : Nat) (st : ScanState) (seen : List (Nat × Nat)) (m i : Nat)
    (hg : ScanGood click st seen)
    (hno : ¬ (m ≤ click ∧ click ≤ i ∧
      (st.leftmost_position = -1 ∨ toUInt32 st.leftmost_position < m))) :
    ScanGood click st (seen ++ [(m, i)]) := by
  rcases hg with ⟨h1, h2, h3⟩ | ⟨l, r, h1, h2, hl, hmem, henc, hmax⟩
  · left
    refine ⟨h1, h2, ?_⟩
    intro p hp
    rcases List.mem_append.mp hp with hp | hp
    · exact h3 p hp
    · simp only [List.mem_singleton] at hp
      subst hp
      intro ⟨ha, hb⟩
      exact hno ⟨ha, hb, Or.inl h1⟩
  · right
    refine ⟨l, r, h1, h2, hl, List.mem_append_left _ hmem, henc, ?_⟩
    intro p hp hpe
    rcases List.mem_append.mp hp with hp | hp
    · exact hmax p hp hpe
    · simp only [List.mem_singleton] at hp
      subst hp
      obtain ⟨ha, hb⟩ := hpe
      by_contra hlt
      apply hno
      refine ⟨ha, hb, Or.inr ?_⟩
      rw [h1, toUInt32_natCast l hl]
      simp only at hlt
      omega

/-- A matched pair that is taken becomes the innermost. -/
theorem scanGood_take (click : Nat) (st : ScanState) (seen : List (Nat × Nat)) (m i : Nat)
    (stack : List Nat) (hg : ScanGood click st seen) (hm : m < 2 ^ 31) (hi : i < 2 ^ 31)
    (hyes : m ≤ click ∧ click ≤ i ∧
      (st.leftmost_position = -1 ∨ toUInt32 st.leftmost_position < m)) :
    ScanGood click
      { stack := stack, leftmost_position := toInt32 m, rightmost_position := toInt32 i }
      (seen ++ [(m, i)]) := by
  obtain ⟨ha, hb, hc⟩ := hyes
  right
  refine ⟨m, i, toInt32_of_lt m hm, toInt32_of_lt i hi, hm, by simp, ⟨ha, hb⟩, ?_⟩
  intro p hp hpe
  rcases List.mem_append.mp hp with hp | hp
  · rcases hg with ⟨_, _, h3⟩ | ⟨l, r, h1, _, hl, _, _, hmax⟩
    · exact absurd hpe (h3 p hp)
    · have := hmax p hp hpe
      rcases hc with hc | hc
      · rw [h1] at hc
        omega
      · rw [h1, toUInt32_natCast l hl] at hc
        omega
  · simp only [List.mem_singleton] at hp
    subst hp
    exact Nat.le_refl _

/-- The loop of the distinct-delimiter scan keeps the chosen pair the
innermost enclosing pair of the pairs matched so far. -/
theorem distinctLoop_good (leftD rightD : Char) (click : Nat) (rest : List Char) :
    ∀ (i : Nat) (st : ScanState) (seen : List (Nat × Nat)),
      ScanGood click st seen → (∀ x ∈ st.stack, x < i) → i + rest.length < 2 ^ 31 →
      ScanGood click (distinctLoop leftD rightD click i rest st)
        (seen ++ matchedPairs leftD rightD i rest st.stack) := by
  induction rest with
  | nil =>
    intro i st seen hg _ _
    simpa [distinctLoop, matchedPairs] using hg
  | cons c rest ih =>
    intro i st seen hg hst hlen
    simp only [List.length_cons] at hlen
    have hi : i < 2 ^ 31 := by omega
    have hlen' : (i + 1) + rest.length < 2 ^ 31 := by omega
    simp only [distinctLoop]
    by_cases hL : (c == leftD) = true
    · have e1 : distinctStep leftD rightD click st i c = { st with stack := i :: st.stack } := by
        simp [distinctStep, hL]
      have e2 : matchedPairs leftD rightD i (c :: rest) st.stack =
          matchedPairs leftD rightD (i + 1) rest (i :: st.stack) := by
        simp [matchedPairs, hL]
      rw [e1, e2]
      refine ih (i + 1) _ seen (scanGood_stack click st seen _ hg) ?_ hlen'
      intro x hx
      rcases List.mem_cons.mp hx with rfl | hx
      · omega
      · have := hst x hx
        omega
    · by_cases hR : (c == rightD) = true
      · cases hstack : st.stack with
        | nil =>
          have e1 : distinctStep leftD rightD click st i c = st := by
            simp [distinctStep, hL, hR, hstack]
          have e2 : matchedPairs leftD rightD i (c :: rest) [] =
              matchedPairs leftD rightD (i + 1) rest [] := by
            simp [matchedPairs, hL, hR]
          rw [e1, e2]
          have := ih (i + 1) st seen hg (by simp [hstack]) hlen'
          rwa [hstack] at this
        | cons m stack' =>
          have hm : m < i := hst m (by simp [hstack])
          have e2 : matchedPairs leftD rightD i (c :: rest) (m :: stack') =
              (m, i) :: matchedPairs leftD rightD (i + 1) rest stack' := by
            simp [matchedPairs, hL, hR]
          have hst' : ∀ x ∈ stack', x < i + 1 := by
            intro x hx
            have := hst x (by simp [hstack, hx])
            omega
          rw [e2]
          have happ : seen ++ (m, i) :: matchedPairs leftD rightD (i + 1) rest stack' =
              (seen ++ [(m, i)]) ++ matchedPairs leftD rightD (i + 1) rest stack' := by simp
          rw [happ]
          by_cases hcond : m ≤ click ∧ click ≤ i ∧
              (st.leftmost_position = -1 ∨ toUInt32 st.leftmost_position < m)
          · have e1 : distinctStep leftD rightD click st i c =
                { stack := stack', leftmost_position := toInt32 m, rightmost_position := toInt32 i } := by
              obtain ⟨ha, hb, hc⟩ := hcond
              simp [distinctStep, hL, hR, hstack, ha, hb, hc]
            rw [e1]
            exact ih (i + 1) _ _ (scanGood_take click st seen m i stack' hg (by omega) hi hcond)
              hst' hlen'
          · have e1 : distinctStep leftD rightD click st i c = { st with stack := stack' } := by
              have hc : ¬ ((m ≤ click ∧ click ≤ i) ∧
                  (st.leftmost_position = -1 ∨ toUInt32 st.leftmost_position < m)) := by
                rintro ⟨⟨ha, hb⟩, hc⟩
                exact hcond ⟨ha, hb, hc⟩
              simp [distinctStep, hL, hR, hstack, hc]
            rw [e1]
            exact ih (i + 1) _ _
              (scanGood_stack click st _ stack' (scanGood_skip click st seen m i hg hcond)) hst' hlen'
      · have e1 : distinctStep leftD rightD click st i c = st := by
          simp [distinctStep, hL, hR]
        have e2 : matchedPairs leftD rightD i (c :: rest) st.stack =
            matchedPairs leftD rightD (i + 1) rest st.stack := by
          simp [matchedPairs, hL, hR]
        rw [e1, e2]
        exact ih (i + 1) st seen hg (fun x hx => by have := hst x hx; omega) hlen'

/-- The distinct-delimiter scan as a whole: its result is the innermost
enclosing pair of the pairs of the stack-based matching. -/
theorem selectDistinct_good (bufstring : List Char) (leftD rightD : Char) (click : Nat)
    (hlen : bufstring.length < 2 ^ 31) :
    ScanGood click (distinctLoop leftD rightD click 0 bufstring {})
      (matchedPairs leftD rightD 0 bufstring []) := by
  have h := distinctLoop_good leftD rightD click bufstring 0 {} []
    (Or.inl ⟨rfl, rfl, by simp⟩) (by simp [ScanState.stack]) (by omega)
  simpa using h

/-- C2: for distinct left and right delimiters (and a text whose length fits
the `int` positions of the source), the Ctrl + double click scan returns the
innermost enclosing pair: when some pair of the stack-based bracket matching
encloses the click it returns one of those pairs whose left delimiter is
greatest, and it selects nothing exactly when no matched pair encloses the
click.  On `(size_t i = f(); i < n; i++)` with the click at `i < n` (index
17) it returns the outer pair (0, 27), not the pair (13, 14) of `f()`. -/
theorem distinct_scan_innermost (bufstring : List Char) (leftD rightD : Char) (click : Nat)
    (hne : leftD ≠ rightD) (hlen : bufstring.length < 2 ^ 31) :
    ((∃ p ∈ matchedPairs leftD rightD 0 bufstring [], encloses click p) →
      ∃ l r : Nat, delimiterSelection bufstring leftD rightD click = .ok ((l : Int), (r : Int)) ∧
        (l, r) ∈ matchedPairs leftD rightD 0 bufstring [] ∧ encloses click (l, r) ∧
        ∀ p ∈ matchedPairs leftD rightD 0 bufstring [], encloses click p → p.1 ≤ l) ∧
    ((∀ p ∈ matchedPairs leftD rightD 0 bufstring [], ¬ encloses click p) →
      delimiterSelection bufstring leftD rightD click = .ok (-1, -1)) ∧
    (∃ pr, delimiterSelection bufstring leftD rightD click = .ok pr ∧
      (hasSelection pr = false ↔ ∀ p ∈ matchedPairs leftD rightD 0 bufstring [], ¬ encloses click p)) ∧
    (delimiterSelection forHeader '(' ')' 17 = .ok (0, 27) ∧
      matchedPairs '(' ')' 0 forHeader [] = [(13, 14), (0, 27)]) := by
  have hsel : delimiterSelection bufstring leftD rightD click =
      .ok (selectDistinct bufstring leftD rightD click) := by
    have : (rightD == leftD) = false := by simpa using fun h => hne h.symm
    simp [delimiterSelection, this]
  have hg := selectDistinct_good bufstring leftD rightD click hlen
  refine ⟨?_, ?_, ?_, ⟨rfl, by decide⟩⟩
  · rintro ⟨p, hp, hpe⟩
    rcases hg with ⟨_, _, h3⟩ | ⟨l, r, h1, h2, _, hmem, henc, hmax⟩
    · exact absurd hpe (h3 p hp)
    · refine ⟨l, r, ?_, hmem, henc, hmax⟩
      rw [hsel]
      simp only [selectDistinct, h1, h2]
  · intro hnone
    rcases hg with ⟨h1, h2, _⟩ | ⟨l, r, _, _, _, hmem, henc, _⟩
    · rw [hsel]
      simp only [selectDistinct, h1, h2]
    · exact absurd henc (hnone _ hmem)
  · refine ⟨selectDistinct bufstring leftD rightD click, hsel, ?_⟩
    rcases hg with ⟨h1, h2, h3⟩ | ⟨l, r, h1, h2, _, hmem, henc, _⟩
    · simp only [selectDistinct, hasSelection, h1, h2]
      simpa using h3
    · simp only [selectDistinct, hasSelection, h1, h2]
      constructor
      · intro h
        exfalso
        have hl : ((l : Int) != -1) = true := by
          simp only [bne_iff_ne, ne_eq]; omega
        have hr : ((r : Int) != -1) = true := by
          simp only [bne_iff_ne, ne_eq]; omega
        rw [hl, hr] at h
        simp at h
      · intro h
        exact absurd henc (h _ hmem)

/-- Witness of C2: the text `(size_t i = f(); i < n; i++)`, click at 17. -/
theorem distinct_scan_innermost_witness :
    ∃ l r : Nat, delimiterSelection forHeader '(' ')' 17 = .ok ((l : Int), (r : Int)) ∧
      (l, r) ∈ matchedPairs '(' ')' 0 forHeader [] ∧ encloses 17 (l, r) ∧
      ∀ p ∈ matchedPairs '(' ')' 0 forHeader [], encloses 17 p → p.1 ≤ l :=
  (distinct_scan_innermost forHeader '(' ')' 17 (by decide) (by decide)).1
    ⟨(0, 27), by decide, by decide, by decide⟩

/-! ### The identical-delimiter scan at or past the end of the text -/

/-- With identical delimiters, every click position at or past the end of
the text (and within the `int32_t` range) makes the first access of the left
scan raise `std::out_of_range`. -/
theorem selectIdentical_out_of_range (bufstring : List Char) (delim : Char) (click : Nat)
    (h : bufstring.length ≤ click) (hc : click < 2 ^ 31) :
    selectIdentical bufstring delim click = .error .out_of_range := by
  have hs : strAt bufstring click = .error .out_of_range := by
    simp [strAt, List.getElem?_eq_none h]
  have hd : delimiterAt bufstring delim click = .error .out_of_range := by
    simp [delimiterAt, hs]
  have hl : leftScan bufstring delim click = .error .out_of_range := by
    cases click with
    | zero => simp [leftScan, hd]
    | succ k => simp [leftScan, hd]
  have hnn : (0 : Int) ≤ (click : Int) := Int.ofNat_nonneg click
  simp [selectIdentical, toInt32_of_lt click hc, hnn, hl]

/-! ### Character added (C12) -/

/-- C12: a character-added event returns FALSE with the state as it was.
While a macro is recorded or played back it issues no call at all.
Otherwise it issues, in this order, the indentation maintenance if and only
if the maintain-indent setting is on, the matched-pair insertion if and only
if some pair is configured and the editor has at most one selection, and
always the auto-completion update. -/
theorem char_added_calls (e : Env) (s : State) (n : SCNotification)
    (hcode : n.code = Code.SCN_CHARADDED) :
    ∃ r, notify e s n = .ok r ∧ r.ret = false ∧ r.st = s ∧
      ((s.recordingMacro = true ∨ s.playingBackMacro = true) → r.cmds = []) ∧
      (s.recordingMacro = false → s.playingBackMacro = false →
        r.cmds =
          (if e.maitainIndent then [Cmd.maintainIndentation n.ch] else []) ++
          (if e.hasAnyPairsPair && decide (e.getSelections s.activeView ≤ 1) then
            [Cmd.autoCInsertMatchedChars (autoC e n) n.ch] else []) ++
          [Cmd.autoCUpdate (autoC e n) n.ch]) := by
  refine ⟨notify_SCN_CHARADDED e s n, by simp [notify, hcode], ?_, ?_, ?_, ?_⟩
  · simp only [notify_SCN_CHARADDED]
    split <;> rfl
  · simp only [notify_SCN_CHARADDED]
    split <;> rfl
  · rintro (h | h) <;> simp [notify_SCN_CHARADDED, h]
  · intro h1 h2
    simp [notify_SCN_CHARADDED, h1, h2, Nat.not_lt]

/-- Witness of C12: no macro runs, indentation is maintained, a pair is
configured and there is one selection. -/
theorem char_added_calls_witness :
    ∃ r, notify { maitainIndent := true, hasAnyPairsPair := true } {}
        { code := Code.SCN_CHARADDED, hwndFrom := 1, ch := 40 } = .ok r ∧
      r.cmds = [Cmd.maintainIndentation 40, Cmd.autoCInsertMatchedChars .MAIN_VIEW 40,
                Cmd.autoCUpdate .MAIN_VIEW 40] := by
  obtain ⟨r, h, _, _, _, hc⟩ :=
    char_added_calls { maitainIndent := true, hasAnyPairsPair := true } {}
      { code := Code.SCN_CHARADDED, hwndFrom := 1, ch := 40 } rfl
  exact ⟨r, h, hc rfl rfl⟩

/-! ### Paint completed and the hot spots (C13) -/

/-- C13, as stated, fails: a paint-completed event from the primary view
whose `wParam` is `LINKTRIGGERED` recomputes the hot spots while a
find/replace operation is in progress, and also when no hyperlink was
triggered. -/
theorem paint_marker_recomputes :
    (∃ r, notify { isFindReplacing := true } { linkTriggered := true }
        { code := Code.SCN_PAINTED, hwndFrom := 1, wParam := LINKTRIGGERED } = .ok r ∧
      r.cmds.any Cmd.isAddHotSpot = true ∧ r.st.linkTriggered = false) ∧
    (∃ r, notify {} { linkTriggered := false }
        { code := Code.SCN_PAINTED, hwndFrom := 1, wParam := LINKTRIGGERED } = .ok r ∧
      r.cmds.any Cmd.isAddHotSpot = true) :=
  ⟨⟨_, rfl, rfl, rfl⟩, ⟨_, rfl, rfl⟩⟩

/-- C13, amended: on a paint-completed event from a resolved view the hot
spots are recomputed, and `linkTriggered` cleared, if and only if a
hyperlink was just triggered and no find/replace operation is in progress,
or the `wParam` of the event is `LINKTRIGGERED`; otherwise `linkTriggered`
stays as it was.  For an event without that `wParam`, the hot spots are
never recomputed while find/replace is in progress. -/
theorem paint_recomputes_hot_spots (e : Env) (s : State) (n : SCNotification)
    (hcode : n.code = Code.SCN_PAINTED) (hview : (notifyView e n).isSome = true) :
    ∃ r, notify e s n = .ok r ∧
      (r.cmds.any Cmd.isAddHotSpot = true ↔
        (s.linkTriggered = true ∧ e.isFindReplacing = false) ∨ n.wParam = LINKTRIGGERED) ∧
      r.cmds.any Cmd.isAddHotSpot = paintRecomputes e s n ∧
      r.st.linkTriggered = (s.linkTriggered && !paintRecomputes e s n) ∧
      (n.wParam ≠ LINKTRIGGERED → e.isFindReplacing = true →
        r.cmds.any Cmd.isAddHotSpot = false ∧ r.st.linkTriggered = s.linkTriggered) := by
  obtain ⟨v, hv⟩ := Option.isSome_iff_exists.mp hview
  have hany : (notify_SCN_PAINTED e s n).cmds.any Cmd.isAddHotSpot = paintRecomputes e s n := by
    simp only [notify_SCN_PAINTED, hv, paintRecomputes]
    cases s.mainWrapRestoreNeeded <;> cases s.subWrapRestoreNeeded <;> cases e.doSync <;>
      cases s.linkTriggered <;> cases e.isFindReplacing <;> cases (n.wParam == LINKTRIGGERED) <;>
      cases panelShown e.docMap <;> cases s.docMapTemporarilyShowing <;>
      simp [Cmd.isAddHotSpot]
  have hlink : (notify_SCN_PAINTED e s n).st.linkTriggered =
      (s.linkTriggered && !paintRecomputes e s n) := by
    simp only [notify_SCN_PAINTED, hv, paintRecomputes]
    cases s.linkTriggered <;> cases e.isFindReplacing <;> cases (n.wParam == LINKTRIGGERED) <;>
      simp
  refine ⟨notify_SCN_PAINTED e s n, by simp [notify, hcode], ?_, hany, hlink, ?_⟩
  · rw [hany]
    simp [paintRecomputes]
  · intro hw hf
    have hp : paintRecomputes e s n = false := by
      simp [paintRecomputes, hf, hw]
    rw [hany, hlink, hp]
    simp

/-- Witness of C13, amended: a hyperlink was triggered, no find/replace. -/
theorem paint_recomputes_hot_spots_witness :
    ∃ r, notify {} { linkTriggered := true } { code := Code.SCN_PAINTED, hwndFrom := 1 } = .ok r ∧
      r.cmds.any Cmd.isAddHotSpot = true ∧ r.st.linkTriggered = false := by
  obtain ⟨r, h, _, h2, h3, _⟩ :=
    paint_recomputes_hot_spots {} { linkTriggered := true }
      { code := Code.SCN_PAINTED, hwndFrom := 1 } rfl rfl
  exact ⟨r, h, h2, h3⟩

/-! ### UI state updated and the one-shot flag (C15) -/

/-- A notification from the edit view `v` is from a resolved view. -/
theorem notifyView_of_editView (e : Env) (n : SCNotification) (v : View)
    (h : n.hwndFrom = hEditView e v) : (notifyView e n).isSome = true := by
  cases v
  · have : isFromPrimary e n = true := by
      simp only [hEditView] at h
      simp [isFromPrimary, h]
    simp [notifyView, this]
  · simp only [hEditView] at h
    by_cases hp : isFromPrimary e n = true
    · simp [notifyView, hp]
    · have : isFromSecondary e n = true := by
        simp [isFromSecondary, hp, h]
      simp [notifyView, hp, this]

/-- One UI-state-updated event from the focused view, no find/replace in
progress, smart highlighting enabled: the one-shot flag decides. -/
theorem updateui_focused_step (e : Env) (s : State) (n : SCNotification)
    (hcode : n.code = Code.SCN_UPDATEUI) (hfr : e.isFindReplacing = false)
    (hfocus : n.hwndFrom = hEditView e s.activeView) (hsmart : e.enableSmartHilite = true) :
    ∃ r, notify e s n = .ok r ∧ r.st.activeView = s.activeView ∧
      r.st.disableSmartHiliteTmp = false ∧
      r.cmds.any Cmd.isSmartHighlight = !s.disableSmartHiliteTmp := by
  obtain ⟨v, hv⟩ := Option.isSome_iff_exists.mp (notifyView_of_editView e n s.activeView hfocus)
  refine ⟨notify_SCN_UPDATEUI e s n, by simp [notify, hcode], ?_, ?_, ?_⟩
  · simp only [notify_SCN_UPDATEUI, hv, hfr, hfocus, hsmart]
    cases s.disableSmartHiliteTmp <;> simp
  · simp only [notify_SCN_UPDATEUI, hv, hfr, hfocus, hsmart]
    cases h : s.disableSmartHiliteTmp <;> simp [h]
  · simp only [notify_SCN_UPDATEUI, hv, hfr, hfocus, hsmart]
    cases s.disableSmartHiliteTmp <;> cases hasBits n.updated SC_UPDATE_V_SCROLL <;>
      cases e.enableTagsMatchHilite <;> cases hasBits n.updated SC_UPDATE_SELECTION <;>
      cases hasBits n.updated SC_UPDATE_CONTENT <;> cases panelShown e.funcList <;>
      simp [Cmd.isSmartHighlight]

/-- C15: a UI-state-updated event from a resolved view returns.  While a
find/replace operation is in progress the only call it can issue is the
hot-spot checkpoint of a vertical scroll, and the state, the one-shot flag
`disableSmartHiliteTmp` included, is as it was.  Otherwise, from the focused
view with smart highlighting enabled, an event that finds the flag set
issues no smart highlighting and clears the flag, and one that finds it
clear highlights; so of two such events in a row that start with the flag
set, the first does not highlight and the second does. -/
theorem updateui_one_shot (e : Env) (s : State) (n n2 : SCNotification)
    (hcode : n.code = Code.SCN_UPDATEUI) (hview : (notifyView e n).isSome = true) :
    ∃ r, notify e s n = .ok r ∧
      (e.isFindReplacing = true →
        r.st = s ∧
        r.cmds = (if hasBits n.updated SC_UPDATE_V_SCROLL then [Cmd.addHotSpot (notifyView e n)] else [])) ∧
      (e.isFindReplacing = false → n.hwndFrom = hEditView e s.activeView →
        e.enableSmartHilite = true →
          (s.disableSmartHiliteTmp = true →
            r.cmds.any Cmd.isSmartHighlight = false ∧ r.st.disableSmartHiliteTmp = false) ∧
          (s.disableSmartHiliteTmp = false →
            r.cmds.any Cmd.isSmartHighlight = true ∧ r.st.disableSmartHiliteTmp = false) ∧
          (s.disableSmartHiliteTmp = true → n2.code = Code.SCN_UPDATEUI →
            n2.hwndFrom = hEditView e s.activeView →
            ∃ r2, notifySeq e s [n, n2] = .ok [r, r2] ∧
              r.cmds.any Cmd.isSmartHighlight = false ∧
              r2.cmds.any Cmd.isSmartHighlight = true)) := by
  obtain ⟨v, hv⟩ := Option.isSome_iff_exists.mp hview
  have hr : notify e s n = .ok (notify_SCN_UPDATEUI e s n) := by simp [notify, hcode]
  refine ⟨notify_SCN_UPDATEUI e s n, hr, ?_, ?_⟩
  · intro hfr
    constructor
    · simp [notify_SCN_UPDATEUI, hv, hfr]
    · simp [notify_SCN_UPDATEUI, hv, hfr]
  · intro hfr hfocus hsmart
    obtain ⟨r1, h1, hact, hflag, hhi⟩ := updateui_focused_step e s n hcode hfr hfocus hsmart
    rw [hr] at h1
    cases h1
    refine ⟨fun h => ⟨by rw [hhi, h]; rfl, hflag⟩, fun h => ⟨by rw [hhi, h]; rfl, hflag⟩, ?_⟩
    intro hset hcode2 hfocus2
    obtain ⟨r2, h2, _, _, hhi2⟩ :=
      updateui_focused_step e (notify_SCN_UPDATEUI e s n).st n2 hcode2 hfr (by rw [hact]; exact hfocus2)
        hsmart
    refine ⟨r2, by simp [notifySeq, hr, h2], by rw [hhi, hset]; rfl, ?_⟩
    rw [hhi2, hflag]
    rfl

/-- Witness of C15: two events from the focused primary view, the flag set. -/
theorem updateui_one_shot_witness :
    ∃ r r2, notifySeq { enableSmartHilite := true } { disableSmartHiliteTmp := true }
        [{ code := Code.SCN_UPDATEUI, hwndFrom := 1 }, { code := Code.SCN_UPDATEUI, hwndFrom := 1 }] =
          .ok [r, r2] ∧
      r.cmds.any Cmd.isSmartHighlight = false ∧ r2.cmds.any Cmd.isSmartHighlight = true := by
  obtain ⟨r, _, _, h⟩ :=
    updateui_one_shot { enableSmartHilite := true } { disableSmartHiliteTmp := true }
      { code := Code.SCN_UPDATEUI, hwndFrom := 1 } { code := Code.SCN_UPDATEUI, hwndFrom := 1 } rfl rfl
  obtain ⟨r2, hseq, h1, h2⟩ := (h rfl rfl rfl).2.2 rfl rfl rfl
  exact ⟨r, r2, hseq, h1, h2⟩

/-! ### What the cases leave alone -/

/-- The double-click case never writes the state. -/
theorem doubleclick_state (e : Env) (s : State) (n : SCNotification) (r : Result)
    (h : notify_SCN_DOUBLECLICK e s n = .ok r) : r.st = s := by
  unfold notify_SCN_DOUBLECLICK at h
  cases hv : notifyView e n with
  | none =>
    simp only [hv] at h
    cases h
    rfl
  | some v =>
    simp only [hv] at h
    split at h
    · cases hd : delimiterSelection
          (if e.delimiterSelectionOnEntireDocument = true then e.getText v else e.getCurLine v)
          e.leftmostDelimiter e.rightmostDelimiter (positionOfClick e s n v) with
      | error f =>
        rw [hd] at h
        simp at h
      | ok p =>
        rw [hd] at h
        simp only at h
        split at h <;> (cases h; rfl)
    · split at h
      · cases h
        rfl
      · split at h <;> (cases h; rfl)

/-- What every case of `notify` leaves alone: only the double-click case can
raise an exception, only the macro-record case writes the recorded steps,
and only the tab-selection case writes `isFolding`, which it leaves false. -/
theorem notify_frame (e : Env) (s : State) (n : SCNotification) :
    (∀ f, notify e s n = .error f → n.code = Code.SCN_DOUBLECLICK) ∧
    (∀ r, notify e s n = .ok r →
      (r.st.macroSeq = s.macroSeq ∨ n.code = Code.SCN_MACRORECORD) ∧
      (r.st.isFolding = s.isFolding ∨ (n.code = Code.TCN_SELCHANGE ∧ r.st.isFolding = false))) := by
  constructor
  · intro f h
    cases hc : n.code <;> simp [notify, hc] at h
    rfl
  · intro r h
    cases hc : n.code <;> simp only [notify, hc, Except.ok.injEq] at h
    all_goals first
      | exact ⟨Or.inl (congrArg State.macroSeq (doubleclick_state e s n r h)),
          Or.inl (congrArg State.isFolding (doubleclick_state e s n r h))⟩
      | (subst h; exact ⟨Or.inl rfl, Or.inl rfl⟩)
      | (subst h; exact ⟨Or.inr rfl, Or.inl rfl⟩)
      | (subst h
         simp only [notify_SCN_MODIFIED, notify_SCN_SAVEPOINT, notify_TCN_MOUSEHOVERING,
           notify_TCN_MOUSELEAVING, notify_TCN_TABDROPPED, notify_TCN_TABDELETE, notify_TCN_SELCHANGE,
           notify_NM_CLICK, notify_NM_DBLCLK, notify_NM_RCLICK, notify_SCN_MARGINCLICK,
           notify_SCN_MARGINRIGHTCLICK, notify_SCN_FOLDINGSTATECHANGED, notify_SCN_CHARADDED,
           notify_SCN_UPDATEUI, notify_TTN_GETDISPINFO, notify_SCN_ZOOM,
           notify_SCN_PAINTED, notify_SCN_CALLTIPCLICK, notify_RBN_CHEVRONPUSHED, tabContextMenu,
           docTabTooltip, marginSwitch, writeIsFolding, switchEditViewTo, setDirty, setModifiedStatus,
           if_true]
         repeat' split
         all_goals first
           | exact ⟨Or.inl rfl, Or.inl rfl⟩
           | exact ⟨Or.inl rfl, Or.inr ⟨rfl, rfl⟩⟩
           | simp)

/-! ### The recorded steps (C14) -/

/-- C14: the recorded steps are append-only under dispatch.  For every
event that returns, the steps before are a prefix of the steps after, and
for every kind but the macro-record tick they are unchanged (a dispatch that
does not return is a double click in text, which writes no state).  A
macro-record tick returns and appends exactly one step, made of the message,
`wParam`, `lParam` and the current codepage, at the end, for every state,
whatever the flag `recordingMacro`. -/
theorem macro_steps_append_only (e : Env) (s : State) (n : SCNotification) :
    (match notify e s n with
      | .ok r =>
        s.macroSeq <+: r.st.macroSeq ∧
          (n.code ≠ Code.SCN_MACRORECORD → r.st.macroSeq = s.macroSeq)
      | .error _ => n.code = Code.SCN_DOUBLECLICK) ∧
    (n.code = Code.SCN_MACRORECORD →
      ∃ r, notify e s n = .ok r ∧
        r.st.macroSeq = s.macroSeq ++ [⟨n.message, n.wParam, n.lParam, e.getCodepage s.activeView⟩] ∧
        r.st.recordingMacro = s.recordingMacro) := by
  have hrec : n.code = Code.SCN_MACRORECORD →
      ∃ r, notify e s n = .ok r ∧
        r.st.macroSeq = s.macroSeq ++ [⟨n.message, n.wParam, n.lParam, e.getCodepage s.activeView⟩] ∧
        r.st.recordingMacro = s.recordingMacro := by
    intro hcode
    exact ⟨notify_SCN_MACRORECORD e s n, by simp [notify, hcode], rfl, rfl⟩
  refine ⟨?_, hrec⟩
  obtain ⟨herr, hok⟩ := notify_frame e s n
  cases hr : notify e s n with
  | error f => exact herr f hr
  | ok r =>
    rcases (hok r hr).1 with h | h
    · exact ⟨by rw [h], fun _ => h⟩
    · obtain ⟨r', hr', hseq, _⟩ := hrec h
      rw [hr] at hr'
      cases hr'
      exact ⟨by rw [hseq]; exact List.prefix_append _ _, fun hne => absurd h hne⟩

/-- Witness of C14: a macro-record tick while `recordingMacro` is false. -/
theorem macro_steps_append_only_witness :
    ∃ r, notify {} { recordingMacro := false, macroSeq := [⟨2170, 0, 0, 0⟩] }
        { code := Code.SCN_MACRORECORD, hwndFrom := 1, message := 2300, wParam := 7 } = .ok r ∧
      r.st.macroSeq = [⟨2170, 0, 0, 0⟩, ⟨2300, 7, 0, 0⟩] := by
  obtain ⟨r, h, hseq, _⟩ :=
    (macro_steps_append_only {} { recordingMacro := false, macroSeq := [⟨2170, 0, 0, 0⟩] }
      { code := Code.SCN_MACRORECORD, hwndFrom := 1, message := 2300, wParam := 7 }).2 rfl
  exact ⟨r, h, hseq⟩

/-! ### The one-shot flag `prevWasEdit` (C18) -/

/-- One content-modified notification, from a resolved view or not: the
flag after it, and whether the fold handler was called. -/
theorem modified_any_step (e : Env) (s : State) (n : SCNotification)
    (hcode : n.code = Code.SCN_MODIFIED) :
    ∃ r, notify e s n = .ok r ∧
      r.st.prevWasEdit =
        (if (notifyView e n).isSome then (isEdit n && !isFoldChange n) else s.prevWasEdit) ∧
      forwardsFold r =
        ((notifyView e n).isSome && (isFoldChange n && (isEdit n || s.prevWasEdit))) := by
  cases hv : (notifyView e n).isSome with
  | true =>
    obtain ⟨r, hr, h1, h2⟩ := modified_step e s n hcode hv
    exact ⟨r, hr, by simpa using h1, by simpa using h2⟩
  | false =>
    have hnone : notifyView e n = none := by
      cases h : notifyView e n with
      | none => rfl
      | some v => simp [h] at hv
    refine ⟨⟨false, s, []⟩, ?_, by simp, by simp [forwardsFold]⟩
    simp [notify, hcode, notify_SCN_MODIFIED, hnone]

theorem lastProcessed_cons (e : Env) (n0 : SCNotification) (ns : List SCNotification) (k : Nat) :
    lastProcessed e (n0 :: ns) (k + 1) =
      (lastProcessed e ns k).or (if (notifyView e n0).isSome then some n0 else none) := by
  simp [lastProcessed]

/-- A run of content-modified notifications from any sources, from any
state: which of them call the fold handler. -/
theorem fold_forwarded_by_last_processed (e : Env) (ns : List SCNotification) :
    ∀ s : State, (∀ n ∈ ns, n.code = Code.SCN_MODIFIED) →
      ∃ rs, notifySeq e s ns = .ok rs ∧ rs.length = ns.length ∧
        ∀ k n r, ns[k]? = some n → rs[k]? = some r →
          (forwardsFold r = true ↔
            (notifyView e n).isSome = true ∧ isFoldChange n = true ∧
              (isEdit n = true ∨
                match lastProcessed e ns k with
                | some m => isEdit m = true ∧ isFoldChange m = false
                | none => s.prevWasEdit = true)) := by
  induction ns with
  | nil => intro s _; exact ⟨[], rfl, rfl, by simp⟩
  | cons n0 ns ih =>
    intro s h
    obtain ⟨r0, hr0, hprev, hfw⟩ := modified_any_step e s n0 (h n0 (List.mem_cons_self _ _))
    obtain ⟨rs, hrs, hlen, hall⟩ := ih r0.st (fun m hm => h m (List.mem_cons_of_mem _ hm))
    refine ⟨r0 :: rs, by simp [notifySeq, hr0, hrs], by simp [hlen], ?_⟩
    intro k n r hn hr
    cases k with
    | zero =>
      simp only [List.getElem?_cons_zero, Option.some.injEq] at hn hr
      subst hn; subst hr
      rw [hfw]
      simp [lastProcessed]
    | succ k =>
      simp only [List.getElem?_cons_succ] at hn hr
      rw [hall k n r hn hr, lastProcessed_cons, hprev]
      cases hl : lastProcessed e ns k with
      | some m => simp
      | none =>
        cases hv0 : (notifyView e n0).isSome <;> simp

/-- C18: after every content-modified notification processed from a
resolved view, `prevWasEdit` equals (the notification has an insert/delete
bit) AND NOT (it has the fold-change bit), whatever the flag was before, and
the notification is forwarded to the fold handler if and only if it has the
fold-change bit and either has an insert/delete bit or found the flag set;
a notification from an unresolved source leaves the whole state as it was.
Consequently, in every run of content-modified notifications, one is
forwarded if and only if it is from a resolved view, has the fold-change bit
and either has an insert/delete bit itself or the last processed
notification before it had an insert/delete bit and no fold-change bit (the
flag at the start of the run standing in when none was processed before). -/
theorem prevWasEdit_one_shot (e : Env) (s : State) (n : SCNotification)
    (ns : List SCNotification) :
    (n.code = Code.SCN_MODIFIED → (notifyView e n).isSome = true →
      ∃ r, notify e s n = .ok r ∧
        r.st.prevWasEdit = (isEdit n && !isFoldChange n) ∧
        forwardsFold r = (isFoldChange n && (isEdit n || s.prevWasEdit))) ∧
    (n.code = Code.SCN_MODIFIED → notifyView e n = none →
      notify e s n = .ok ⟨false, s, []⟩) ∧
    ((∀ m ∈ ns, m.code = Code.SCN_MODIFIED) →
      ∃ rs, notifySeq e s ns = .ok rs ∧ rs.length = ns.length ∧
        ∀ k m r, ns[k]? = some m → rs[k]? = some r →
          (forwardsFold r = true ↔
            (notifyView e m).isSome = true ∧ isFoldChange m = true ∧
              (isEdit m = true ∨
                match lastProcessed e ns k with
                | some m' => isEdit m' = true ∧ isFoldChange m' = false
                | none => s.prevWasEdit = true))) := by
  refine ⟨fun hcode hview => modified_step e s n hcode hview, ?_,
    fun h => fold_forwarded_by_last_processed e ns s h⟩
  intro hcode hnone
  simp [notify, hcode, notify_SCN_MODIFIED, hnone]

/-- Witness of C18: an insert, a notification from an unknown handle and a
fold-level change; the fold-level change is forwarded. -/
theorem prevWasEdit_one_shot_witness :
    ∃ rs, notifySeq {} {}
        [modifiedFromPrimary 1, { code := Code.SCN_MODIFIED, hwndFrom := 99, modificationType := 8 },
         modifiedFromPrimary 8] = .ok rs ∧
      rs.map forwardsFold = [false, false, true] := by
  obtain ⟨rs, hrs, _, _⟩ :=
    (prevWasEdit_one_shot {} {} (modifiedFromPrimary 1)
      [modifiedFromPrimary 1, { code := Code.SCN_MODIFIED, hwndFrom := 99, modificationType := 8 },
       modifiedFromPrimary 8]).2.2 (by decide)
  refine ⟨rs, hrs, ?_⟩
  have h2 : notifySeq {} {}
      [modifiedFromPrimary 1, { code := Code.SCN_MODIFIED, hwndFrom := 99, modificationType := 8 },
       modifiedFromPrimary 8] = .ok
        [notify_SCN_MODIFIED {} {} (modifiedFromPrimary 1),
         ⟨false, (notify_SCN_MODIFIED {} {} (modifiedFromPrimary 1)).st, []⟩,
         notify_SCN_MODIFIED {} (notify_SCN_MODIFIED {} {} (modifiedFromPrimary 1)).st
           (modifiedFromPrimary 8)] := rfl
  rw [h2] at hrs
  cases hrs
  decide

/-! ### The invariant of the distinct-delimiter loop (C16, C17) -/

/-- Under the invariant the condition of the `assert` holds. -/
theorem scanInv_assert (bufstring : List Char) (leftD rightD : Char) (click i : Nat)
    (st : ScanState) (hinv : ScanInv bufstring leftD rightD click i st) :
    scanAssert st = true := by
  obtain ⟨_, _, hch⟩ := hinv
  rcases hch with ⟨h1, h2⟩ | ⟨l, r, h1, h2, _⟩
  · simp [scanAssert, h1, h2]
  · simp [scanAssert, h1, h2]

/-- One pass of the body of the distinct-delimiter loop keeps the invariant;
and the pass finds no enclosing pair, or takes the first one, or leaves a
later one. -/
theorem scanInv_step (bufstring : List Char) (leftD rightD : Char) (click i : Nat)
    (st : ScanState) (c : Char) (hinv : ScanInv bufstring leftD rightD click i st)
    (hc : bufstring[i]? = some c) (hi : i < 2 ^ 31) :
    ScanInv bufstring leftD rightD click (i + 1) (distinctStep leftD rightD click st i c) ∧
    ((enclosingAt leftD rightD click st i c = none ∧
        (distinctStep leftD rightD click st i c).leftmost_position = st.leftmost_position ∧
        (distinctStep leftD rightD click st i c).rightmost_position = st.rightmost_position) ∨
     (∃ m, enclosingAt leftD rightD click st i c = some ((m, i), true) ∧
        st.leftmost_position = -1 ∧
        (distinctStep leftD rightD click st i c).leftmost_position = (m : Int) ∧
        (distinctStep leftD rightD click st i c).rightmost_position = (i : Int)) ∨
     (∃ m, enclosingAt leftD rightD click st i c = some ((m, i), false) ∧
        st.leftmost_position ≠ -1 ∧
        (distinctStep leftD rightD click st i c).leftmost_position = st.leftmost_position ∧
        (distinctStep leftD rightD click st i c).rightmost_position = st.rightmost_position)) := by
  obtain ⟨stack, lm, rm⟩ := st
  obtain ⟨hpw, hel, hch⟩ := hinv
  simp only at hpw hel hch
  by_cases hL : (c == leftD) = true
  · have hcL : c = leftD := by simpa using hL
    have e1 : distinctStep leftD rightD click ⟨stack, lm, rm⟩ i c = ⟨i :: stack, lm, rm⟩ := by
      simp [distinctStep, hL]
    have e2 : enclosingAt leftD rightD click ⟨stack, lm, rm⟩ i c = none := by
      simp [enclosingAt, popsAt, hL]
    rw [e1, e2]
    refine ⟨⟨?_, ?_, ?_⟩, Or.inl ⟨rfl, rfl, rfl⟩⟩
    · simp only [List.pairwise_cons]
      exact ⟨fun x hx => (hel x hx).1, hpw⟩
    · intro x hx
      rcases List.mem_cons.mp hx with rfl | hx
      · exact ⟨by omega, by rw [hc, hcL]⟩
      · exact ⟨by have := (hel x hx).1; omega, (hel x hx).2⟩
    · rcases hch with h | ⟨l, r, h1, h2, h3, h4, h5, h6, h7, h8, h9⟩
      · exact Or.inl h
      · refine Or.inr ⟨l, r, h1, h2, h3, by omega, h5, h6, h7, h8, ?_⟩
        intro m hm
        rcases List.mem_cons.mp hm with rfl | hm
        · right; omega
        · exact h9 m hm
  · by_cases hR : (c == rightD) = true
    · have hcR : c = rightD := by simpa using hR
      cases stack with
      | nil =>
        have e1 : distinctStep leftD rightD click ⟨[], lm, rm⟩ i c = ⟨[], lm, rm⟩ := by
          simp [distinctStep, hL, hR]
        have e2 : enclosingAt leftD rightD click ⟨[], lm, rm⟩ i c = none := by
          simp [enclosingAt, popsAt, hL, hR]
        rw [e1, e2]
        refine ⟨⟨hpw, by simp, ?_⟩, Or.inl ⟨rfl, rfl, rfl⟩⟩
        rcases hch with h | ⟨l, r, h1, h2, h3, h4, h5, h6, h7, h8, _⟩
        · exact Or.inl h
        · exact Or.inr ⟨l, r, h1, h2, h3, by omega, h5, h6, h7, h8, by simp⟩
      | cons m rest =>
        have hm : m < i := (hel m (List.mem_cons_self _ _)).1
        have hmL : bufstring[m]? = some leftD := (hel m (List.mem_cons_self _ _)).2
        have hpw' := List.pairwise_cons.mp hpw
        have hel' : ∀ x ∈ rest, x < i + 1 ∧ bufstring[x]? = some leftD := fun x hx =>
          ⟨by have := (hel x (List.mem_cons_of_mem _ hx)).1; omega,
            (hel x (List.mem_cons_of_mem _ hx)).2⟩
        by_cases henc : m ≤ click ∧ click ≤ i
        · rcases hch with ⟨h1, h2⟩ | ⟨l, r, h1, h2, h3, h4, h5, h6, h7, h8, h9⟩
          · subst h1
            subst h2
            have e1 : distinctStep leftD rightD click ⟨m :: rest, -1, -1⟩ i c =
                ⟨rest, (m : Int), (i : Int)⟩ := by
              simp [distinctStep, hL, hR, henc.1, henc.2, toInt32_of_lt m (by omega),
                toInt32_of_lt i hi]
            have e2 : enclosingAt leftD rightD click ⟨m :: rest, -1, -1⟩ i c =
                some ((m, i), true) := by
              simp [enclosingAt, popsAt, hL, hR, henc.1, henc.2]
            rw [e1, e2]
            exact ⟨⟨hpw'.2, hel', Or.inr ⟨m, i, rfl, rfl, hm, by omega, henc.1, henc.2, hmL,
              by rw [hc, hcR], fun x hx => Or.inl (hpw'.1 x hx)⟩⟩,
              Or.inr (Or.inl ⟨m, rfl, rfl, rfl, rfl⟩)⟩
          · have hml : m < l := by
              rcases h9 m (List.mem_cons_self _ _) with h | h
              · exact h
              · omega
            have hl31 : l < 2 ^ 31 := by omega
            have hne : ¬ ((l : Int) = -1) := by omega
            have hnot : ¬ (l < m) := by omega
            subst h1
            subst h2
            have e1 : distinctStep leftD rightD click ⟨m :: rest, (l : Int), (r : Int)⟩ i c =
                ⟨rest, (l : Int), (r : Int)⟩ := by
              simp [distinctStep, hL, hR, toUInt32_natCast l hl31, hne, hnot]
            have e2 : enclosingAt leftD rightD click ⟨m :: rest, (l : Int), (r : Int)⟩ i c =
                some ((m, i), false) := by
              simp [enclosingAt, popsAt, hL, hR, henc.1, henc.2, toUInt32_natCast l hl31, hne, hnot]
            rw [e1, e2]
            exact ⟨⟨hpw'.2, hel', Or.inr ⟨l, r, rfl, rfl, h3, by omega, h5, h6, h7, h8,
              fun x hx => h9 x (List.mem_cons_of_mem _ hx)⟩⟩,
              Or.inr (Or.inr ⟨m, rfl, hne, rfl, rfl⟩)⟩
        · have hcond : ¬ ((m ≤ click ∧ click ≤ i) ∧
              (lm = -1 ∨ toUInt32 lm < m)) := fun h => henc h.1
          have henc' : ¬ (m ≤ click ∧ click ≤ i) := henc
          have e1 : distinctStep leftD rightD click ⟨m :: rest, lm, rm⟩ i c = ⟨rest, lm, rm⟩ := by
            simp [distinctStep, hL, hR, hcond]
          have e2 : enclosingAt leftD rightD click ⟨m :: rest, lm, rm⟩ i c = none := by
            simp [enclosingAt, popsAt, hL, hR, henc']
          rw [e1, e2]
          refine ⟨⟨hpw'.2, hel', ?_⟩, Or.inl ⟨rfl, rfl, rfl⟩⟩
          rcases hch with h | ⟨l, r, h1, h2, h3, h4, h5, h6, h7, h8, h9⟩
          · exact Or.inl h
          · exact Or.inr ⟨l, r, h1, h2, h3, by omega, h5, h6, h7, h8,
              fun x hx => h9 x (List.mem_cons_of_mem _ hx)⟩
    · have e1 : distinctStep leftD rightD click ⟨stack, lm, rm⟩ i c = ⟨stack, lm, rm⟩ := by
        simp [distinctStep, hL, hR]
      have e2 : enclosingAt leftD rightD click ⟨stack, lm, rm⟩ i c = none := by
        simp [enclosingAt, popsAt, hL, hR]
      rw [e1, e2]
      refine ⟨⟨hpw, fun x hx => ⟨by have := (hel x hx).1; omega, (hel x hx).2⟩, ?_⟩,
        Or.inl ⟨rfl, rfl, rfl⟩⟩
      rcases hch with h | ⟨l, r, h1, h2, h3, h4, h5, h6, h7, h8, h9⟩
      · exact Or.inl h
      · exact Or.inr ⟨l, r, h1, h2, h3, by omega, h5, h6, h7, h8, h9⟩

/-- The text from index `i` on, one index further. -/
theorem suffix_tail (bufstring : List Char) (i : Nat) (c : Char) (rest : List Char)
    (h : ∀ k, (c :: rest)[k]? = bufstring[i + k]?) :
    bufstring[i]? = some c ∧ ∀ k, rest[k]? = bufstring[i + 1 + k]? := by
  refine ⟨by simpa using (h 0).symm, fun k => ?_⟩
  have := h (k + 1)
  simp only [List.getElem?_cons_succ] at this
  rw [this]
  congr 1
  omega

/-- The invariant holds after the loop, and the `assert` held throughout. -/
theorem distinctLoop_inv (bufstring : List Char) (leftD rightD : Char) (click : Nat)
    (rest : List Char) :
    ∀ (i : Nat) (st : ScanState), (∀ k, rest[k]? = bufstring[i + k]?) →
      ScanInv bufstring leftD rightD click i st → i + rest.length < 2 ^ 31 →
      ScanInv bufstring leftD rightD click (i + rest.length)
          (distinctLoop leftD rightD click i rest st) ∧
        distinctLoopAsserts leftD rightD click i rest st = true := by
  induction rest with
  | nil =>
    intro i st _ hinv _
    exact ⟨by simpa [distinctLoop] using hinv, rfl⟩
  | cons c rest ih =>
    intro i st hsuf hinv hlen
    simp only [List.length_cons] at hlen
    obtain ⟨hc, hsuf'⟩ := suffix_tail bufstring i c rest hsuf
    obtain ⟨hinv', _⟩ := scanInv_step bufstring leftD rightD click i st c hinv hc (by omega)
    obtain ⟨h1, h2⟩ := ih (i + 1) _ hsuf' hinv' (by omega)
    refine ⟨?_, ?_⟩
    · simp only [distinctLoop, List.length_cons]
      have e : i + (rest.length + 1) = i + 1 + rest.length := by omega
      rw [e]
      exact h1
    · simp only [distinctLoopAsserts, h2, Bool.and_true]
      rw [scanInv_assert bufstring leftD rightD click i st hinv]
      simp

/-- Once a pair is chosen, no later enclosing pair replaces it. -/
theorem distinctTrace_chosen (bufstring : List Char) (leftD rightD : Char) (click : Nat)
    (rest : List Char) :
    ∀ (i : Nat) (st : ScanState), (∀ k, rest[k]? = bufstring[i + k]?) →
      ScanInv bufstring leftD rightD click i st → i + rest.length < 2 ^ 31 →
      st.leftmost_position ≠ -1 →
      (∀ x ∈ distinctLoopTrace leftD rightD click i rest st, x.2 = false) ∧
        (distinctLoop leftD rightD click i rest st).leftmost_position = st.leftmost_position ∧
        (distinctLoop leftD rightD click i rest st).rightmost_position = st.rightmost_position := by
  induction rest with
  | nil =>
    intro i st _ _ _ _
    exact ⟨by simp [distinctLoopTrace], rfl, rfl⟩
  | cons c rest ih =>
    intro i st hsuf hinv hlen hne
    simp only [List.length_cons] at hlen
    obtain ⟨hc, hsuf'⟩ := suffix_tail bufstring i c rest hsuf
    obtain ⟨hinv', hcase⟩ := scanInv_step bufstring leftD rightD click i st c hinv hc (by omega)
    simp only [distinctLoopTrace, distinctLoop]
    rcases hcase with ⟨he, hl, hr⟩ | ⟨m, _, hl, _⟩ | ⟨m, he, _, hl, hr⟩
    · obtain ⟨h1, h2, h3⟩ := ih (i + 1) _ hsuf' hinv' (by omega) (by rw [hl]; exact hne)
      refine ⟨?_, by rw [h2, hl], by rw [h3, hr]⟩
      rw [he]
      simpa using h1
    · exact absurd hl hne
    · obtain ⟨h1, h2, h3⟩ := ih (i + 1) _ hsuf' hinv' (by omega) (by rw [hl]; exact hne)
      refine ⟨?_, by rw [h2, hl], by rw [h3, hr]⟩
      rw [he]
      intro x hx
      simp only [Option.toList, List.singleton_append, List.mem_cons] at hx
      rcases hx with rfl | hx
      · rfl
      · exact h1 x hx

/-- From a state without a chosen pair: the first enclosing pair found is
taken and is the pair left by the loop; none found, none left. -/
theorem distinctTrace_unchosen (bufstring : List Char) (leftD rightD : Char) (click : Nat)
    (rest : List Char) :
    ∀ (i : Nat) (st : ScanState), (∀ k, rest[k]? = bufstring[i + k]?) →
      ScanInv bufstring leftD rightD click i st → i + rest.length < 2 ^ 31 →
      st.leftmost_position = -1 → st.rightmost_position = -1 →
      (distinctLoopTrace leftD rightD click i rest st = [] ∧
        (distinctLoop leftD rightD click i rest st).leftmost_position = -1 ∧
        (distinctLoop leftD rightD click i rest st).rightmost_position = -1) ∨
      (∃ (l r : Nat) (tl : List ((Nat × Nat) × Bool)),
        distinctLoopTrace leftD rightD click i rest st = ((l, r), true) :: tl ∧
        (∀ x ∈ tl, x.2 = false) ∧
        (distinctLoop leftD rightD click i rest st).leftmost_position = (l : Int) ∧
        (distinctLoop leftD rightD click i rest st).rightmost_position = (r : Int)) := by
  induction rest with
  | nil =>
    intro i st _ _ _ h1 h2
    exact Or.inl ⟨rfl, h1, h2⟩
  | cons c rest ih =>
    intro i st hsuf hinv hlen h1 h2
    simp only [List.length_cons] at hlen
    obtain ⟨hc, hsuf'⟩ := suffix_tail bufstring i c rest hsuf
    obtain ⟨hinv', hcase⟩ := scanInv_step bufstring leftD rightD click i st c hinv hc (by omega)
    simp only [distinctLoopTrace, distinctLoop]
    rcases hcase with ⟨he, hl, hr⟩ | ⟨m, he, _, hl, hr⟩ | ⟨m, _, hne, _, _⟩
    · rw [he]
      simpa using ih (i + 1) _ hsuf' hinv' (by omega) (by rw [hl]; exact h1) (by rw [hr]; exact h2)
    · have hne : (distinctStep leftD rightD click st i c).leftmost_position ≠ -1 := by
        rw [hl]
        omega
      obtain ⟨g1, g2, g3⟩ :=
        distinctTrace_chosen bufstring leftD rightD click rest (i + 1) _ hsuf' hinv' (by omega) hne
      right
      refine ⟨m, i, _, ?_, g1, by rw [g2, hl], by rw [g3, hr]⟩
      rw [he]
      rfl
    · exact absurd h1 hne

/-- The invariant holds before the loop. -/
theorem scanInv_start (bufstring : List Char) (leftD rightD : Char) (click : Nat) :
    ScanInv bufstring leftD rightD click 0 {} :=
  ⟨List.Pairwise.nil, by simp [ScanState.stack], Or.inl ⟨rfl, rfl⟩⟩

/-- The whole scan: the first enclosing pair found is the pair selected. -/
theorem distinctTrace_first (bufstring : List Char) (leftD rightD : Char) (click : Nat)
    (hlen : bufstring.length < 2 ^ 31) :
    (distinctLoopTrace leftD rightD click 0 bufstring {} = [] ∧
      selectDistinct bufstring leftD rightD click = (-1, -1)) ∨
    (∃ (l r : Nat) (tl : List ((Nat × Nat) × Bool)),
      distinctLoopTrace leftD rightD click 0 bufstring {} = ((l, r), true) :: tl ∧
      (∀ x ∈ tl, x.2 = false) ∧
      selectDistinct bufstring leftD rightD click = ((l : Int), (r : Int))) := by
  rcases distinctTrace_unchosen bufstring leftD rightD click bufstring 0 {} (by simp)
      (scanInv_start bufstring leftD rightD click) (by omega) rfl rfl with
    ⟨h1, h2, h3⟩ | ⟨l, r, tl, h1, h2, h3, h4⟩
  · exact Or.inl ⟨h1, by simp only [selectDistinct, h2, h3]⟩
  · exact Or.inr ⟨l, r, tl, h1, h2, by simp only [selectDistinct, h3, h4]⟩

/-- C16, as stated, fails: no text (of a length that fits the `int`
positions of the source), pair of distinct delimiters and click position
exist for which the first matched pair found in scan order that encloses the
click is not the pair finally selected. -/
theorem first_enclosing_pair_is_selected :
    ¬ ∃ (bufstring : List Char) (leftD rightD : Char) (click : Nat) (p : (Nat × Nat) × Bool),
        leftD ≠ rightD ∧ bufstring.length < 2 ^ 31 ∧
        (distinctLoopTrace leftD rightD click 0 bufstring {}).head? = some p ∧
        selectDistinct bufstring leftD rightD click ≠ ((p.1.1 : Int), (p.1.2 : Int)) := by
  rintro ⟨bufstring, leftD, rightD, click, p, _, hlen, hhead, hne⟩
  rcases distinctTrace_first bufstring leftD rightD click hlen with ⟨h1, _⟩ | ⟨l, r, tl, h1, _, h3⟩
  · rw [h1] at hhead
    simp at hhead
  · rw [h1] at hhead
    simp only [List.head?_cons, Option.some.injEq] at hhead
    subst hhead
    exact hne h3

/-- C16, amended: in the distinct-delimiter scan of every text (of a length
that fits the `int` positions of the source) the first matched pair found in
scan order that encloses the click is taken and is the pair finally
selected; for every enclosing pair found later the best-so-far test is
false, so the update never replaces a chosen pair.  When no matched pair
encloses the click nothing is selected. -/
theorem best_so_far_never_replaces (bufstring : List Char) (leftD rightD : Char) (click : Nat)
    (hlen : bufstring.length < 2 ^ 31) :
    (distinctLoopTrace leftD rightD click 0 bufstring {} = [] ∧
      selectDistinct bufstring leftD rightD click = (-1, -1)) ∨
    (∃ (l r : Nat) (tl : List ((Nat × Nat) × Bool)),
      distinctLoopTrace leftD rightD click 0 bufstring {} = ((l, r), true) :: tl ∧
      (∀ x ∈ tl, x.2 = false) ∧
      selectDistinct bufstring leftD rightD click = ((l : Int), (r : Int))) :=
  distinctTrace_first bufstring leftD rightD click hlen

/-- Witness of C16, amended: in `((x))` with the click on `x` the scan
finds the inner pair (1, 3) first and takes it, then finds the outer pair
(0, 4) and leaves it. -/
theorem best_so_far_never_replaces_witness :
    distinctLoopTrace '(' ')' 2 0 nestedText {} = [((1, 3), true), ((0, 4), false)] ∧
      selectDistinct nestedText '(' ')' 2 = (1, 3) ∧
      ((distinctLoopTrace '(' ')' 2 0 nestedText {} = [] ∧
          selectDistinct nestedText '(' ')' 2 = (-1, -1)) ∨
        (∃ (l r : Nat) (tl : List ((Nat × Nat) × Bool)),
          distinctLoopTrace '(' ')' 2 0 nestedText {} = ((l, r), true) :: tl ∧
          (∀ x ∈ tl, x.2 = false) ∧
          selectDistinct nestedText '(' ')' 2 = ((l : Int), (r : Int)))) :=
  ⟨by decide, by decide, best_so_far_never_replaces nestedText '(' ')' 2 (by decide)⟩

/-- C17: for every text (of a length that fits the `int` positions of the
source), delimiter pair and click position, the condition of the `assert`
of the distinct-delimiter scan (both positions -1, or both at least 0) holds
at every iteration that pops a matched left delimiter; and whenever a span
is finally selected, left < right, the character at left is the left
delimiter and the character at right is the right delimiter. -/
theorem distinct_scan_assert_holds (bufstring : List Char) (leftD rightD : Char) (click : Nat)
    (hlen : bufstring.length < 2 ^ 31) :
    distinctLoopAsserts leftD rightD click 0 bufstring {} = true ∧
    (hasSelection (selectDistinct bufstring leftD rightD click) = true →
      ∃ l r : Nat, selectDistinct bufstring leftD rightD click = ((l : Int), (r : Int)) ∧
        l < r ∧ bufstring[l]? = some leftD ∧ bufstring[r]? = some rightD) := by
  obtain ⟨hinv, hassert⟩ := distinctLoop_inv bufstring leftD rightD click bufstring 0 {} (by simp)
    (scanInv_start bufstring leftD rightD click) (by omega)
  refine ⟨hassert, ?_⟩
  intro hsel
  obtain ⟨_, _, hch⟩ := hinv
  rcases hch with ⟨h1, h2⟩ | ⟨l, r, h1, h2, h3, _, _, _, h7, h8, _⟩
  · simp [hasSelection, selectDistinct, h1, h2] at hsel
  · exact ⟨l, r, by simp only [selectDistinct, h1, h2], h3, h7, h8⟩

/-- Witness of C17: the text `(size_t i = f(); i < n; i++)`, click at 17. -/
theorem distinct_scan_assert_holds_witness :
    distinctLoopAsserts '(' ')' 17 0 forHeader {} = true ∧
      ∃ l r : Nat, selectDistinct forHeader '(' ')' 17 = ((l : Int), (r : Int)) ∧
        l < r ∧ forHeader[l]? = some '(' ∧ forHeader[r]? = some ')' := by
  obtain ⟨h1, h2⟩ := distinct_scan_assert_holds forHeader '(' ')' 17 (by decide)
  exact ⟨h1, h2 (by decide)⟩

/-! ### The identical-delimiter scan selects the nearest delimiters (C19) -/

/-- The body of the identical-delimiter loops at an index inside the text:
it returns, and breaks exactly on an unescaped delimiter. -/
theorem delimiterAt_spec (bufstring : List Char) (d : Char) (i : Nat) (hi : i < bufstring.length) :
    ∃ b, delimiterAt bufstring d i = .ok b ∧ (b = true ↔ holdsDelimiter bufstring d i) := by
  have hc : bufstring[i]? = some bufstring[i] := List.getElem?_eq_getElem hi
  by_cases hcd : bufstring[i] = d
  · by_cases hq : d = '"'
    · by_cases h0 : 0 < i
      · have hp : bufstring[i - 1]? = some bufstring[i - 1] :=
          List.getElem?_eq_getElem (by omega)
        refine ⟨!(bufstring[i - 1] == '\\'), ?_, ?_⟩
        · simp [delimiterAt, strAt, escapedAt, hc, hp, hcd, hq, h0]
        · simp [holdsDelimiter, hc, hp, hcd, hq, h0]
      · refine ⟨true, ?_, ?_⟩
        · simp [delimiterAt, strAt, escapedAt, hc, hcd, hq, h0]
        · simp [holdsDelimiter, hc, hcd, hq, h0]
    · refine ⟨true, ?_, ?_⟩
      · simp [delimiterAt, strAt, hc, hcd, hq]
      · simp [holdsDelimiter, hc, hcd, hq]
  · refine ⟨false, ?_, ?_⟩
    · simp [delimiterAt, strAt, hc, hcd]
    · simp [holdsDelimiter, hc, hcd]

/-- A delimiter is held at an index of the text only. -/
theorem holdsDelimiter_lt (bufstring : List Char) (d : Char) (i : Nat)
    (h : holdsDelimiter bufstring d i) : i < bufstring.length := by
  by_contra hge
  have : bufstring[i]? = none := List.getElem?_eq_none (by omega)
  have h1 := h.1
  rw [this] at h1
  exact absurd h1 (by simp)

/-- The left scan from an index inside the text returns the greatest index
at or below it that holds the delimiter, or -1 when there is none. -/
theorem leftScan_spec (bufstring : List Char) (d : Char) (i : Nat) (hi : i < bufstring.length) :
    ∃ z, leftScan bufstring d i = .ok z ∧
      ((z = -1 ∧ ∀ j, j ≤ i → ¬ holdsDelimiter bufstring d j) ∨
       ∃ l : Nat, z = (l : Int) ∧ l ≤ i ∧ holdsDelimiter bufstring d l ∧
         ∀ j, l < j → j ≤ i → ¬ holdsDelimiter bufstring d j) := by
  induction i with
  | zero =>
    obtain ⟨b, hb, hiff⟩ := delimiterAt_spec bufstring d 0 hi
    cases b with
    | true =>
      refine ⟨0, by simp [leftScan, hb], Or.inr ⟨0, rfl, Nat.le_refl _, hiff.mp rfl, ?_⟩⟩
      intro j h1 h2
      omega
    | false =>
      refine ⟨-1, by simp [leftScan, hb], Or.inl ⟨rfl, ?_⟩⟩
      intro j hj
      have : j = 0 := by omega
      subst this
      intro h
      simpa using hiff.mpr h
  | succ i ih =>
    obtain ⟨b, hb, hiff⟩ := delimiterAt_spec bufstring d (i + 1) hi
    cases b with
    | true =>
      refine ⟨((i + 1 : Nat) : Int), by simp [leftScan, hb],
        Or.inr ⟨i + 1, rfl, Nat.le_refl _, hiff.mp rfl, ?_⟩⟩
      intro j h1 h2
      omega
    | false =>
      have hno : ¬ holdsDelimiter bufstring d (i + 1) := fun h => by simpa using hiff.mpr h
      obtain ⟨z, hz, hcase⟩ := ih (by omega)
      refine ⟨z, by simp [leftScan, hb, hz], ?_⟩
      rcases hcase with ⟨h1, h2⟩ | ⟨l, h1, h2, h3, h4⟩
      · refine Or.inl ⟨h1, ?_⟩
        intro j hj
        by_cases hji : j = i + 1
        · subst hji; exact hno
        · exact h2 j (by omega)
      · refine Or.inr ⟨l, h1, by omega, h3, ?_⟩
        intro j hlj hj
        by_cases hji : j = i + 1
        · subst hji; exact hno
        · exact h4 j hlj (by omega)

/-- The right scan returns the least index at or above its start that holds
the delimiter, or -1 when there is none. -/
theorem rightScan_spec (bufstring : List Char) (d : Char) (hlen : bufstring.length < 2 ^ 31) :
    ∀ (fuel i : Nat), i + fuel = bufstring.length →
    ∃ z, rightScan bufstring d fuel i = .ok z ∧
      ((z = -1 ∧ ∀ j, i ≤ j → ¬ holdsDelimiter bufstring d j) ∨
       ∃ r : Nat, z = (r : Int) ∧ i ≤ r ∧ holdsDelimiter bufstring d r ∧
         ∀ j, i ≤ j → j < r → ¬ holdsDelimiter bufstring d j) := by
  intro fuel
  induction fuel with
  | zero =>
    intro i hi
    refine ⟨-1, rfl, Or.inl ⟨rfl, ?_⟩⟩
    intro j hj h
    have := holdsDelimiter_lt bufstring d j h
    omega
  | succ fuel ih =>
    intro i hi
    have hil : i < bufstring.length := by omega
    obtain ⟨b, hb, hiff⟩ := delimiterAt_spec bufstring d i hil
    cases b with
    | true =>
      refine ⟨(i : Int), by simp [rightScan, hil, hb, toInt32_of_lt i (by omega)],
        Or.inr ⟨i, rfl, Nat.le_refl _, hiff.mp rfl, ?_⟩⟩
      intro j h1 h2
      omega
    | false =>
      have hno : ¬ holdsDelimiter bufstring d i := fun h => by simpa using hiff.mpr h
      obtain ⟨z, hz, hcase⟩ := ih (i + 1) (by omega)
      refine ⟨z, by simp [rightScan, hil, hb, hz], ?_⟩
      rcases hcase with ⟨h1, h2⟩ | ⟨r, h1, h2, h3, h4⟩
      · refine Or.inl ⟨h1, ?_⟩
        intro j hj
        by_cases hji : j = i
        · subst hji; exact hno
        · exact h2 j (by omega)
      · refine Or.inr ⟨r, h1, by omega, h3, ?_⟩
        intro j hij hjr
        by_cases hji : j = i
        · subst hji; exact hno
        · exact h4 j (by omega) hjr

/-- The identical-delimiter branch for a click inside the text: it returns,
with the nearest delimiter at or before the click and the nearest at or
after it, or with nothing selected when one of them is missing. -/
theorem selectIdentical_spec (bufstring : List Char) (d : Char) (p : Nat)
    (hp : p < bufstring.length) (hlen : bufstring.length < 2 ^ 31) :
    ∃ pr, selectIdentical bufstring d p = .ok pr ∧
      ((hasSelection pr = false ∧
          ((∀ i, i ≤ p → ¬ holdsDelimiter bufstring d i) ∨
            (∀ j, p ≤ j → ¬ holdsDelimiter bufstring d j))) ∨
       (∃ l r : Nat, pr = ((l : Int), (r : Int)) ∧ hasSelection pr = true ∧
          l ≤ p ∧ holdsDelimiter bufstring d l ∧
          (∀ i, l < i → i ≤ p → ¬ holdsDelimiter bufstring d i) ∧
          p ≤ r ∧ holdsDelimiter bufstring d r ∧
          (∀ j, p ≤ j → j < r → ¬ holdsDelimiter bufstring d j))) := by
  obtain ⟨zl, hzl, hl⟩ := leftScan_spec bufstring d p hp
  obtain ⟨zr, hzr, hr⟩ := rightScan_spec bufstring d hlen (bufstring.length - p) p (by omega)
  have hstart : toInt32 p = (p : Int) := toInt32_of_lt p (by omega)
  have hnn : (0 : Int) ≤ (p : Int) := Int.ofNat_nonneg p
  rcases hl with ⟨h1, h2⟩ | ⟨l, h1, h2, h3, h4⟩
  · refine ⟨(-1, -1), ?_, Or.inl ⟨by simp [hasSelection], Or.inl h2⟩⟩
    simp [selectIdentical, hstart, hnn, hzl, h1]
  · have hlne : ¬ ((l : Int) = -1) := by omega
    have hsel : selectIdentical bufstring d p = .ok ((l : Int), zr) := by
      simp [selectIdentical, hstart, hnn, hzl, h1, hlne, hzr]
    rcases hr with ⟨g1, g2⟩ | ⟨r, g1, g2, g3, g4⟩
    · refine ⟨((l : Int), zr), hsel, Or.inl ⟨by simp [hasSelection, g1], Or.inr g2⟩⟩
    · have hrne : ¬ ((r : Int) = -1) := by omega
      refine ⟨((l : Int), zr), hsel, Or.inr ⟨l, r, by rw [g1], ?_, h2, h3, h4, g2, g3, g4⟩⟩
      simp [hasSelection, g1, hlne, hrne]

/-- C19: for identical left and right delimiter `d` and a click position
`p` inside the text (a text of a length that fits the `int` positions of the
source), the scan returns; a span is selected if and only if `d` occurs at
some index at or before `p` and at some index at or after `p`, and then left
is the greatest index at or before `p` that holds `d` and right is the least
index at or after `p` that holds `d`, where for the double quote an
occurrence immediately preceded by a backslash does not count.  When the
click position itself holds such a delimiter, left = right = `p`, and
`notify` sets the caret to `p` and the anchor to `p + 1` (both shifted by
the line position in line scope): the anchor is one past the caret. -/
theorem identical_scan_nearest (bufstring : List Char) (d : Char) (p : Nat)
    (hp : p < bufstring.length) (hlen : bufstring.length < 2 ^ 31) :
    ∃ pr, selectIdentical bufstring d p = .ok pr ∧
      (hasSelection pr = true ↔
        (∃ i, i ≤ p ∧ holdsDelimiter bufstring d i) ∧ (∃ j, p ≤ j ∧ holdsDelimiter bufstring d j)) ∧
      (hasSelection pr = true →
        ∃ l r : Nat, pr = ((l : Int), (r : Int)) ∧
          l ≤ p ∧ holdsDelimiter bufstring d l ∧
          (∀ i, i ≤ p → holdsDelimiter bufstring d i → i ≤ l) ∧
          p ≤ r ∧ holdsDelimiter bufstring d r ∧
          (∀ j, p ≤ j → holdsDelimiter bufstring d j → r ≤ j)) ∧
      (holdsDelimiter bufstring d p → pr = ((p : Int), (p : Int))) ∧
      (∀ (e : Env) (s : State) (n : SCNotification) (v : View),
        e.leftmostDelimiter = d → e.rightmostDelimiter = d →
        n.code = Code.SCN_DOUBLECLICK → notifyView e n = some v → n.modifiers = SCMOD_CTRL →
        (if e.delimiterSelectionOnEntireDocument then e.getText v else e.getCurLine v) = bufstring →
        positionOfClick e s n v = p → holdsDelimiter bufstring d p →
        notify e s n = .ok ⟨false, s,
          [Cmd.setCurrentPos v (linePosition e v + (p : Int)),
           Cmd.setAnchor v (linePosition e v + (p : Int) + 1)]⟩) := by
  obtain ⟨pr, hpr, hcase⟩ := selectIdentical_spec bufstring d p hp hlen
  have hpart : holdsDelimiter bufstring d p → pr = ((p : Int), (p : Int)) := by
    intro hh
    rcases hcase with ⟨_, h | h⟩ | ⟨l, r, h1, _, h3, _, h5, h6, _, h8⟩
    · exact absurd hh (h p (Nat.le_refl _))
    · exact absurd hh (h p (Nat.le_refl _))
    · have hl : l = p := by
        by_contra hne
        exact h5 p (by omega) (Nat.le_refl _) hh
      have hr : r = p := by
        by_contra hne
        exact h8 p (Nat.le_refl _) (by omega) hh
      rw [h1, hl, hr]
  refine ⟨pr, hpr, ?_, ?_, hpart, ?_⟩
  · rcases hcase with ⟨h0, h | h⟩ | ⟨l, r, _, h2, h3, h4, _, h6, h7, _⟩
    · rw [h0]
      simp only [Bool.false_eq_true, false_iff, not_and]
      rintro ⟨i, hi, hh⟩
      exact absurd hh (h i hi)
    · rw [h0]
      simp only [Bool.false_eq_true, false_iff, not_and]
      rintro _ ⟨j, hj, hh⟩
      exact absurd hh (h j hj)
    · rw [h2]
      simp only [true_iff]
      exact ⟨⟨l, h3, h4⟩, ⟨r, h6, h7⟩⟩
  · intro hsel
    rcases hcase with ⟨h0, _⟩ | ⟨l, r, h1, _, h3, h4, h5, h6, h7, h8⟩
    · rw [h0] at hsel
      exact absurd hsel (by simp)
    · refine ⟨l, r, h1, h3, h4, ?_, h6, h7, ?_⟩
      · intro i hi hh
        by_contra hlt
        exact h5 i (by omega) hi hh
      · intro j hj hh
        by_contra hlt
        exact h8 j hj (by omega) hh
  · intro e s n v hL hR hcode hv hmod htext hclick hh
    have hprp := hpart hh
    have hne : ¬ ((p : Int) = -1) := by omega
    subst hprp
    simp [notify, hcode, notify_SCN_DOUBLECLICK, hv, hmod, delimiterSelection, hL, hR, htext, hclick,
      hpr, hne, linePosition]

/-- Witness of C19: in `a"b` a click on the quote gives left = right = 1. -/
theorem identical_scan_nearest_witness :
    selectIdentical quoteText '"' 1 = .ok (1, 1) ∧ hasSelection (1, 1) = true := by
  obtain ⟨pr, hpr, _, _, h4, _⟩ := identical_scan_nearest quoteText '"' 1 (by decide) (by decide)
  have hh : holdsDelimiter quoteText '"' 1 := by
    unfold holdsDelimiter
    decide
  rw [h4 hh] at hpr
  exact ⟨hpr, by decide⟩

/-! ### What the cases write to the buffers and to the trace -/

/-- Only the content-modified and the save-point cases write to a buffer. -/
theorem notify_buffers_frame (e : Env) (s : State) (n : SCNotification) (r : Result)
    (h : notify e s n = .ok r) :
    r.st.buffers = s.buffers ∨ n.code = Code.SCN_MODIFIED ∨
      n.code = Code.SCN_SAVEPOINTREACHED ∨ n.code = Code.SCN_SAVEPOINTLEFT := by
  cases hc : n.code <;> simp only [notify, hc, Except.ok.injEq] at h
  all_goals first
    | exact Or.inl (congrArg State.buffers (doubleclick_state e s n r h))
    | exact Or.inr (Or.inl rfl)
    | exact Or.inr (Or.inr (Or.inl rfl))
    | exact Or.inr (Or.inr (Or.inr rfl))
    | (subst h; exact Or.inl rfl)
    | (subst h
       simp only [notify_TCN_MOUSEHOVERING,
         notify_TCN_MOUSELEAVING, notify_TCN_TABDROPPED, notify_TCN_TABDELETE, notify_TCN_SELCHANGE,
         notify_NM_CLICK, notify_NM_DBLCLK, notify_NM_RCLICK, notify_SCN_MARGINCLICK,
         notify_SCN_MARGINRIGHTCLICK, notify_SCN_FOLDINGSTATECHANGED, notify_SCN_CHARADDED,
         notify_SCN_UPDATEUI, notify_TTN_GETDISPINFO, notify_SCN_ZOOM, notify_SCN_MACRORECORD,
         notify_SCN_PAINTED, notify_SCN_CALLTIPCLICK, notify_RBN_CHEVRONPUSHED, tabContextMenu,
         docTabTooltip, marginSwitch, writeIsFolding, switchEditViewTo]
       repeat' split
       all_goals exact Or.inl rfl)

/-- The double-click case never writes `_isFolding`. -/
theorem doubleclick_no_flag_write (e : Env) (s : State) (n : SCNotification) (r : Result)
    (h : notify_SCN_DOUBLECLICK e s n = .ok r) : r.cmds.any Cmd.isSetIsFolding = false := by
  unfold notify_SCN_DOUBLECLICK at h
  cases hv : notifyView e n with
  | none =>
    simp only [hv] at h
    cases h
    rfl
  | some v =>
    simp only [hv] at h
    split at h
    · cases hd : delimiterSelection
          (if e.delimiterSelectionOnEntireDocument = true then e.getText v else e.getCurLine v)
          e.leftmostDelimiter e.rightmostDelimiter (positionOfClick e s n v) with
      | error f =>
        rw [hd] at h
        simp at h
      | ok p =>
        rw [hd] at h
        simp only at h
        split at h <;> (cases h; rfl)
    · split at h
      · cases h
        rfl
      · split at h <;> (cases h; rfl)

/-- The end-of-line-format menu never writes `_isFolding`. -/
theorem eolFormatMenu_no_flag_write (e : Env) (c : List Cmd) (h : eolFormatMenu e = some c) :
    c.any Cmd.isSetIsFolding = false := by
  unfold eolFormatMenu at h
  split at h
  · cases h
  · split at h
    · cases h
    · cases h
      rfl

theorem no_flag_write_SCN_MODIFIED (e : Env) (s : State) (n : SCNotification) :
    (notify_SCN_MODIFIED e s n).cmds.any Cmd.isSetIsFolding = false := by
  simp only [notify_SCN_MODIFIED]
  repeat' split
  all_goals simp [Cmd.isSetIsFolding]

theorem no_flag_write_SCN_SAVEPOINT (e : Env) (s : State) (n : SCNotification) :
    (notify_SCN_SAVEPOINT e s n).cmds.any Cmd.isSetIsFolding = false := by
  simp only [notify_SCN_SAVEPOINT]
  repeat' split
  all_goals simp [Cmd.isSetIsFolding]

theorem no_flag_write_TCN_MOUSEHOVERING (e : Env) (s : State) (n : SCNotification) :
    (notify_TCN_MOUSEHOVERING e s n).cmds.any Cmd.isSetIsFolding = false := by
  simp only [notify_TCN_MOUSEHOVERING]
  repeat' split
  all_goals simp [Cmd.isSetIsFolding]

theorem no_flag_write_TCN_MOUSELEAVING (e : Env) (s : State) :
    (notify_TCN_MOUSELEAVING e s).cmds.any Cmd.isSetIsFolding = false := by
  simp only [notify_TCN_MOUSELEAVING]
  repeat' split
  all_goals simp [Cmd.isSetIsFolding]

theorem no_flag_write_TCN_TABDROPPED (e : Env) (s : State) (n : SCNotification) :
    (notify_TCN_TABDROPPED e s n).cmds.any Cmd.isSetIsFolding = false := by
  simp only [notify_TCN_TABDROPPED, dropOnOtherInstance]
  repeat' split
  all_goals simp [Cmd.isSetIsFolding]

theorem no_flag_write_TCN_TABDELETE (e : Env) (s : State) (n : SCNotification) :
    (notify_TCN_TABDELETE e s n).cmds.any Cmd.isSetIsFolding = false := by
  simp only [notify_TCN_TABDELETE]
  repeat' split
  all_goals simp [Cmd.isSetIsFolding]

theorem no_flag_write_NM_CLICK (e : Env) (s : State) (n : SCNotification) :
    (notify_NM_CLICK e s n).cmds.any Cmd.isSetIsFolding = false := by
  simp only [notify_NM_CLICK]
  repeat' split
  all_goals simp [Cmd.isSetIsFolding]

theorem no_flag_write_NM_DBLCLK (e : Env) (s : State) (n : SCNotification) :
    (notify_NM_DBLCLK e s n).cmds.any Cmd.isSetIsFolding = false := by
  simp only [notify_NM_DBLCLK]
  repeat' split
  all_goals first
    | (apply eolFormatMenu_no_flag_write; assumption)
    | simp [Cmd.isSetIsFolding]

theorem no_flag_write_NM_RCLICK (e : Env) (s : State) (n : SCNotification) :
    (notify_NM_RCLICK e s n).cmds.any Cmd.isSetIsFolding = false := by
  simp only [notify_NM_RCLICK, tabContextMenu]
  repeat' split
  all_goals first
    | (apply eolFormatMenu_no_flag_write; assumption)
    | simp [Cmd.isSetIsFolding]

theorem no_flag_write_SCN_MARGINCLICK (e : Env) (s : State) (n : SCNotification) :
    (notify_SCN_MARGINCLICK e s n).cmds.any Cmd.isSetIsFolding = false := by
  simp only [notify_SCN_MARGINCLICK, marginSwitch]
  repeat' split
  all_goals simp [Cmd.isSetIsFolding]

theorem no_flag_write_SCN_MARGINRIGHTCLICK (e : Env) (s : State) (n : SCNotification) :
    (notify_SCN_MARGINRIGHTCLICK e s n).cmds.any Cmd.isSetIsFolding = false := by
  simp only [notify_SCN_MARGINRIGHTCLICK, marginSwitch]
  repeat' split
  all_goals simp [Cmd.isSetIsFolding]

theorem no_flag_write_SCN_FOLDINGSTATECHANGED (e : Env) (s : State) (n : SCNotification) :
    (notify_SCN_FOLDINGSTATECHANGED e s n).cmds.any Cmd.isSetIsFolding = false := by
  simp only [notify_SCN_FOLDINGSTATECHANGED]
  repeat' split
  all_goals simp [Cmd.isSetIsFolding]

theorem no_flag_write_SCN_CHARADDED (e : Env) (s : State) (n : SCNotification) :
    (notify_SCN_CHARADDED e s n).cmds.any Cmd.isSetIsFolding = false := by
  simp only [notify_SCN_CHARADDED]
  repeat' split
  all_goals simp [Cmd.isSetIsFolding]

theorem no_flag_write_SCN_UPDATEUI (e : Env) (s : State) (n : SCNotification) :
    (notify_SCN_UPDATEUI e s n).cmds.any Cmd.isSetIsFolding = false := by
  simp only [notify_SCN_UPDATEUI]
  repeat' split
  all_goals simp [Cmd.isSetIsFolding]

theorem no_flag_write_TTN_GETDISPINFO (e : Env) (s : State) (n : SCNotification) :
    (notify_TTN_GETDISPINFO e s n).cmds.any Cmd.isSetIsFolding = false := by
  simp only [notify_TTN_GETDISPINFO, docTabTooltip]
  repeat' split
  all_goals simp [Cmd.isSetIsFolding]

theorem no_flag_write_SCN_ZOOM (e : Env) (s : State) (n : SCNotification) :
    (notify_SCN_ZOOM e s n).cmds.any Cmd.isSetIsFolding = false := by
  simp only [notify_SCN_ZOOM]
  repeat' split
  all_goals simp [Cmd.isSetIsFolding]

theorem no_flag_write_SCN_PAINTED (e : Env) (s : State) (n : SCNotification) :
    (notify_SCN_PAINTED e s n).cmds.any Cmd.isSetIsFolding = false := by
  simp only [notify_SCN_PAINTED]
  repeat' split
  all_goals simp [Cmd.isSetIsFolding]

theorem no_flag_write_RBN_CHEVRONPUSHED (e : Env) (s : State) (n : SCNotification) :
    (notify_RBN_CHEVRONPUSHED e s n).cmds.any Cmd.isSetIsFolding = false := by
  simp only [notify_RBN_CHEVRONPUSHED]
  repeat' split
  all_goals simp [Cmd.isSetIsFolding]

/-- Only the tab-selection case writes `_isFolding`. -/
theorem notify_no_flag_write (e : Env) (s : State) (n : SCNotification) (r : Result)
    (h : notify e s n = .ok r) (hcode : n.code ≠ Code.TCN_SELCHANGE) :
    r.cmds.any Cmd.isSetIsFolding = false := by
  cases hc : n.code <;> simp only [notify, hc, Except.ok.injEq] at h
  all_goals first
    | exact absurd hc hcode
    | exact doubleclick_no_flag_write e s n r h
    | (subst h; rfl)
    | (subst h; exact no_flag_write_SCN_MODIFIED e s n)
    | (subst h; exact no_flag_write_SCN_SAVEPOINT e s n)
    | (subst h; exact no_flag_write_TCN_MOUSEHOVERING e s n)
    | (subst h; exact no_flag_write_TCN_MOUSELEAVING e s)
    | (subst h; exact no_flag_write_TCN_TABDROPPED e s n)
    | (subst h; exact no_flag_write_TCN_TABDELETE e s n)
    | (subst h; exact no_flag_write_NM_CLICK e s n)
    | (subst h; exact no_flag_write_NM_DBLCLK e s n)
    | (subst h; exact no_flag_write_NM_RCLICK e s n)
    | (subst h; exact no_flag_write_SCN_MARGINCLICK e s n)
    | (subst h; exact no_flag_write_SCN_MARGINRIGHTCLICK e s n)
    | (subst h; exact no_flag_write_SCN_FOLDINGSTATECHANGED e s n)
    | (subst h; exact no_flag_write_SCN_CHARADDED e s n)
    | (subst h; exact no_flag_write_SCN_UPDATEUI e s n)
    | (subst h; exact no_flag_write_TTN_GETDISPINFO e s n)
    | (subst h; exact no_flag_write_SCN_ZOOM e s n)
    | (subst h; exact no_flag_write_SCN_PAINTED e s n)
    | (subst h; exact no_flag_write_RBN_CHEVRONPUSHED e s n)

/-! ### The folding flag (C11) -/

/-- A trace without a write of `_isFolding`: every call runs under the value
the flag had before the trace. -/
theorem flagAtCalls_of_no_write (cs : List Cmd) (isFolding : Bool)
    (h : cs.any Cmd.isSetIsFolding = false) :
    flagAtCalls isFolding cs = cs.map (fun c => (c, isFolding)) := by
  induction cs with
  | nil => rfl
  | cons c cs ih =>
    rw [List.any_cons, Bool.or_eq_false_iff] at h
    cases c <;> first
      | (simp only [flagAtCalls, List.map_cons, ih h.2]; done)
      | simp [Cmd.isSetIsFolding] at h

/-- C11: `isFolding` is a scoped flag.  For every event, if `isFolding` is
false before the dispatch then the dispatch returns (unless it is a double
click in text, which writes no state), `isFolding` is false after it, and
replaying the writes of the flag along the trace, the only call that runs
while the flag is true is an `activateBuffer` call of the
tab-selection-changed case.  A tab-selection-changed event from a tab strip
whose current tab holds a buffer writes the flag to true right before its
`activateBuffer` call and to false right after it, so that this call, and
no other call of the trace, runs while the flag is true, and the state after
the dispatch has the flag false.  A folding-state-changed event from an
editor view records a hot spot if and only if `isFolding` is false in the
state it is dispatched in. -/
theorem isFolding_scoped (e : Env) (s : State) (n : SCNotification) :
    (s.isFolding = false →
      match notify e s n with
      | .ok r => r.st.isFolding = false ∧
          ∀ c f, (c, f) ∈ flagAtCalls s.isFolding r.cmds → f = true →
            n.code = Code.TCN_SELCHANGE ∧ c.isActivateBuffer = true
      | .error _ => n.code = Code.SCN_DOUBLECLICK) ∧
    (n.code = Code.TCN_SELCHANGE → (n.hwndFrom = e.hMainDocTab ∨ n.hwndFrom = e.hSubDocTab) →
      (∀ v, e.getBufferByIndex v (e.getCurrentTabIndex v) ≠ BUFFER_INVALID) →
      ∃ r iView, notify e s n = .ok r ∧
        (iView = View.MAIN_VIEW ↔ n.hwndFrom = e.hMainDocTab) ∧
        r.cmds = [Cmd.peekerSaveCurrentSnapshot s.activeView, Cmd.switchEditViewTo iView,
                  Cmd.setIsFolding true,
                  Cmd.activateBuffer (e.getBufferByIndex iView (e.getCurrentTabIndex iView)) iView,
                  Cmd.setIsFolding false,
                  Cmd.peekerDisplay false] ∧
        flagAtCalls s.isFolding r.cmds =
          [(Cmd.peekerSaveCurrentSnapshot s.activeView, s.isFolding),
           (Cmd.switchEditViewTo iView, s.isFolding),
           (Cmd.activateBuffer (e.getBufferByIndex iView (e.getCurrentTabIndex iView)) iView, true),
           (Cmd.peekerDisplay false, false)] ∧
        r.st = { switchEditViewTo s iView with isFolding := false }) ∧
    (n.code = Code.SCN_FOLDINGSTATECHANGED →
      (n.hwndFrom = e.hMainEditView ∨ n.hwndFrom = e.hSubEditView) →
      ∃ r, notify e s n = .ok r ∧ r.ret = true ∧
        (r.cmds.any Cmd.isAddHotSpot = true ↔ s.isFolding = false)) := by
  refine ⟨?_, ?_, ?_⟩
  · intro hs
    obtain ⟨herr, hok⟩ := notify_frame e s n
    cases hr : notify e s n with
    | error f => exact herr f hr
    | ok r =>
      refine ⟨?_, ?_⟩
      · rcases (hok r hr).2 with h | ⟨_, h⟩
        · exact h.trans hs
        · exact h
      · intro c f hmem hf
        by_cases hcode : n.code = Code.TCN_SELCHANGE
        · refine ⟨hcode, ?_⟩
          simp only [notify, hcode, Except.ok.injEq] at hr
          subst hr
          subst hf
          rw [hs] at hmem
          simp only [notify_TCN_SELCHANGE, writeIsFolding] at hmem
          split at hmem
          · simp [flagAtCalls] at hmem
          · split at hmem
            · simp [flagAtCalls] at hmem
              rw [hmem]
              rfl
            · simp [flagAtCalls] at hmem
        · rw [flagAtCalls_of_no_write r.cmds s.isFolding (notify_no_flag_write e s n r hr hcode),
            List.mem_map] at hmem
          obtain ⟨_, _, heq⟩ := hmem
          have h2 : s.isFolding = f := congrArg Prod.snd heq
          rw [hs, hf] at h2
          cases h2
  · intro hcode hfrom hvalid
    by_cases hm : n.hwndFrom = e.hMainDocTab
    · have hv := hvalid .MAIN_VIEW
      refine ⟨notify_TCN_SELCHANGE e s n, .MAIN_VIEW, by simp [notify, hcode], by simp [hm], ?_, ?_, ?_⟩
      · simp [notify_TCN_SELCHANGE, writeIsFolding, hm, switchEditViewTo, hv]
      · simp [notify_TCN_SELCHANGE, writeIsFolding, hm, switchEditViewTo, hv, flagAtCalls]
      · simp [notify_TCN_SELCHANGE, writeIsFolding, hm, switchEditViewTo, hv]
    · have hsub : n.hwndFrom = e.hSubDocTab := by
        rcases hfrom with h | h
        · exact absurd h hm
        · exact h
      have hm2 : ¬ e.hSubDocTab = e.hMainDocTab := fun h => hm (hsub.trans h)
      have hv := hvalid .SUB_VIEW
      refine ⟨notify_TCN_SELCHANGE e s n, .SUB_VIEW, by simp [notify, hcode], by simp [hm], ?_, ?_, ?_⟩
      · simp [notify_TCN_SELCHANGE, writeIsFolding, hsub, hm2, switchEditViewTo, hv]
      · simp [notify_TCN_SELCHANGE, writeIsFolding, hsub, hm2, switchEditViewTo, hv, flagAtCalls]
      · simp [notify_TCN_SELCHANGE, writeIsFolding, hsub, hm2, switchEditViewTo, hv]
  · intro hcode hfrom
    refine ⟨notify_SCN_FOLDINGSTATECHANGED e s n, by simp [notify, hcode], ?_, ?_⟩
    · simp only [notify_SCN_FOLDINGSTATECHANGED]
      split <;> rfl
    · have hc : (n.hwndFrom == e.hMainEditView || n.hwndFrom == e.hSubEditView) = true := by
        rcases hfrom with h | h <;> simp [h]
      simp only [notify_SCN_FOLDINGSTATECHANGED, hc, if_true]
      cases s.isFolding <;> cases e.docMap.isSome <;> simp [Cmd.isAddHotSpot]

/-- Witness of C11: a tab-selection-changed event from the primary tab strip,
with `isFolding` false before: of the four calls only `activateBuffer` runs
while the flag is true, and the flag is false after the dispatch. -/
theorem isFolding_scoped_witness :
    ∃ r, notify {} {} { code := Code.TCN_SELCHANGE, hwndFrom := 3 } = .ok r ∧
      flagAtCalls false r.cmds =
        [(Cmd.peekerSaveCurrentSnapshot .MAIN_VIEW, false), (Cmd.switchEditViewTo .MAIN_VIEW, false),
         (Cmd.activateBuffer 1 .MAIN_VIEW, true), (Cmd.peekerDisplay false, false)] ∧
      r.st.isFolding = false := by
  obtain ⟨r, iView, h, hi, _, hf, hst⟩ :=
    (isFolding_scoped {} {} { code := Code.TCN_SELCHANGE, hwndFrom := 3 }).2.1 rfl (Or.inl rfl)
      (fun _ => Nat.one_ne_zero)
  have hv : iView = View.MAIN_VIEW := hi.mpr rfl
  subst hv
  exact ⟨r, h, hf, by rw [hst]⟩

/-! ### Edits and the dirty flag (C5) -/

/-- The buffers after a content-modified notification: with one of the
insert, delete, undo or redo bits and a resolved view, the current buffer of
the active view is marked, and nothing else is written. -/
theorem modified_buffers (e : Env) (s : State) (n : SCNotification) :
    (notify_SCN_MODIFIED e s n).st.buffers =
      if (notifyView e n).isSome &&
          hasBits n.modificationType
            (SC_MOD_DELETETEXT ||| SC_MOD_INSERTTEXT ||| SC_PERFORMED_UNDO ||| SC_PERFORMED_REDO) then
        (setDirty s (e.getCurrentBufferID s.activeView) true).buffers
      else s.buffers := by
  simp only [notify_SCN_MODIFIED, setModifiedStatus, if_true]
  cases hv : notifyView e n with
  | none => simp
  | some v =>
    simp only [Option.isSome_some, Bool.true_and]
    cases h1 : hasBits n.modificationType (SC_MOD_DELETETEXT ||| SC_MOD_INSERTTEXT) <;>
      cases h2 : hasBits n.modificationType SC_MOD_CHANGEFOLD <;>
      cases h3 : hasBits n.modificationType
        (SC_MOD_DELETETEXT ||| SC_MOD_INSERTTEXT ||| SC_PERFORMED_UNDO ||| SC_PERFORMED_REDO) <;>
      cases h5 : s.prevWasEdit <;>
      simp [setDirty, h5]

/-- One event dispatched while the buffer `b` is dirty: `b` is dirty after it
unless the event is a save-point-reached notification about `b` with no
overriding condition. -/
theorem dirty_step (e : Env) (s : State) (n : SCNotification) (r : Result) (b : BufferID)
    (hd : (s.buffers b).isDirty = true) (h : notify e s n = .ok r) :
    (r.st.buffers b).isDirty = !clearsDirty e s n b := by
  by_cases hR : n.code = Code.SCN_SAVEPOINTREACHED
  · simp only [notify, hR, Except.ok.injEq] at h
    subst h
    simp only [clearsDirty, notify_SCN_SAVEPOINT, hR, hd]
    cases hb : savePointBuffer e n with
    | none => simp [hd]
    | some id =>
      by_cases hid : id = b
      · subst hid
        simp only [setDirty, savePointDirty, hR, hd, if_true]
        cases e.isSnapshotMode <;> cases e.canUndo s.activeView <;>
          cases (s.buffers id).isLoadedDirty <;> cases (s.buffers id).isUnsync <;> simp
      · have hid2 : ¬ b = id := fun hh => hid hh.symm
        simp [setDirty, hid, hid2, hd]
  · have hclear : clearsDirty e s n b = false := by simp [clearsDirty, hR]
    rw [hclear]
    by_cases hL : n.code = Code.SCN_SAVEPOINTLEFT
    · simp only [notify, hL, Except.ok.injEq] at h
      subst h
      simp only [notify_SCN_SAVEPOINT]
      cases hb : savePointBuffer e n with
      | none => simp [hd]
      | some id =>
        by_cases hid : b = id
        · subst hid
          simp only [setDirty, savePointDirty, hL, if_true]
          cases e.isSnapshotMode <;> cases (s.buffers b).isUnsync <;> simp
        · simp [setDirty, hid, hd]
    · by_cases hM : n.code = Code.SCN_MODIFIED
      · simp only [notify, hM, Except.ok.injEq] at h
        subst h
        rw [modified_buffers]
        split
        · by_cases hid : b = e.getCurrentBufferID s.activeView
          · simp [setDirty, hid]
          · simp [setDirty, hid, hd]
        · simp [hd]
      · rcases notify_buffers_frame e s n r h with hb | hb | hb | hb
        · rw [hb]
          simp [hd]
        · exact absurd hb hM
        · exact absurd hb hR
        · exact absurd hb hL

/-- A run of events dispatched from a state where the buffer `b` is dirty,
none of them a clearing save point of `b`: `b` is dirty after each of them. -/
theorem dirty_run (b : BufferID) (ns : List (Env × SCNotification)) :
    ∀ (s : State) (rs : List Result), (s.buffers b).isDirty = true →
      notifyRun s ns = .ok rs → noClearing b s ns = true →
      rs.length = ns.length ∧ ∀ r ∈ rs, (r.st.buffers b).isDirty = true := by
  induction ns with
  | nil =>
    intro s rs _ h _
    simp only [notifyRun, Except.ok.injEq] at h
    subst h
    simp
  | cons en ns ih =>
    obtain ⟨e, n⟩ := en
    intro s rs hd h hno
    simp only [notifyRun] at h
    simp only [noClearing, Bool.and_eq_true, Bool.not_eq_true'] at hno
    cases hr : notify e s n with
    | error f => simp [hr] at h
    | ok r =>
      rw [hr] at h
      simp only at h
      have hno2 : noClearing b r.st ns = true := by
        have := hno.2
        rw [hr] at this
        exact this
      have hd2 : (r.st.buffers b).isDirty = true := by
        rw [dirty_step e s n r b hd hr, hno.1]
        rfl
      cases hrs : notifyRun r.st ns with
      | error f => simp [hrs] at h
      | ok rs2 =>
        rw [hrs] at h
        simp only [Except.ok.injEq] at h
        subst h
        obtain ⟨hlen, hall⟩ := ih r.st rs2 hd2 hrs hno2
        refine ⟨by simp [hlen], ?_⟩
        intro r2 hmem
        rcases List.mem_cons.mp hmem with h2 | h2
        · rw [h2]
          exact hd2
        · exact hall r2 h2

/-- C5: an insert or delete content-modified notification dispatched from a
resolved view returns and leaves the dirty flag of the current buffer true.
After it the flag remains true after every later event, whatever its kind,
its source and the answers of the collaborators during it, until a
save-point-reached notification about this buffer arrives with no overriding
unsynced or snapshot-mode condition: in every run of later events that
returns and holds no such save point the flag is true after each event (every
prefix of a run is a run, so this holds up to an event that raises an
exception), and an event dispatched while the flag is true leaves it false
exactly when it is such a save point. -/
theorem edit_marks_dirty_until_save_point (e : Env) (s : State) (n0 : SCNotification)
    (hcode : n0.code = Code.SCN_MODIFIED) (hview : (notifyView e n0).isSome = true)
    (hedit : isEdit n0 = true) :
    ∃ r0, notify e s n0 = .ok r0 ∧
      (r0.st.buffers (e.getCurrentBufferID s.activeView)).isDirty = true ∧
      (∀ ns rs, notifyRun r0.st ns = .ok rs →
        noClearing (e.getCurrentBufferID s.activeView) r0.st ns = true →
        rs.length = ns.length ∧
          ∀ r ∈ rs, (r.st.buffers (e.getCurrentBufferID s.activeView)).isDirty = true) ∧
      (∀ e1 s1 n1 r1, (s1.buffers (e.getCurrentBufferID s.activeView)).isDirty = true →
        notify e1 s1 n1 = .ok r1 →
        ((r1.st.buffers (e.getCurrentBufferID s.activeView)).isDirty = false ↔
          n1.code = Code.SCN_SAVEPOINTREACHED ∧
            savePointBuffer e1 n1 = some (e.getCurrentBufferID s.activeView) ∧
            (s1.buffers (e.getCurrentBufferID s.activeView)).isUnsync = false ∧
            ¬ (e1.isSnapshotMode = true ∧ e1.canUndo s1.activeView = false ∧
              (s1.buffers (e.getCurrentBufferID s.activeView)).isLoadedDirty = true))) := by
  have hd0 : ((notify_SCN_MODIFIED e s n0).st.buffers (e.getCurrentBufferID s.activeView)).isDirty
      = true := by
    rw [modified_buffers, hview, hasBits_edit_imp n0.modificationType hedit]
    simp [setDirty]
  refine ⟨notify_SCN_MODIFIED e s n0, by simp [notify, hcode], hd0, ?_, ?_⟩
  · intro ns rs hrun hno
    exact dirty_run _ ns _ rs hd0 hrun hno
  · intro e1 s1 n1 r1 hd1 h1
    rw [dirty_step e1 s1 n1 r1 _ hd1 h1]
    simp only [clearsDirty, hd1]
    cases e1.isSnapshotMode <;> cases e1.canUndo s1.activeView <;>
      cases (s1.buffers (e.getCurrentBufferID s.activeView)).isLoadedDirty <;>
      cases (s1.buffers (e.getCurrentBufferID s.activeView)).isUnsync <;> simp

/-- Witness of C5: an insert from the primary view marks buffer 1 dirty, and
it is dirty after a later selection update and a later fold-level change. -/
theorem edit_marks_dirty_until_save_point_witness :
    ∃ r0, notify {} {} (modifiedFromPrimary SC_MOD_INSERTTEXT) = .ok r0 ∧
      (r0.st.buffers 1).isDirty = true ∧
      ∀ rs, notifyRun r0.st
          [({}, { code := Code.SCN_UPDATEUI, hwndFrom := 1 }),
           ({}, modifiedFromPrimary SC_MOD_CHANGEFOLD)] = .ok rs →
        rs.length = 2 ∧ ∀ r ∈ rs, (r.st.buffers 1).isDirty = true := by
  obtain ⟨r0, h, hd, hrun, _⟩ :=
    edit_marks_dirty_until_save_point {} {} (modifiedFromPrimary SC_MOD_INSERTTEXT) rfl rfl rfl
  refine ⟨r0, h, hd, ?_⟩
  intro rs hrs
  cases h
  exact hrun _ rs hrs rfl

end NppNotification
